import Mathlib

/-!
# RecRadikoExtension: a verification development

Shallow embedding of the pure cores of `modules/timeshift.js`, `modules/auth.js`
and `background.js`, followed by the theorems about them.

Conventions of the embedding:
* an `ArrayBuffer` is the list of its bytes (`List Nat`, each entry a byte value);
* a JavaScript string is the list of its characters (`List Char`);
* asynchronous code is run to completion against an explicit environment that
  lists the answers of the outside world (network, clock, random source), and
  it returns the new store together with the trace of the effects it performed.
-/

namespace RecRadiko

/-! ## timeshift.js: ID3 stripping -/

/-- The `DataView.getUint8` read. Every read issued by `parseAAC` is in range,
because the loop guard `offset + 10 < byteLength` holds when it is made. -/
def getUint8 (view : List Nat) (i : Nat) : Nat :=
  view.getD i 0

/-- The test `view.getUint8(offset) === 0x49 && ... === 0x44 && ... === 0x33`
of `parseAAC`. -/
def hasID3 (view : List Nat) (offset : Nat) : Bool :=
  getUint8 view offset == 0x49 &&
  getUint8 view (offset + 1) == 0x44 &&
  getUint8 view (offset + 2) == 0x33

/-- The `id3Size` of `parseAAC`: the synchsafe integer of bytes 6..9 of the
block at `offset`. All intermediate values stay below `2 ^ 28`, so the 32-bit
integer operators of JavaScript agree with the operators on `Nat`. -/
def id3Size (view : List Nat) (offset : Nat) : Nat :=
  let b0 := getUint8 view (offset + 6) &&& 0x7f
  let b1 := getUint8 view (offset + 7) &&& 0x7f
  let b2 := getUint8 view (offset + 8) &&& 0x7f
  let b3 := getUint8 view (offset + 9) &&& 0x7f
  (b0 <<< 21) ||| (b1 <<< 14) ||| (b2 <<< 7) ||| b3

/-- The `while` loop of `parseAAC`, started at `offset`; the value is the
offset at which the loop is left. -/
def parseAACLoop (buffer : List Nat) (offset : Nat) : Nat :=
  if offset + 10 < buffer.length then
    if hasID3 buffer offset then
      parseAACLoop buffer (offset + (10 + id3Size buffer offset))
    else
      offset
  else
    offset
termination_by buffer.length - offset
decreasing_by omega

/-- The function `parseAAC(buffer)`: `buffer.slice(offset)` for the offset at
which the loop is left. -/
def parseAAC (buffer : List Nat) : List Nat :=
  buffer.drop (parseAACLoop buffer 0)

/-- The offsets `start`, `start + 10 + L0`, `(start + 10 + L0) + 10 + L1`, ...
where each `Li` is the length declared at the current offset; `skipOffset
buffer 0 n` is the `n`-th offset of the sequence that begins at `0`. -/
def skipOffset (buffer : List Nat) (start : Nat) : Nat → Nat
  | 0 => start
  | n + 1 => skipOffset buffer (start + (10 + id3Size buffer start)) n

/-- The ten header bytes of the ID3 block of the spec example: marker, version
`03 00`, flags `00`, synchsafe size bytes `00 00 02 01`. -/
def exampleHeader : List Nat :=
  [0x49, 0x44, 0x33, 0x03, 0x00, 0x00, 0x00, 0x00, 0x02, 0x01]

/-! ## timeshift.js: manifest parsing -/

/-- The characters removed by `String.prototype.trim`: the ECMAScript
`WhiteSpace` and `LineTerminator` code points. -/
def isTrimChar (c : Char) : Bool :=
  c.toNat == 0x09 || c.toNat == 0x0A || c.toNat == 0x0B || c.toNat == 0x0C ||
  c.toNat == 0x0D || c.toNat == 0x20 || c.toNat == 0xA0 || c.toNat == 0x1680 ||
  (0x2000 ≤ c.toNat && c.toNat ≤ 0x200A) || c.toNat == 0x2028 || c.toNat == 0x2029 ||
  c.toNat == 0x202F || c.toNat == 0x205F || c.toNat == 0x3000 || c.toNat == 0xFEFF
/-- The method `l.trim()`: whitespace is removed at both ends. -/
def trim (l : List Char) : List Char :=
  ((l.dropWhile isTrimChar).reverse.dropWhile isTrimChar).reverse
/-- The call `text.split("\n")`. -/
def splitNewline : List Char → List (List Char)
  | [] => [[]]
  | c :: cs =>
    if c = '\n' then [] :: splitNewline cs
    else
      match splitNewline cs with
      | [] => [[c]]
      | l :: ls => (c :: l) :: ls
/-- The call `l.startsWith("#")`. -/
def startsWithHash (l : List Char) : Bool :=
  l.head? == some '#'
/-- The function `parseM3U8(text)`. The filter keeps `l` when
`l && !l.startsWith("#")` is truthy, that is when `l` is not the empty string
and does not start with `#`. -/
def parseM3U8 (text : List Char) : List (List Char) :=
  ((splitNewline text).map trim).filter fun l => !l.isEmpty && !startsWithHash l

/-- Spec wording: a line is blank when it holds nothing but whitespace. -/
def isBlankLine (raw : List Char) : Bool :=
  raw.all isTrimChar

/-- Spec wording of manifest parsing: go through the lines of the text in file
order, ignore the blank ones and the ones that begin with the comment marker
once the surrounding whitespace is removed, and keep the others, trimmed. -/
def segmentLines (text : List Char) : List (List Char) :=
  (splitNewline text).filterMap fun raw =>
    if isBlankLine raw then none
    else if (trim raw).head? = some '#' then none
    else some (trim raw)

/-! ## auth.js: the two-phase handshake and the credential cache -/

/-- A JavaScript string, as the list of its characters. -/
abbrev JSString := List Char

/-- The object returned by `genRandomDeviceInfo()` and stored under `SK.DEVICE`. -/
structure DeviceInfo where
  userId : JSString
  appVersion : JSString
  device : JSString
  userAgent : JSString
deriving DecidableEq

/-- The keys of `chrome.storage.local` named by `SK`; `none` is an absent key. -/
structure Store where
  token : Option JSString
  areaId : Option JSString
  areaInfo : Option JSString
  tokenTime : Option Int
  device : Option DeviceInfo
  prefArea : Option JSString
deriving DecidableEq

/-- The headers of the auth1 request that depend on the device identity. -/
structure Auth1Request where
  appVersion : JSString
  userId : JSString
  device : JSString
  userAgent : JSString
deriving DecidableEq

/-- What `retrieveToken` reads of the auth1 response: `ok`, `status` and the
three response headers (`none` when `headers.get` returns `null`). -/
structure Auth1Response where
  ok : Bool
  status : Nat
  authToken : Option JSString
  keyOffset : Option JSString
  keyLength : Option JSString

/-- The headers of the auth2 request that are not constants. -/
structure Auth2Request where
  appVersion : JSString
  userId : JSString
  device : JSString
  authToken : JSString
  partialKey : JSString
  location : JSString
  userAgent : JSString
deriving DecidableEq

/-- What `retrieveToken` reads of the auth2 response. -/
structure Auth2Response where
  ok : Bool
  status : Nat
  text : JSString

/-- The effects of the authentication code on the outside world, in the order
in which they are performed. -/
inductive Effect where
  | fetchAuth1 (req : Auth1Request)
  | fetchAuth2 (req : Auth2Request)
  | storageSetDevice (d : DeviceInfo)
  | storageSetCredential (token areaId areaInfo : JSString) (time : Int)
  | storageRemoveToken
  | updateAuthRules (userId device : JSString)
  | updatePlayerRules (authToken areaId : Option JSString)
deriving DecidableEq

/-- The answers of the outside world during one run: the clock at the age check
and at the moment the new credential is stored, the value produced by
`genRandomDeviceInfo()`, and the responses of the two endpoints (`none` when
`fetch` rejects). -/
structure World where
  now : Int
  nowAtStore : Int
  randomDevice : DeviceInfo
  auth1 : Auth1Request → Option Auth1Response
  auth2 : Auth2Request → Option Auth2Response

/-- The constants imported from `static.js`: the shared secret
`APP_KEY_MAP["pc_html5"]` and the table `GPS_COORDINATES`, whose entries are
given as the decimal renderings of latitude and longitude. -/
structure Static where
  appKey : JSString
  gps : JSString → Option (JSString × JSString)

/-- The exceptions `retrieveToken` can raise. -/
inductive AuthError where
  | noCoordinates
  | fetchRejected
  | auth1Failed (status : Nat)
  | auth1NoToken
  | invalidCharacter
  | auth2Failed (status : Nat)
deriving DecidableEq

/-- The object `{ authToken, areaId: detectedArea, areaInfo }` returned by
`retrieveToken`. -/
structure Credential where
  authToken : JSString
  areaId : JSString
  areaInfo : JSString
deriving DecidableEq

/-- The object `{ authToken, areaId, areaInfo }` returned by
`loadOrRefreshToken`; a field is `none` when it is `undefined`. -/
structure AuthResult where
  authToken : Option JSString
  areaId : Option JSString
  areaInfo : Option JSString
deriving DecidableEq

/-- The constant `TOKEN_TTL_MS = 70 * 60 * 1000`. -/
def TOKEN_TTL_MS : Int := 70 * 60 * 1000

/-- Value of a string of decimal digits. -/
def digitsValue (ds : List Char) : Nat :=
  ds.foldl (fun acc c => acc * 10 + (c.toNat - 48)) 0

/-- The call `parseInt(s, 10)`: leading whitespace is skipped, a sign is read,
then the longest run of decimal digits; `none` is `NaN`. Numbers are exact
integers (they agree with the doubles of JavaScript below `2 ^ 53`). -/
def parseInt10 (s : JSString) : Option Int :=
  let body := s.dropWhile isTrimChar
  let negative := body.head? == some '-'
  let unsigned := if body.head? == some '-' || body.head? == some '+' then body.tail else body
  let digits := unsigned.takeWhile Char.isDigit
  if digits.isEmpty then none
  else if negative then some (-(digitsValue digits : Int))
  else some (digitsValue digits : Int)

/-- Sum of two numbers, `NaN` when either is `NaN`. -/
def addNumber (a b : Option Int) : Option Int :=
  match a, b with
  | some x, some y => some (x + y)
  | _, _ => none

/-- The clamping of an argument of `substring`: `NaN` and negative values
become `0`, values above the length become the length. -/
def clampIndex (len : Nat) (x : Option Int) : Nat :=
  match x with
  | none => 0
  | some v => min v.toNat len

/-- The method `s.substring(start, stop)`: both arguments are clamped to
`0 .. length` and swapped when `start > stop`. -/
def substring (s : JSString) (start stop : Option Int) : JSString :=
  let a := clampIndex s.length start
  let b := clampIndex s.length stop
  (s.drop (min a b)).take (max a b - min a b)

/-- The 64 characters of the base64 alphabet. -/
def base64Alphabet : List Char :=
  "ABCDEFGHIJKLMNOPQRSTUVWXYZabcdefghijklmnopqrstuvwxyz0123456789+/".toList

/-- The base64 character of a 6-bit value. -/
def base64Char (n : Nat) : Char :=
  base64Alphabet.getD n 'A'

/-- Base64 encoding with padding of a list of byte values (RFC 4648). -/
def base64Encode : List Nat → List Char
  | a :: b :: c :: rest =>
    base64Char (a / 4) :: base64Char (a % 4 * 16 + b / 16) ::
      base64Char (b % 16 * 4 + c / 64) :: base64Char (c % 64) :: base64Encode rest
  | [a, b] =>
    [base64Char (a / 4), base64Char (a % 4 * 16 + b / 16), base64Char (b % 16 * 4), '=']
  | [a] => [base64Char (a / 4), base64Char (a % 4 * 16), '=', '=']
  | [] => []

/-- The function `btoa(s)`: the base64 encoding of the characters of `s` read
as bytes; `none` is the `InvalidCharacterError` raised for a character above
`0xFF`. -/
def btoa (s : JSString) : Option JSString :=
  if s.all (fun c => c.toNat ≤ 0xFF) then some (base64Encode (s.map Char.toNat)) else none

/-- The partial key of `retrieveToken`:
`btoa(rawKey.substring(keyOffset, keyOffset + keyLength))`. -/
def partialKeyOf (rawKey : JSString) (keyOffset keyLength : Option Int) : Option JSString :=
  btoa (substring rawKey keyOffset (addNumber keyOffset keyLength))

/-- The expression `areaInfo.split(",")[0]`: the text before the first comma. -/
def firstField (s : JSString) : JSString :=
  s.takeWhile (fun c => c != ',')

/-- The auth1 request built from the device identity. -/
def auth1Request (d : DeviceInfo) : Auth1Request :=
  { appVersion := d.appVersion, userId := d.userId, device := d.device,
    userAgent := d.userAgent }

/-- The auth2 request built from the device identity, the token of auth1, the
partial key and the coordinates of the area. -/
def auth2Request (d : DeviceInfo) (authToken partialKey lat lng : JSString) : Auth2Request :=
  { appVersion := d.appVersion, userId := d.userId, device := d.device,
    authToken := authToken, partialKey := partialKey,
    location := lat ++ ",".toList ++ lng ++ ",130".toList, userAgent := d.userAgent }

/-- The function `retrieveToken(deviceInfo, areaId)`: its result (or the
exception it raises) and the requests it sent. -/
def retrieveToken (cfg : Static) (w : World) (deviceInfo : DeviceInfo) (areaId : JSString) :
    Except AuthError Credential × List Effect :=
  match (cfg.gps areaId).orElse (fun _ => cfg.gps "JP13".toList) with
  | none => (.error .noCoordinates, [])
  | some (lat, lng) =>
    match w.auth1 (auth1Request deviceInfo) with
    | none => (.error .fetchRejected, [.fetchAuth1 (auth1Request deviceInfo)])
    | some r1 =>
      if !r1.ok then
        (.error (.auth1Failed r1.status), [.fetchAuth1 (auth1Request deviceInfo)])
      else
        let keyOffset := parseInt10 (r1.keyOffset.getD "0".toList)
        let keyLength := parseInt10 (r1.keyLength.getD "16".toList)
        match r1.authToken with
        | none => (.error .auth1NoToken, [.fetchAuth1 (auth1Request deviceInfo)])
        | some [] => (.error .auth1NoToken, [.fetchAuth1 (auth1Request deviceInfo)])
        | some (t :: ts) =>
          match partialKeyOf cfg.appKey keyOffset keyLength with
          | none => (.error .invalidCharacter, [.fetchAuth1 (auth1Request deviceInfo)])
          | some partialKey =>
            match w.auth2 (auth2Request deviceInfo (t :: ts) partialKey lat lng) with
            | none =>
              (.error .fetchRejected,
                [.fetchAuth1 (auth1Request deviceInfo),
                  .fetchAuth2 (auth2Request deviceInfo (t :: ts) partialKey lat lng)])
            | some r2 =>
              if !r2.ok then
                (.error (.auth2Failed r2.status),
                  [.fetchAuth1 (auth1Request deviceInfo),
                    .fetchAuth2 (auth2Request deviceInfo (t :: ts) partialKey lat lng)])
              else
                (.ok { authToken := t :: ts,
                       areaId := firstField (trim r2.text),
                       areaInfo := trim r2.text },
                  [.fetchAuth1 (auth1Request deviceInfo),
                    .fetchAuth2 (auth2Request deviceInfo (t :: ts) partialKey lat lng)])

/-- The outcome of a run of stateful code: the value returned or the exception
raised, the store afterwards, and the effects performed. -/
structure Run where
  result : Except AuthError AuthResult
  store : Store
  trace : List Effect

/-- Truthiness of a stored string: present and not empty. -/
def truthy (s : Option JSString) : Bool :=
  match s with
  | some (_ :: _) => true
  | _ => false

/-- The function `loadOrRefreshToken(preferredAreaId)`. -/
def loadOrRefreshToken (cfg : Static) (w : World) (preferredAreaId : Option JSString)
    (stored : Store) : Run :=
  let areaId := ((preferredAreaId.orElse fun _ => stored.prefArea).getD "JP13".toList)
  let age := w.now - stored.tokenTime.getD 0
  if truthy stored.token && decide (age < TOKEN_TTL_MS) then
    { result := .ok { authToken := stored.token, areaId := stored.areaId,
                      areaInfo := stored.areaInfo },
      store := stored, trace := [] }
  else
    let deviceInfo := stored.device.getD w.randomDevice
    let store1 : Store :=
      match stored.device with
      | some _ => stored
      | none => { stored with device := some w.randomDevice }
    let trace1 : List Effect :=
      match stored.device with
      | some _ => []
      | none => [.storageSetDevice w.randomDevice]
    match retrieveToken cfg w deviceInfo areaId with
    | (.error e, sent) => { result := .error e, store := store1, trace := trace1 ++ sent }
    | (.ok result, sent) =>
      { result := .ok { authToken := some result.authToken, areaId := some result.areaId,
                        areaInfo := some result.areaInfo },
        store := { store1 with token := some result.authToken,
                               areaId := some result.areaId,
                               areaInfo := some result.areaInfo,
                               tokenTime := some w.nowAtStore },
        trace := trace1 ++ sent ++
          [.storageSetCredential result.authToken result.areaId result.areaInfo
            w.nowAtStore] }

/-! ## background.js: initialisation -/

/-- The function `init(forceReauth)` of `background.js`: the store afterwards
and the effects performed. An exception of `loadOrRefreshToken` is caught and
logged; the two rule updates are recorded as effects. -/
def init (cfg : Static) (w : World) (forceReauth : Bool) (stored : Store) :
    Store × List Effect :=
  let store0 : Store :=
    if forceReauth then { stored with token := none, tokenTime := none } else stored
  let trace0 : List Effect := if forceReauth then [.storageRemoveToken] else []
  let run := loadOrRefreshToken cfg w none store0
  match run.result with
  | .error _ => (run.store, trace0 ++ run.trace)
  | .ok result =>
    let authRules : List Effect :=
      match run.store.device with
      | some device => [.updateAuthRules device.userId device.device]
      | none => []
    (run.store,
      trace0 ++ run.trace ++ authRules ++ [.updatePlayerRules result.authToken result.areaId])

/-- The four stored credential fields: token, area id, area descriptor and
issue time. -/
def credentialFields (s : Store) :
    Option JSString × Option JSString × Option JSString × Option Int :=
  (s.token, s.areaId, s.areaInfo, s.tokenTime)

/-- The four fields as one issuance writes them. -/
def issuedFields (c : Credential) (time : Int) :
    Option JSString × Option JSString × Option JSString × Option Int :=
  (some c.authToken, some c.areaId, some c.areaInfo, some time)

/-- The effects that write the device identity when none is stored. -/
def deviceWrites (w : World) (stored : Store) : List Effect :=
  match stored.device with
  | some _ => []
  | none => [.storageSetDevice w.randomDevice]

/-! ### Example worlds -/

/-- A device identity used in the examples. -/
def exampleDevice : DeviceInfo :=
  { userId := "0123456789abcdef".toList, appVersion := "8.1.11".toList,
    device := "34_SP1A.210812.016".toList,
    userAgent := "radiko/8.1.11 (Android; 14; SP1A.210812.016)".toList }

/-- Constants used in the examples: a 40-character secret and a one-entry
coordinate table. -/
def exampleStatic : Static :=
  { appKey := "bcd151073c03b352e1ef2fd66c32209da9ca0afa".toList,
    gps := fun area =>
      if area = "JP13".toList then some ("35.689488".toList, "139.691706".toList) else none }

/-- A world in which both endpoints answer with success. -/
def exampleWorld : World :=
  { now := 10000000, nowAtStore := 10000500, randomDevice := exampleDevice,
    auth1 := fun _ =>
      some { ok := true, status := 200, authToken := some "NEWTOKEN".toList,
             keyOffset := some "5".toList, keyLength := some "3".toList },
    auth2 := fun _ =>
      some { ok := true, status := 200, text := "JP13,東京都,tokyo Japan\r\n".toList } }

/-- The successful world ten hours later: the example credential has expired. -/
def laterWorld : World :=
  { exampleWorld with now := 45000000, nowAtStore := 45000500 }

/-- A world in which auth1 answers with status 503. -/
def failingWorld : World :=
  { exampleWorld with
    auth1 := fun _ =>
      some { ok := false, status := 503, authToken := none, keyOffset := none,
             keyLength := none } }

/-- A store holding a device identity and a credential issued for `JP13` at
time `9000000`, with preferred area `JP27`. -/
def exampleStore : Store :=
  { token := some "OLDTOKEN".toList, areaId := some "JP13".toList,
    areaInfo := some "JP13,東京都,tokyo Japan".toList, tokenTime := some 9000000,
    device := some exampleDevice, prefArea := some "JP27".toList }

/-! ## The ECMAScript `Date` functions called by timeshift.js

`Date.UTC`, `new Date(value)` and the `getUTC*` getters, after ECMA-262
(section "Date Objects", abstract operations `Day`, `DayFromYear`,
`YearFromTime`, `MonthFromTime`, `DateFromTime`, `MakeTime`, `MakeDay`,
`MakeDate`, `TimeClip`). A time value is a number of milliseconds since the
epoch; `none` is `NaN` (an invalid date). -/

/-- Milliseconds per day. -/
def msPerDay : Int := 86400000

/-- The operation `Day(t) = floor(t / msPerDay)`. -/
def dayOfTime (t : Int) : Int := t / msPerDay

/-- The operation `DayFromYear(y)`: the day number of the first day of year `y`. -/
def dayFromYear (y : Int) : Int :=
  365 * (y - 1970) + (y - 1969) / 4 - (y - 1901) / 100 + (y - 1601) / 400

/-- The year that contains day number `day`: the largest `y` with
`dayFromYear y <= day` (see `yearFromDay_spec`), computed from the mean year
length estimate, which is off by at most one. -/
def yearFromDay (day : Int) : Int :=
  let y := 1970 + 400 * day / 146097
  if day < dayFromYear y then y - 1
  else if dayFromYear (y + 1) ≤ day then y + 1
  else y

/-- The operation `YearFromTime(t)`. -/
def yearFromTime (t : Int) : Int := yearFromDay (dayOfTime t)

/-- The operation `InLeapYear`, as a test on the year: `DaysInYear(y) = 366`. -/
def isLeapYear (y : Int) : Bool :=
  y % 4 == 0 && (y % 100 != 0 || y % 400 == 0)

/-- The operation `DayWithinYear(t)`. -/
def dayWithinYear (t : Int) : Int := dayOfTime t - dayFromYear (yearFromTime t)

/-- Day within the year of the first day of month `m` (0 = January). -/
def monthStart (m : Int) (leap : Bool) : Int :=
  let l : Int := if leap then 1 else 0
  if m = 0 then 0
  else if m = 1 then 31
  else if m = 2 then 59 + l
  else if m = 3 then 90 + l
  else if m = 4 then 120 + l
  else if m = 5 then 151 + l
  else if m = 6 then 181 + l
  else if m = 7 then 212 + l
  else if m = 8 then 243 + l
  else if m = 9 then 273 + l
  else if m = 10 then 304 + l
  else 334 + l

/-- The month (0 = January) of a day within a year, by the table of
`MonthFromTime`. -/
def monthOfDayWithinYear (d : Int) (leap : Bool) : Int :=
  let l : Int := if leap then 1 else 0
  if d < 31 then 0
  else if d < 59 + l then 1
  else if d < 90 + l then 2
  else if d < 120 + l then 3
  else if d < 151 + l then 4
  else if d < 181 + l then 5
  else if d < 212 + l then 6
  else if d < 243 + l then 7
  else if d < 273 + l then 8
  else if d < 304 + l then 9
  else if d < 334 + l then 10
  else 11

/-- The operation `MonthFromTime(t)`, the value of `getUTCMonth()`. -/
def monthFromTime (t : Int) : Int :=
  monthOfDayWithinYear (dayWithinYear t) (isLeapYear (yearFromTime t))

/-- The operation `DateFromTime(t)`, the value of `getUTCDate()`. -/
def dateFromTime (t : Int) : Int :=
  dayWithinYear t - monthStart (monthFromTime t) (isLeapYear (yearFromTime t)) + 1

/-- The operation `HourFromTime(t)`, the value of `getUTCHours()`. -/
def hourFromTime (t : Int) : Int := t / 3600000 % 24

/-- The operation `MinFromTime(t)`, the value of `getUTCMinutes()`. -/
def minFromTime (t : Int) : Int := t / 60000 % 60

/-- The operation `SecFromTime(t)`, the value of `getUTCSeconds()`. -/
def secFromTime (t : Int) : Int := t / 1000 % 60

/-- The operation `MakeTime(hour, min, sec, ms)`. -/
def makeTime (hour min sec ms : Int) : Int :=
  hour * 3600000 + min * 60000 + sec * 1000 + ms

/-- The operation `MakeDay(year, month, date)`: months outside `0..11` carry
into the year, the date counts on from the first of the month. -/
def makeDay (year month date : Int) : Int :=
  let ym := year + month / 12
  let mn := month % 12
  dayFromYear ym + monthStart mn (isLeapYear ym) + date - 1

/-- The operation `MakeDate(day, time)`. -/
def makeDate (day time : Int) : Int := day * msPerDay + time

/-- The operation `TimeClip(time)`: values beyond 8.64e15 ms are invalid. -/
def timeClip (time : Int) : Option Int :=
  if -8640000000000000 ≤ time ∧ time ≤ 8640000000000000 then some time else none

/-- The value of `new Date(Date.UTC(year, month, date, hours, minutes,
seconds))`: `NaN` when an argument is `NaN`; a year in `0..99` means
`1900 + year`. -/
def dateUTC (year month date hours minutes seconds : Option Int) : Option Int := do
  let y ← year
  let m ← month
  let dt ← date
  let h ← hours
  let mi ← minutes
  let s ← seconds
  let yr := if 0 ≤ y ∧ y ≤ 99 then 1900 + y else y
  timeClip (makeDate (makeDay yr m dt) (makeTime h mi s 0))

/-! ## timeshift.js: time utilities and chunk planning -/

/-- The decimal digit of a value below ten. -/
def digitChar (d : Nat) : Char :=
  match d with
  | 0 => '0' | 1 => '1' | 2 => '2' | 3 => '3' | 4 => '4'
  | 5 => '5' | 6 => '6' | 7 => '7' | 8 => '8' | _ => '9'

/-- The decimal digits of `n`, most significant first; `fuel` bounds the number
of digits produced. -/
def natToDigitsAux : Nat → Nat → List Char
  | 0, n => [digitChar (n % 10)]
  | fuel + 1, n =>
    if n < 10 then [digitChar n] else natToDigitsAux fuel (n / 10) ++ [digitChar (n % 10)]

/-- The decimal digits of a natural number (`n` itself is fuel enough, see
`natToDigits_eq`). -/
def natToDigits (n : Nat) : List Char :=
  natToDigitsAux n n

/-- The conversion `String(n)` of an integer. -/
def numberToString (n : Int) : JSString :=
  if n < 0 then '-' :: natToDigits n.natAbs else natToDigits n.natAbs

/-- The call `s.padStart(2, "0")`. -/
def padStart2 (s : JSString) : JSString :=
  List.replicate (2 - s.length) '0' ++ s

/-- The call `s.slice(a, b)` for constant indices `0 <= a <= b`. -/
def slice (s : JSString) (a b : Nat) : JSString :=
  (s.drop a).take (b - a)

/-- The unary plus `+s` on the strings the time utilities meet: a string of
decimal digits has its decimal value and the empty string is `0`. Any other
string is mapped to `none` (`NaN`); strings with a sign, a fraction, an
exponent, a radix mark or surrounding whitespace are outside this embedding. -/
def toNumber (s : JSString) : Option Int :=
  if s.all Char.isDigit then some (digitsValue s : Int) else none

/-- The string built from the getters of a date by `addSeconds`: the year as
it is, the five other fields padded to two characters; every getter of an
invalid date is `NaN`. -/
def formatDate (dt : Option Int) : JSString :=
  match dt with
  | none => "NaNNaNNaNNaNNaNNaN".toList
  | some t =>
    numberToString (yearFromTime t) ++ padStart2 (numberToString (monthFromTime t + 1)) ++
      padStart2 (numberToString (dateFromTime t)) ++
      padStart2 (numberToString (hourFromTime t)) ++
      padStart2 (numberToString (minFromTime t)) ++
      padStart2 (numberToString (secFromTime t))

/-- The function `addSeconds(timeStr, seconds)`. -/
def addSeconds (timeStr : JSString) (seconds : Int) : JSString :=
  let y := toNumber (slice timeStr 0 4)
  let mo := (toNumber (slice timeStr 4 6)).map (· - 1)
  let d := toNumber (slice timeStr 6 8)
  let h := toNumber (slice timeStr 8 10)
  let mi := toNumber (slice timeStr 10 12)
  let s := toNumber (slice timeStr 12 14)
  formatDate (dateUTC y mo d h mi (s.map (· + seconds)))

/-- The inner function `toDate(t)` of `diffSeconds`. -/
def toDate (t : JSString) : Option Int :=
  dateUTC (toNumber (slice t 0 4)) ((toNumber (slice t 4 6)).map (· - 1))
    (toNumber (slice t 6 8)) (toNumber (slice t 8 10)) (toNumber (slice t 10 12))
    (toNumber (slice t 12 14))

/-- The function `diffSeconds(start, end)`:
`Math.round((toDate(end) - toDate(start)) / 1000)`, `NaN` when a date is
invalid. `Math.round` rounds to the nearest integer, ties upwards. -/
def diffSeconds (start stop : JSString) : Option Int :=
  match toDate stop, toDate start with
  | some e, some s => some ((e - s + 500) / 1000)
  | _, _ => none

/-- Modelled from the spec: the constant `FIXED_SEEK_SEC` of `static.js`, a
file that is not among the sources; the spec fixes the chunk span at 300
seconds. -/
def FIXED_SEEK_SEC : Int := 300

/-- The parameters of a manifest request of `fetchM3U8Chunk`: the query
parameters `station_id`, `ft`, `to` (here `to_`) and the two credential
headers. -/
structure ManifestRequest where
  stationId : JSString
  ft : JSString
  to_ : JSString
  authToken : JSString
  areaId : JSString
deriving DecidableEq

/-- What `fetchM3U8Chunk` reads of a response: the status and the body text;
`r.ok` is a status in `200..299`. -/
structure ManifestResponse where
  status : Nat
  text : JSString

/-- The exceptions raised by `downloadTimefree` and the functions it calls. -/
inductive DownloadError where
  | endNotAfterStart
  | fetchRejected
  | playlist404 (stationId ft to_ : JSString)
  | playlistFailed (status : Nat)
  | noSegments
  | segmentFailed (status : Nat) (url : JSString)
deriving DecidableEq

/-- The observable steps of a download, in the order performed: calls of
`onProgress`, manifest requests, segment requests (with the ordinal of the
segment) and the artifact handed to `chrome.downloads.download`. -/
inductive DownloadEvent where
  | progress (phase : JSString) (done total : Int)
  | fetchManifest (req : ManifestRequest)
  | fetchSegment (index : Nat) (url authToken areaId : JSString)
  | download (filename : JSString) (bytes : List Nat)
deriving DecidableEq

/-- The function `fetchM3U8Chunk(stationId, ft, to, authToken, areaId)` against
the server `net` (`none` when `fetch` rejects). -/
def fetchM3U8Chunk (net : ManifestRequest → Option ManifestResponse)
    (stationId ft to_ authToken areaId : JSString) : Except DownloadError (List JSString) :=
  match net { stationId := stationId, ft := ft, to_ := to_, authToken := authToken,
              areaId := areaId } with
  | none => .error .fetchRejected
  | some r =>
    if r.status = 404 then .error (.playlist404 stationId ft to_)
    else if ¬ (200 ≤ r.status ∧ r.status ≤ 299) then .error (.playlistFailed r.status)
    else .ok (parseM3U8 r.text)

/-- The `while (elapsed < totalSecs)` loop of phase 1 of `downloadTimefree`,
from the state `(chunkStart, elapsed)` with `allSegmentUrls = acc`: the segment
URLs collected (or the exception that ended the loop) and the steps performed. -/
def collectChunks (net : ManifestRequest → Option ManifestResponse)
    (stationId endTime authToken areaId : JSString) (totalSecs : Int)
    (chunkStart : JSString) (elapsed : Int) (acc : List JSString) :
    Except DownloadError (List JSString) × List DownloadEvent :=
  if elapsed < totalSecs then
    let chunkEnd :=
      if elapsed + FIXED_SEEK_SEC ≥ totalSecs then endTime
      else addSeconds chunkStart FIXED_SEEK_SEC
    let steps : List DownloadEvent :=
      [.progress "playlist".toList elapsed totalSecs,
        .fetchManifest { stationId := stationId, ft := chunkStart, to_ := chunkEnd,
                         authToken := authToken, areaId := areaId }]
    match fetchM3U8Chunk net stationId chunkStart chunkEnd authToken areaId with
    | .error e => (.error e, steps)
    | .ok urls =>
      let rest := collectChunks net stationId endTime authToken areaId totalSecs chunkEnd
        (elapsed + FIXED_SEEK_SEC) (acc ++ urls)
      (rest.1, steps ++ rest.2)
  else
    (.ok acc, [])
termination_by (totalSecs - elapsed).toNat
decreasing_by
  simp only [FIXED_SEEK_SEC]
  omega

/-- The function `downloadTimefree` up to the end of phase 1: the duration
check and the collection of the segment URLs of all chunks. A `NaN` duration
passes the check `totalSecs <= 0` and skips the loop. -/
def planDownload (net : ManifestRequest → Option ManifestResponse)
    (stationId startTime endTime authToken areaId : JSString) :
    Except DownloadError (List JSString) × List DownloadEvent :=
  match diffSeconds startTime endTime with
  | none => (.ok [], [])
  | some totalSecs =>
    if totalSecs ≤ 0 then (.error .endNotAfterStart, [])
    else collectChunks net stationId endTime authToken areaId totalSecs startTime 0 []

/-- The `(ft, to)` ranges of the manifests requested, in order. -/
def manifestRanges (steps : List DownloadEvent) : List (JSString × JSString) :=
  steps.filterMap fun
    | .fetchManifest req => some (req.ft, req.to_)
    | _ => none

/-- The number of days of month `month` (1 = January). -/
def daysInMonth (month : Nat) (leap : Bool) : Nat :=
  if month = 2 then (if leap then 29 else 28)
  else if month = 4 ∨ month = 6 ∨ month = 9 ∨ month = 11 then 30
  else 31

/-- A timestamp in the format `YYYYMMDDHHMMSS`: 14 decimal digits that name a
calendar date and a time of day. -/
def validTimestamp (t : JSString) : Bool :=
  t.length == 14 && t.all Char.isDigit &&
  (1 ≤ digitsValue (slice t 4 6) && digitsValue (slice t 4 6) ≤ 12) &&
  (1 ≤ digitsValue (slice t 6 8) &&
    digitsValue (slice t 6 8)
      ≤ daysInMonth (digitsValue (slice t 4 6)) (isLeapYear (digitsValue (slice t 0 4)))) &&
  digitsValue (slice t 8 10) < 24 && digitsValue (slice t 10 12) < 60 &&
  digitsValue (slice t 12 14) < 60

/-- A manifest server that answers every request with status 200 and a
one-segment playlist. -/
def exampleManifestServer : ManifestRequest → Option ManifestResponse :=
  fun _ => some { status := 200, text := "#EXTM3U\nhttps://x/seg1.aac\n".toList }

/-- The relation between two consecutive manifest ranges `a`, `b`: `b` starts
where `a` ended, and `a` ends exactly `FIXED_SEEK_SEC = 300` seconds after its
start. -/
def consecutiveRanges (a b : JSString × JSString) : Prop :=
  b.1 = a.2 ∧ diffSeconds a.1 a.2 = some 300

/-- A manifest server that answers every request with status 404. -/
def notFoundManifestServer : ManifestRequest → Option ManifestResponse :=
  fun _ => some { status := 404, text := [] }

/-! ## rules.js: the player rules -/

/-- One entry of `requestHeaders`: `{ header, operation, value }`. -/
structure HeaderOperation where
  header : JSString
  operation : JSString
  value : JSString
deriving DecidableEq

/-- A dynamic rule of `chrome.declarativeNetRequest`, with the fields the
extension writes: `id`, `priority`, `action.type`, `action.requestHeaders`,
`condition.urlFilter` and `condition.resourceTypes`. -/
structure Rule where
  id : Nat
  priority : Nat
  actionType : JSString
  requestHeaders : List HeaderOperation
  urlFilter : JSString
  resourceTypes : List JSString
deriving DecidableEq

/-- The host call `chrome.declarativeNetRequest.updateDynamicRules({
removeRuleIds, addRules })`, after the documentation of the interface: the
rules whose id is listed are removed, then the new rules are added, as one
atomic operation; the call is rejected (`none`) and changes nothing when a rule
to add shares its id with a remaining rule or with another rule to add. The
rule count ceiling of the host is not part of this embedding. -/
def updateDynamicRules (existing : List Rule) (removeRuleIds : List Nat)
    (addRules : List Rule) : Option (List Rule) :=
  let kept := existing.filter fun r => !removeRuleIds.contains r.id
  if (addRules.map (·.id)).Nodup ∧ ∀ r ∈ addRules, r.id ∉ kept.map (·.id) then
    some (kept ++ addRules)
  else
    none

/-- The rule object built by `updatePlayerRules` for the `i`-th URL pattern. -/
def playerRule (radioBase : Nat) (authToken areaId : JSString) (i : Nat)
    (urlFilter : JSString) : Rule :=
  { id := radioBase + i,
    priority := 1,
    actionType := "modifyHeaders".toList,
    requestHeaders :=
      [ { header := "X-Radiko-AuthToken".toList, operation := "set".toList,
          value := authToken },
        { header := "X-Radiko-AreaId".toList, operation := "set".toList, value := areaId } ],
    urlFilter := urlFilter,
    resourceTypes := ["xmlhttprequest".toList, "media".toList, "other".toList] }

/-- The function `updatePlayerRules(authToken, areaId)` on the rule set
`existingRules` returned by `getDynamicRules()`: the rule set after the call of
`updateDynamicRules` (`none` when the host rejects it). The constants
`RULE_IDS.RADIO_BASE` and `PLAYER_URL_FILTERS` of `static.js`, a file that is
not among the sources, are the parameters `radioBase` and `playerUrlFilters`. -/
def updatePlayerRules (radioBase : Nat) (playerUrlFilters : List JSString)
    (authToken areaId : JSString) (existingRules : List Rule) : Option (List Rule) :=
  let removeIds := (existingRules.filter fun r => decide (r.id ≥ radioBase)).map (·.id)
  let addRules := playerUrlFilters.enum.map fun p => playerRule radioBase authToken areaId p.1 p.2
  updateDynamicRules existingRules removeIds addRules

/-! ## timeshift.js: the file name -/

/-- The function `buildFilename(stationId, startTime)`. -/
def buildFilename (stationId startTime : JSString) : JSString :=
  let date := slice startTime 0 8
  let time := slice startTime 8 14
  "RADIKO_".toList ++ stationId ++ "_".toList ++ date ++ "_".toList ++ time ++ ".aac".toList

/-- An effect respects the device identity `d`: it is not a write of the device
identity, and if it is a handshake request it carries the four values of `d`. -/
def respectsDevice (d : DeviceInfo) : Effect → Prop
  | .fetchAuth1 req => req = auth1Request d
  | .fetchAuth2 req =>
    req.userId = d.userId ∧ req.device = d.device ∧ req.appVersion = d.appVersion ∧
      req.userAgent = d.userAgent
  | .storageSetDevice _ => False
  | _ => True

/-- An effect that is neither a handshake request nor a write of the device
identity. -/
def beforeHandshake : Effect → Prop
  | .fetchAuth1 _ => False
  | .fetchAuth2 _ => False
  | .storageSetDevice _ => False
  | _ => True

/-! ## timeshift.js: the segment fetcher

`fetchSegments` starts `MAX_WORKERS` asynchronous workers over the shared
variables `index`, `done` and `results`. JavaScript runs them one at a time: a
worker runs until its next `await`, and the order in which the awaited fetches
and bodies arrive decides which worker runs next. The embedding is a state
machine: `resumeWorker` is the run of one worker from one `await` to the next,
and a schedule picks, at every step, which waiting worker is resumed. -/

/-- What a worker reads of a segment response: the status (`r.ok` is a status
in `200..299`) and the bytes of `r.arrayBuffer()`. -/
structure SegmentResponse where
  status : Nat
  body : List Nat

/-- Where a worker of `fetchSegments` stands: at `await fetch(url)` for the
segment `i`, at `await r.arrayBuffer()` for the segment `i` (holding the bytes
the response will deliver), returned, or ended by its `throw`. -/
inductive WorkerState where
  | awaitingFetch (i : Nat)
  | awaitingBody (i : Nat) (body : List Nat)
  | finished
  | thrown
deriving DecidableEq

/-- The state of a run of `fetchSegments`: the shared variables `index`, `done`
and `results` (`none` is an empty slot of `new Array(total)`), the workers, the
first exception thrown by a worker (with which `Promise.all` rejects), and the
steps performed so far. -/
structure PoolState where
  index : Nat
  done : Nat
  results : List (Option (List Nat))
  workers : List WorkerState
  failure : Option DownloadError
  trace : List DownloadEvent
deriving DecidableEq

/-- The head of the worker loop, run by a worker until its first `await`:
`while (index < total) { const i = index++; ... fetch(url, ...)`; the worker
returns when the test fails. The value is the state and where the worker
stands. -/
def loopHead (segmentUrls : List JSString) (authToken areaId : JSString) (s : PoolState) :
    PoolState × WorkerState :=
  if s.index < segmentUrls.length then
    ({ s with index := s.index + 1,
              trace := s.trace ++
                [.fetchSegment s.index (segmentUrls.getD s.index []) authToken areaId] },
      .awaitingFetch s.index)
  else
    (s, .finished)

/-- The call `worker()` made by `Array.from`: a new worker runs the loop head. -/
def spawnWorker (segmentUrls : List JSString) (authToken areaId : JSString) (s : PoolState) :
    PoolState :=
  let next := loopHead segmentUrls authToken areaId s
  { next.1 with workers := next.1.workers ++ [next.2] }

/-- The run of worker `w` from the `await` at which it waits to its next
`await`, its return or its `throw`. After `await fetch`: `if (!r.ok) throw`,
then `r.arrayBuffer()` is awaited. After `await r.arrayBuffer()`:
`results[i] = parseAAC(buf); done++; onProgress?.(done, total)` and the loop
head. A worker that is not waiting does nothing. -/
def resumeWorker (segmentUrls : List JSString) (authToken areaId : JSString)
    (segNet : Nat → JSString → Option SegmentResponse) (s : PoolState) (w : Nat) : PoolState :=
  match s.workers.getD w .finished with
  | .awaitingFetch i =>
    match segNet i (segmentUrls.getD i []) with
    | none =>
      { s with workers := s.workers.set w .thrown,
               failure := s.failure.orElse fun _ => some .fetchRejected }
    | some r =>
      if ¬ (200 ≤ r.status ∧ r.status ≤ 299) then
        { s with workers := s.workers.set w .thrown,
                 failure := s.failure.orElse fun _ =>
                   some (.segmentFailed r.status (segmentUrls.getD i [])) }
      else
        { s with workers := s.workers.set w (.awaitingBody i r.body) }
  | .awaitingBody i body =>
    let stored : PoolState :=
      { s with results := s.results.set i (some (parseAAC body)),
               done := s.done + 1,
               trace := s.trace ++
                 [.progress "segments".toList ((s.done + 1 : Nat) : Int)
                   ((segmentUrls.length : Nat) : Int)] }
    let next := loopHead segmentUrls authToken areaId stored
    { next.1 with workers := next.1.workers.set w next.2 }
  | _ => s

/-- A worker that waits at an `await`. -/
def isWaiting : WorkerState → Bool
  | .awaitingFetch _ => true
  | .awaitingBody _ _ => true
  | _ => false

/-- The workers that wait at an `await`, by number. -/
def waitingWorkers (s : PoolState) : List Nat :=
  (List.range s.workers.length).filter fun w => isWaiting (s.workers.getD w .finished)

/-- The run of the pool under the schedule `sched`: at step `n` the waiting
worker number `sched n` (counted among the waiting ones, modulo their number)
is resumed, until no worker waits. Every order of arrival is a schedule. The
run is over after at most `2 * total` steps (`runPool_settles`). -/
def runPool (segmentUrls : List JSString) (authToken areaId : JSString)
    (segNet : Nat → JSString → Option SegmentResponse) (sched : Nat → Nat) :
    Nat → Nat → PoolState → PoolState
  | 0, _, s => s
  | fuel + 1, n, s =>
    match waitingWorkers s with
    | [] => s
    | w :: ws =>
      runPool segmentUrls authToken areaId segNet sched fuel (n + 1)
        (resumeWorker segmentUrls authToken areaId segNet s
          ((w :: ws).getD (sched n % (ws.length + 1)) w))

/-- The state in which `fetchSegments` starts its workers. -/
def initialPool (segmentUrls : List JSString) : PoolState :=
  { index := 0, done := 0, results := List.replicate segmentUrls.length none,
    workers := [], failure := none, trace := [] }

/-- The state after `Array.from({ length: MAX_WORKERS }, () => worker())`. -/
def spawnedPool (maxWorkers : Nat) (segmentUrls : List JSString)
    (authToken areaId : JSString) : PoolState :=
  (List.range maxWorkers).foldl (fun s _ => spawnWorker segmentUrls authToken areaId s)
    (initialPool segmentUrls)

/-- The function `fetchSegments(segmentUrls, authToken, areaId, onProgress)`
with `MAX_WORKERS = maxWorkers` (a constant of `static.js`, a file that is not
among the sources), against the segment server `segNet` (asked with the ordinal
and the URL; `none` when `fetch` rejects) and under the schedule `sched`: the
state when no worker waits any more. `await Promise.all(workers)` throws
`failure` when it is set, and `results` is returned otherwise. -/
def fetchSegments (maxWorkers : Nat) (segmentUrls : List JSString)
    (authToken areaId : JSString) (segNet : Nat → JSString → Option SegmentResponse)
    (sched : Nat → Nat) : PoolState :=
  runPool segmentUrls authToken areaId segNet sched (2 * segmentUrls.length) 0
    (spawnedPool maxWorkers segmentUrls authToken areaId)

/-- The bytes a `Blob` takes from one entry of `buffers`: the bytes of the
buffer, or the text `undefined` for an empty slot. -/
def blobPart : Option (List Nat) → List Nat
  | some bytes => bytes
  | none => "undefined".toList.map Char.toNat

/-- The bytes of `new Blob(buffers, { type: "audio/aac" })`. -/
def blobBytes (buffers : List (Option (List Nat))) : List Nat :=
  (buffers.map blobPart).flatten

/-- The function `downloadTimefree`: phase 1 (`planDownload`), the check of the
segment count, phase 2 (`fetchSegments`) and phase 3, the artifact handed to
`chrome.downloads.download` under the name `buildFilename(stationId,
startTime)`. The value is the outcome and the steps performed, those of workers
that run on after a failure included. -/
def downloadTimefree (maxWorkers : Nat) (net : ManifestRequest → Option ManifestResponse)
    (segNet : Nat → JSString → Option SegmentResponse) (sched : Nat → Nat)
    (stationId startTime endTime authToken areaId : JSString) :
    Except DownloadError Unit × List DownloadEvent :=
  match planDownload net stationId startTime endTime authToken areaId with
  | (.error e, steps) => (.error e, steps)
  | (.ok allSegmentUrls, steps) =>
    if allSegmentUrls.length = 0 then (.error .noSegments, steps)
    else
      let pool := fetchSegments maxWorkers allSegmentUrls authToken areaId segNet sched
      match pool.failure with
      | some e => (.error e, steps ++ pool.trace)
      | none =>
        (.ok (),
          steps ++ pool.trace ++
            [.download (buildFilename stationId startTime) (blobBytes pool.results)])

/-- The text of the `Error` that `downloadTimefree` throws; `none` for the
`TypeError` of a rejected `fetch`, whose text is the host's. -/
def errorMessage : DownloadError → Option JSString
  | .endNotAfterStart => some "endTime は startTime より後にしてください".toList
  | .fetchRejected => none
  | .playlist404 stationId ft to_ =>
    some ("playlist 404: ".toList ++ stationId ++ " ".toList ++ ft ++ "–".toList ++ to_ ++
      " は取得できません".toList)
  | .playlistFailed status =>
    some ("playlist fetch failed: HTTP ".toList ++ numberToString status)
  | .noSegments => some "セグメントが 0 件でした".toList
  | .segmentFailed status url =>
    some ("segment fetch failed: HTTP ".toList ++ numberToString status ++ " — ".toList ++ url)

/-! ## background.js: the download message -/

/-- The steps of the service worker while it handles a download message. -/
inductive WorkerEvent where
  | auth (e : Effect)
  | startKeepAlive
  | stopKeepAlive
  | download (e : DownloadEvent)
deriving DecidableEq

/-- The exceptions of `handleMessage` for a download message. -/
inductive MessageError where
  | missingParameters
  | auth (e : AuthError)
  | download (e : DownloadError)
deriving DecidableEq

/-- The case `"DOWNLOAD_TIMEFREE"` of `handleMessage(msg)`, for the message
fields `stationId`, `startTime`, `endTime` (`none` when a field is missing):
the response or the exception, the store afterwards and the steps performed.
An `undefined` area id of a cached credential reaches the request headers as
the text `undefined`. -/
def handleDownloadTimefree (cfg : Static) (w : World) (maxWorkers : Nat)
    (net : ManifestRequest → Option ManifestResponse)
    (segNet : Nat → JSString → Option SegmentResponse) (sched : Nat → Nat)
    (stationId startTime endTime : Option JSString) (stored : Store) :
    Except MessageError Unit × Store × List WorkerEvent :=
  if !truthy stationId || !truthy startTime || !truthy endTime then
    (.error .missingParameters, stored, [])
  else
    let run := loadOrRefreshToken cfg w none stored
    match run.result with
    | .error e => (.error (.auth e), run.store, run.trace.map .auth)
    | .ok credential =>
      let job := downloadTimefree maxWorkers net segNet sched (stationId.getD [])
        (startTime.getD []) (endTime.getD []) (credential.authToken.getD "undefined".toList)
        (credential.areaId.getD "undefined".toList)
      let steps := run.trace.map .auth ++ [.startKeepAlive] ++ job.2.map .download ++
        [.stopKeepAlive]
      match job.1 with
      | .error e => (.error (.download e), run.store, steps)
      | .ok _ => (.ok (), run.store, steps)

/-- The request of a segment event: ordinal, URL and the two credential
headers. -/
def segmentOf : DownloadEvent → Option (Nat × JSString × JSString × JSString)
  | .fetchSegment i url authToken areaId => some (i, url, authToken, areaId)
  | _ => none

/-- The events of the segment fetcher: segment requests and calls of
`onProgress`. -/
def isPoolEvent : DownloadEvent → Prop
  | .fetchSegment _ _ _ _ => True
  | .progress _ _ _ => True
  | _ => False

/-- The events of the planning phase: manifest requests and calls of
`onProgress`. -/
def isPlanEvent : DownloadEvent → Prop
  | .fetchManifest _ => True
  | .progress _ _ _ => True
  | _ => False

/-- A segment request or the hand-over of the artifact to the file sink. -/
def isSegmentOrArtifact : DownloadEvent → Prop
  | .fetchSegment _ _ _ _ => True
  | .download _ _ => True
  | _ => False

/-! ## Example segment servers -/

/-- Three segment URLs. -/
def exampleSegmentUrls : List JSString :=
  ["https://x/seg0.aac".toList, "https://x/seg1.aac".toList, "https://x/seg2.aac".toList]

/-- A segment server that answers the request for segment `i` with status 200
and the body `[255, 241, i]`, which carries no ID3 tag. -/
def exampleSegmentServer : Nat → JSString → Option SegmentResponse :=
  fun i _ => some { status := 200, body := [255, 241, i] }

/-- A segment server that answers the request for segment 0 with status 500
and every other request as `exampleSegmentServer` does. -/
def failingSegmentServer : Nat → JSString → Option SegmentResponse :=
  fun i url => if i = 0 then some { status := 500, body := [] } else exampleSegmentServer i url

/-- A manifest server that answers every request with status 200 and a
playlist without segment lines. -/
def emptyManifestServer : ManifestRequest → Option ManifestResponse :=
  fun _ => some { status := 200, text := "#EXTM3U\n".toList }

/-! ## The invariant of the segment fetcher -/

/-- The request for segment `i` is answered with the success `r`. -/
def segmentOk (segmentUrls : List JSString)
    (segNet : Nat → JSString → Option SegmentResponse) (i : Nat) (r : SegmentResponse) : Prop :=
  segNet i (segmentUrls.getD i []) = some r ∧ 200 ≤ r.status ∧ r.status ≤ 299

/-- The request for segment `i` makes its worker throw `e`: `fetch` rejects, or
the response is not a success. -/
def segmentBad (segmentUrls : List JSString)
    (segNet : Nat → JSString → Option SegmentResponse) (i : Nat) (e : DownloadError) : Prop :=
  (segNet i (segmentUrls.getD i []) = none ∧ e = .fetchRejected) ∨
    ∃ r, segNet i (segmentUrls.getD i []) = some r ∧ ¬ (200 ≤ r.status ∧ r.status ≤ 299) ∧
      e = .segmentFailed r.status (segmentUrls.getD i [])

/-- What holds of the shared variables and the workers (`workers w` is where
worker `w` stands, `none` while it runs or before it is started) at every point
of a run of `fetchSegments`: every index below `index` has been requested
exactly once, and its segment is being fetched, is being read, has been stored
in its slot of `results`, or has failed and set `failure`. -/
structure PoolInv (segmentUrls : List JSString) (authToken areaId : JSString)
    (segNet : Nat → JSString → Option SegmentResponse)
    (workers : Nat → Option WorkerState) (index : Nat) (results : List (Option (List Nat)))
    (failure : Option DownloadError) (trace : List DownloadEvent) : Prop where
  results_length : results.length = segmentUrls.length
  index_le : index ≤ segmentUrls.length
  fetch_lt : ∀ w i, workers w = some (.awaitingFetch i) → i < index
  body_ok : ∀ w i b, workers w = some (.awaitingBody i b) →
    i < index ∧ ∃ r, segmentOk segmentUrls segNet i r ∧ r.body = b
  finished_done : ∀ w, workers w = some .finished → segmentUrls.length ≤ index
  thrown_failed : ∀ w, workers w = some .thrown → failure ≠ none
  failure_cause : ∀ e, failure = some e → ∃ j, j < index ∧ segmentBad segmentUrls segNet j e
  status : ∀ i, i < index →
    (∃ w, workers w = some (.awaitingFetch i)) ∨
    (∃ w b, workers w = some (.awaitingBody i b)) ∨
    (∃ r, segmentOk segmentUrls segNet i r ∧ results[i]? = some (some (parseAAC r.body))) ∨
    ((∃ e, segmentBad segmentUrls segNet i e) ∧ failure ≠ none)
  fetches : trace.filterMap segmentOf
    = (List.range index).map fun i => (i, segmentUrls.getD i [], authToken, areaId)

/-- The invariant `PoolInv` of a state of the pool. -/
def PoolOk (segmentUrls : List JSString) (authToken areaId : JSString)
    (segNet : Nat → JSString → Option SegmentResponse) (s : PoolState) : Prop :=
  PoolInv segmentUrls authToken areaId segNet (fun u => s.workers[u]?) s.index s.results
    s.failure s.trace

/-- The number of steps a worker has left before it takes a new index. -/
def workerSteps : WorkerState → Nat
  | .awaitingFetch _ => 2
  | .awaitingBody _ _ => 1
  | _ => 0

/-- A bound on the number of steps a run of the pool has left: two for every
index not yet taken, and those of the waiting workers. -/
def stepsLeft (segmentUrls : List JSString) (s : PoolState) : Nat :=
  2 * (segmentUrls.length - s.index) + (s.workers.map workerSteps).sum

/-- A world in which auth1 answers the key offset `5` and the key length `-2`. -/
def negativeLengthWorld : World :=
  { exampleWorld with
    auth1 := fun _ =>
      some { ok := true, status := 200, authToken := some "NEWTOKEN".toList,
             keyOffset := some "5".toList, keyLength := some "-2".toList } }

/-! # Theorems -/

/-! ## ID3 stripping -/

theorem parseAACLoop_of_short (buffer : List Nat) (offset : Nat)
    (h : buffer.length ≤ offset + 10) : parseAACLoop buffer offset = offset := by
  rw [parseAACLoop]
  simp [Nat.not_lt.mpr h]

theorem parseAACLoop_of_no_tag (buffer : List Nat) (offset : Nat)
    (h : hasID3 buffer offset = false) : parseAACLoop buffer offset = offset := by
  rw [parseAACLoop]
  simp [h]

theorem parseAACLoop_of_tag (buffer : List Nat) (offset : Nat)
    (hlen : offset + 10 < buffer.length) (h : hasID3 buffer offset = true) :
    parseAACLoop buffer offset
      = parseAACLoop buffer (offset + (10 + id3Size buffer offset)) := by
  rw [parseAACLoop]
  simp [hlen, h]

theorem le_parseAACLoop (buffer : List Nat) (offset : Nat) :
    offset ≤ parseAACLoop buffer offset := by
  induction offset using parseAACLoop.induct buffer with
  | case1 offset hlen hm ih =>
    rw [parseAACLoop_of_tag _ _ hlen hm]
    omega
  | case2 offset hlen hm =>
    rw [parseAACLoop_of_no_tag _ _ (by simpa using hm)]
  | case3 offset hlen =>
    rw [parseAACLoop_of_short _ _ (by omega)]

theorem synchsafe_or_eq_add (a b c d : Nat) (hb : b < 128)
    (hc : c < 128) (hd : d < 128) :
    (a <<< 21) ||| (b <<< 14) ||| (c <<< 7) ||| d
      = a * 2 ^ 21 + b * 2 ^ 14 + c * 2 ^ 7 + d := by
  simp only [Nat.shiftLeft_eq]
  have e1 : a * 2 ^ 21 ||| b * 2 ^ 14 = 2 ^ 14 * (a * 2 ^ 7 + b) := by
    have h := Nat.mul_add_lt_is_or (show b * 2 ^ 14 < 2 ^ 21 by omega) a
    rw [Nat.mul_comm (2 ^ 21) a] at h
    rw [← h]
    omega
  have e2 : 2 ^ 14 * (a * 2 ^ 7 + b) ||| c * 2 ^ 7
      = 2 ^ 7 * (a * 2 ^ 14 + b * 2 ^ 7 + c) := by
    have h := Nat.mul_add_lt_is_or (show c * 2 ^ 7 < 2 ^ 14 by omega) (a * 2 ^ 7 + b)
    rw [← h]
    omega
  have e3 : 2 ^ 7 * (a * 2 ^ 14 + b * 2 ^ 7 + c) ||| d
      = 2 ^ 7 * (a * 2 ^ 14 + b * 2 ^ 7 + c) + d :=
    (Nat.mul_add_lt_is_or (show d < 2 ^ 7 by omega) _).symm
  rw [e1, e2, e3]
  omega

/-- The synchsafe length as a sum of four 7-bit digits. -/
theorem id3Size_eq_sum (view : List Nat) (offset : Nat) :
    id3Size view offset
      = (getUint8 view (offset + 6) % 128) * 2 ^ 21
        + (getUint8 view (offset + 7) % 128) * 2 ^ 14
        + (getUint8 view (offset + 8) % 128) * 2 ^ 7
        + getUint8 view (offset + 9) % 128 := by
  have hand : ∀ x : Nat, x &&& 0x7f = x % 128 := fun x =>
    Nat.and_pow_two_sub_one_eq_mod x 7
  simp only [id3Size, hand]
  exact synchsafe_or_eq_add _ _ _ _ (Nat.mod_lt _ (by decide)) (Nat.mod_lt _ (by decide))
    (Nat.mod_lt _ (by decide))

theorem id3Size_lt (view : List Nat) (offset : Nat) : id3Size view offset < 2 ^ 28 := by
  rw [id3Size_eq_sum]
  have h0 := Nat.mod_lt (getUint8 view (offset + 6)) (show 0 < 128 by decide)
  have h1 := Nat.mod_lt (getUint8 view (offset + 7)) (show 0 < 128 by decide)
  have h2 := Nat.mod_lt (getUint8 view (offset + 8)) (show 0 < 128 by decide)
  have h3 := Nat.mod_lt (getUint8 view (offset + 9)) (show 0 < 128 by decide)
  omega


theorem getUint8_drop (buffer : List Nat) (k i : Nat) :
    getUint8 (buffer.drop k) i = getUint8 buffer (k + i) := by
  simp [getUint8, List.getD_eq_getElem?_getD, List.getElem?_drop]

theorem hasID3_drop (buffer : List Nat) (k : Nat) :
    hasID3 (buffer.drop k) 0 = hasID3 buffer k := by
  simp [hasID3, getUint8_drop, Nat.add_assoc]

theorem hasID3_false_of_short (buffer : List Nat) (offset : Nat)
    (h : buffer.length ≤ offset + 2) : hasID3 buffer offset = false := by
  have : getUint8 buffer (offset + 2) = 0 := by
    simp [getUint8, List.getD_eq_getElem?_getD, List.getElem?_eq_none h]
  simp [hasID3, this]

/-- One tag at the front, none after it: the loop is left at `10 + L`. -/
theorem parseAACLoop_single_tag (buffer : List Nat) (hlen : 10 < buffer.length)
    (hmagic : hasID3 buffer 0 = true)
    (hnext : hasID3 buffer (10 + id3Size buffer 0) = false) :
    parseAACLoop buffer 0 = 10 + id3Size buffer 0 := by
  rw [parseAACLoop_of_tag buffer 0 (by omega) hmagic, Nat.zero_add]
  exact parseAACLoop_of_no_tag _ _ hnext

/-- The loop is left at an offset of the skip sequence: every earlier offset of
the sequence carried the marker with more than ten bytes left, and at the final
one the marker is missing or at most ten bytes are left. -/
theorem parseAACLoop_spec (buffer : List Nat) (offset : Nat) :
    ∃ n, parseAACLoop buffer offset = skipOffset buffer offset n ∧
      (∀ m, m < n → hasID3 buffer (skipOffset buffer offset m) = true ∧
        skipOffset buffer offset m + 10 < buffer.length) ∧
      (hasID3 buffer (skipOffset buffer offset n) = false ∨
        buffer.length ≤ skipOffset buffer offset n + 10) := by
  induction offset using parseAACLoop.induct buffer with
  | case1 offset hlen hm ih =>
    obtain ⟨n, hn, hbefore, hlast⟩ := ih
    refine ⟨n + 1, ?_, ?_, ?_⟩
    · rw [parseAACLoop_of_tag _ _ hlen hm]
      exact hn
    · intro m hm'
      cases m with
      | zero => exact ⟨hm, hlen⟩
      | succ m => exact hbefore m (by omega)
    · exact hlast
  | case2 offset hlen hm =>
    refine ⟨0, ?_, ?_, ?_⟩
    · rw [parseAACLoop_of_no_tag _ _ (by simpa using hm)]
      rfl
    · intro m hm'
      omega
    · left
      simpa [skipOffset] using hm
  | case3 offset hlen =>
    refine ⟨0, ?_, ?_, ?_⟩
    · rw [parseAACLoop_of_short _ _ (by omega)]
      rfl
    · intro m hm'
      omega
    · right
      simp only [skipOffset]
      omega


/-- After the header of the spec example (declared length 257) the loop stops
at offset `10 + 257` when the marker does not follow there. -/
theorem parseAAC_exampleHeader (tail : List Nat) (hlen : 0 < tail.length)
    (hnext : hasID3 tail 257 = false) :
    parseAAC (exampleHeader ++ tail) = tail.drop 257 := by
  have hsize : id3Size (exampleHeader ++ tail) 0 = 257 := by
    simp [id3Size, getUint8, exampleHeader]
    decide
  have hdrop : (exampleHeader ++ tail).drop (10 + 257) = tail.drop 257 := by
    rw [show 10 + 257 = exampleHeader.length + 257 from rfl, List.drop_append]
  have hnext2 : hasID3 (exampleHeader ++ tail) (10 + id3Size (exampleHeader ++ tail) 0)
      = false := by
    rw [hsize, ← hasID3_drop, hdrop, hasID3_drop]
    exact hnext
  rw [parseAAC, parseAACLoop_single_tag _ (by simp [exampleHeader]; omega)
    (by simp [hasID3, getUint8, exampleHeader]) hnext2, hsize, hdrop]

/-- C1: for a buffer longer than 10 bytes that begins with the marker
`0x49 0x44 0x33`, `parseAAC` skips at least the first `10 + L` bytes, where `L`
is the synchsafe value of bytes 6..9 (bit 7 of each byte ignored, a 28-bit
value); when no marker is present at offset `10 + L` the result is exactly the
input from offset `10 + L` on, which is empty when `10 + L` is past the end. -/
theorem parseAAC_skips_first_block (buffer : List Nat) (hlen : 10 < buffer.length)
    (hmagic : hasID3 buffer 0 = true) :
    id3Size buffer 0
        = (((getUint8 buffer 6 &&& 0x7f) <<< 21) ||| ((getUint8 buffer 7 &&& 0x7f) <<< 14)
            ||| ((getUint8 buffer 8 &&& 0x7f) <<< 7) ||| (getUint8 buffer 9 &&& 0x7f)) ∧
      id3Size buffer 0
        = (getUint8 buffer 6 % 128) * 2 ^ 21 + (getUint8 buffer 7 % 128) * 2 ^ 14
            + (getUint8 buffer 8 % 128) * 2 ^ 7 + getUint8 buffer 9 % 128 ∧
      id3Size buffer 0 < 2 ^ 28 ∧
      (∃ k, 10 + id3Size buffer 0 ≤ k ∧ parseAAC buffer = buffer.drop k) ∧
      (hasID3 buffer (10 + id3Size buffer 0) = false →
        parseAAC buffer = buffer.drop (10 + id3Size buffer 0) ∧
        (buffer.length ≤ 10 + id3Size buffer 0 → parseAAC buffer = [])) := by
  refine ⟨by simp [id3Size], by simpa using id3Size_eq_sum buffer 0, id3Size_lt buffer 0,
    ?_, ?_⟩
  · refine ⟨parseAACLoop buffer 0, ?_, rfl⟩
    rw [parseAACLoop_of_tag buffer 0 (by omega) hmagic, Nat.zero_add]
    exact le_parseAACLoop _ _
  · intro hnext
    have h : parseAAC buffer = buffer.drop (10 + id3Size buffer 0) := by
      rw [parseAAC, parseAACLoop_single_tag buffer hlen hmagic hnext]
    refine ⟨h, fun hpast => ?_⟩
    rw [h]
    exact List.drop_eq_nil_of_le hpast

/-- Witness for C1: a 13-byte buffer with one tag of declared length 1. -/
theorem parseAAC_skips_first_block_witness :
    parseAAC [0x49, 0x44, 0x33, 3, 0, 0, 0, 0, 0, 1, 0xAA, 0xFF, 0xF1] = [0xFF, 0xF1] :=
  ((parseAAC_skips_first_block [0x49, 0x44, 0x33, 3, 0, 0, 0, 0, 0, 1, 0xAA, 0xFF, 0xF1]
    (by decide) (by decide)).2.2.2.2 (by decide)).1

/-- C2, as stated, fails: with 514 filler bytes (here zeros) after the header
`49 44 33 03 00 00 00 00 02 01`, stripping `10 + 257` bytes leaves the last 257
filler bytes in front of the ADTS frame, so the payload does not start at
`0xFF 0xF1`. -/
theorem parseAAC_example_514_counterexample :
    parseAAC (exampleHeader ++ (List.replicate 514 0 ++ [0xFF, 0xF1, 0x4C, 0x80]))
        = List.replicate 257 0 ++ [0xFF, 0xF1, 0x4C, 0x80] ∧
      (parseAAC (exampleHeader ++ (List.replicate 514 0 ++ [0xFF, 0xF1, 0x4C, 0x80]))).head?
        = some 0 ∧
      parseAAC (exampleHeader ++ (List.replicate 514 0 ++ [0xFF, 0xF1, 0x4C, 0x80]))
        ≠ [0xFF, 0xF1, 0x4C, 0x80] := by
  have hget : ∀ i, i < 514 →
      getUint8 (List.replicate 514 0 ++ [0xFF, 0xF1, 0x4C, 0x80]) i = 0 := by
    intro i hi
    rw [getUint8, List.getD_eq_getElem?_getD,
      List.getElem?_append_left (by rw [List.length_replicate]; exact hi),
      List.getElem?_replicate_of_lt hi]
    rfl
  have hnext : hasID3 (List.replicate 514 0 ++ [0xFF, 0xF1, 0x4C, 0x80]) 257 = false := by
    rw [hasID3, hget 257 (by omega)]
    rfl
  have hdrop : List.drop 257 (List.replicate 514 0 ++ [0xFF, 0xF1, 0x4C, 0x80])
      = List.replicate 257 0 ++ [0xFF, 0xF1, 0x4C, 0x80] := by
    rw [List.drop_append_of_le_length (by rw [List.length_replicate]; omega),
      List.drop_replicate]
  have h := parseAAC_exampleHeader (List.replicate 514 0 ++ [0xFF, 0xF1, 0x4C, 0x80])
    (by rw [List.length_append, List.length_replicate]; omega) hnext
  rw [hdrop] at h
  rw [h, show List.replicate 257 (0 : Nat) = 0 :: List.replicate 256 0 from rfl]
  exact ⟨rfl, rfl, fun hc => absurd (List.head_eq_of_cons_eq hc) (by decide)⟩

/-- C2, amended: when the header `49 44 33 03 00 00 00 00 02 01` is followed by
257 filler bytes (the declared synchsafe length) and then an ADTS frame
`0xFF 0xF1 ...`, `parseAAC` strips exactly the first `10 + 257` bytes and the
payload is the ADTS frame. -/
theorem parseAAC_example_257 (filler rest : List Nat) (hfill : filler.length = 257) :
    parseAAC (exampleHeader ++ (filler ++ 0xFF :: 0xF1 :: rest))
        = (exampleHeader ++ (filler ++ 0xFF :: 0xF1 :: rest)).drop (10 + 257) ∧
      parseAAC (exampleHeader ++ (filler ++ 0xFF :: 0xF1 :: rest)) = 0xFF :: 0xF1 :: rest := by
  have hdrop : (filler ++ 0xFF :: 0xF1 :: rest).drop 257 = 0xFF :: 0xF1 :: rest := by
    rw [← hfill]
    exact List.drop_left _ _
  have hnext : hasID3 (filler ++ 0xFF :: 0xF1 :: rest) 257 = false := by
    rw [← Nat.add_zero 257, ← hasID3_drop, hdrop]
    simp [hasID3, getUint8]
  have h := parseAAC_exampleHeader (filler ++ 0xFF :: 0xF1 :: rest) (by simp) hnext
  rw [hdrop] at h
  refine ⟨?_, h⟩
  rw [h, show 10 + 257 = exampleHeader.length + 257 from rfl, List.drop_append, hdrop]

/-- Witness for C2 (amended): 257 zero bytes of filler and a 4-byte frame. -/
theorem parseAAC_example_257_witness :
    parseAAC (exampleHeader ++ (List.replicate 257 0 ++ 0xFF :: 0xF1 :: [0x4C, 0x80]))
      = 0xFF :: 0xF1 :: [0x4C, 0x80] :=
  (parseAAC_example_257 (List.replicate 257 0) [0x4C, 0x80] (List.length_replicate _ _)).2

/-- C3, as stated, fails: a buffer that is exactly one 10-byte tag header of
declared length 0 has the marker at offset 0 and none at the next offset of the
sequence (10), yet `parseAAC` returns all ten bytes, and they begin with the
marker. -/
theorem parseAAC_short_tag_counterexample :
    hasID3 [0x49, 0x44, 0x33, 3, 0, 0, 0, 0, 0, 0] 0 = true ∧
      skipOffset [0x49, 0x44, 0x33, 3, 0, 0, 0, 0, 0, 0] 0 1 = 10 ∧
      hasID3 [0x49, 0x44, 0x33, 3, 0, 0, 0, 0, 0, 0] 10 = false ∧
      parseAAC [0x49, 0x44, 0x33, 3, 0, 0, 0, 0, 0, 0]
        = [0x49, 0x44, 0x33, 3, 0, 0, 0, 0, 0, 0] ∧
      parseAAC [0x49, 0x44, 0x33, 3, 0, 0, 0, 0, 0, 0]
        ≠ List.drop 10 [0x49, 0x44, 0x33, 3, 0, 0, 0, 0, 0, 0] ∧
      hasID3 (parseAAC [0x49, 0x44, 0x33, 3, 0, 0, 0, 0, 0, 0]) 0 = true := by
  have h : parseAAC [0x49, 0x44, 0x33, 3, 0, 0, 0, 0, 0, 0]
      = [0x49, 0x44, 0x33, 3, 0, 0, 0, 0, 0, 0] := by
    rw [parseAAC, parseAACLoop_of_short _ _ (by decide)]
    rfl
  refine ⟨by decide, by decide, by decide, h, ?_, ?_⟩
  · rw [h]
    decide
  · rw [h]
    decide

/-- C3, amended: `parseAAC` returns the input from offset `k` on, where `k` is
the first offset of the sequence `0, 10 + L0, (10 + L0) + 10 + L1, ...` at which
the marker is not present or at most ten bytes are left (`k + 10 >= length`);
a returned payload longer than ten bytes never begins with the marker. -/
theorem parseAAC_stops_at_first_unmarked_or_short (buffer : List Nat) :
    (∃ n, parseAAC buffer = buffer.drop (skipOffset buffer 0 n) ∧
      (∀ m, m < n → hasID3 buffer (skipOffset buffer 0 m) = true ∧
        skipOffset buffer 0 m + 10 < buffer.length) ∧
      (hasID3 buffer (skipOffset buffer 0 n) = false ∨
        buffer.length ≤ skipOffset buffer 0 n + 10)) ∧
      (10 < (parseAAC buffer).length → hasID3 (parseAAC buffer) 0 = false) := by
  obtain ⟨n, hn, hbefore, hlast⟩ := parseAACLoop_spec buffer 0
  have hp : parseAAC buffer = buffer.drop (skipOffset buffer 0 n) := by
    rw [parseAAC, hn]
  refine ⟨⟨n, hp, hbefore, hlast⟩, ?_⟩
  intro hlong
  rw [hp, List.length_drop] at hlong
  rw [hp, hasID3_drop]
  rcases hlast with h | h
  · exact h
  · omega

/-- C4: a buffer whose bytes at offsets 0..2 are not `0x49 0x44 0x33`, in
particular every buffer shorter than 3 bytes, is returned unchanged. -/
theorem parseAAC_unchanged_without_marker (buffer : List Nat)
    (h : hasID3 buffer 0 = false ∨ buffer.length < 3) : parseAAC buffer = buffer := by
  have h0 : hasID3 buffer 0 = false := by
    rcases h with h | h
    · exact h
    · exact hasID3_false_of_short buffer 0 (by omega)
  rw [parseAAC, parseAACLoop_of_no_tag _ _ h0]
  rfl

/-- Witness for C4: a bare ADTS frame start and a 2-byte buffer. -/
theorem parseAAC_unchanged_without_marker_witness :
    parseAAC [0xFF, 0xF1, 0x4C, 0x80, 0x49, 0x44, 0x33, 0, 0, 0, 0, 0] 
        = [0xFF, 0xF1, 0x4C, 0x80, 0x49, 0x44, 0x33, 0, 0, 0, 0, 0] ∧
      parseAAC [0x49, 0x44] = [0x49, 0x44] :=
  ⟨parseAAC_unchanged_without_marker _ (Or.inl (by decide)),
    parseAAC_unchanged_without_marker _ (Or.inr (by decide))⟩

/-! ## Manifest parsing -/

theorem splitNewline_ne_nil (text : List Char) : splitNewline text ≠ [] := by
  cases text with
  | nil => simp [splitNewline]
  | cons c cs =>
    rw [splitNewline]
    split
    · simp
    · split <;> simp

/-- Joining the pieces of `split("\n")` with newlines gives the text back, and
no piece holds a newline. -/
theorem splitNewline_spec (text : List Char) :
    List.intercalate ['\n'] (splitNewline text) = text ∧
      ∀ l ∈ splitNewline text, '\n' ∉ l := by
  induction text with
  | nil => simp [splitNewline, List.intercalate]
  | cons c cs ih =>
    obtain ⟨hjoin, hno⟩ := ih
    rw [splitNewline]
    by_cases hc : c = '\n'
    · simp only [hc, if_true]
      constructor
      · have hne := splitNewline_ne_nil cs
        cases hs : splitNewline cs with
        | nil => exact absurd hs hne
        | cons l ls =>
          rw [hs] at hjoin
          simp [List.intercalate, List.intersperse] at hjoin ⊢
          exact hjoin
      · intro l hl
        rcases List.mem_cons.mp hl with h | h
        · simp [h]
        · exact hno l h
    · simp only [hc, if_false]
      have hne := splitNewline_ne_nil cs
      cases hs : splitNewline cs with
      | nil => exact absurd hs hne
      | cons l ls =>
        rw [hs] at hjoin hno
        simp only
        constructor
        · rw [← hjoin]
          cases ls <;> simp [List.intercalate, List.intersperse]
        · intro l' hl'
          rcases List.mem_cons.mp hl' with h | h
          · rw [h]
            intro hmem
            rcases List.mem_cons.mp hmem with h1 | h1
            · exact hc h1.symm
            · exact hno l (List.mem_cons_self _ _) h1
          · exact hno l' (List.mem_cons_of_mem _ h)

theorem trim_eq_nil_iff (raw : List Char) : trim raw = [] ↔ isBlankLine raw = true := by
  unfold trim isBlankLine
  rw [List.reverse_eq_nil_iff, List.dropWhile_eq_nil_iff]
  constructor
  · intro h
    have hnil : List.dropWhile isTrimChar raw = [] := by
      by_contra hne
      have hhead := List.head_dropWhile_not isTrimChar raw hne
      have := h _ (List.mem_reverse.mpr (List.head_mem hne))
      simp [this] at hhead
    rw [List.all_eq_true]
    exact List.dropWhile_eq_nil_iff.mp hnil
  · intro h x hx
    rw [List.all_eq_true] at h
    have hnil : List.dropWhile isTrimChar raw = [] := List.dropWhile_eq_nil_iff.mpr h
    rw [hnil] at hx
    simp at hx

theorem parseM3U8_eq_segmentLines (text : List Char) :
    parseM3U8 text = segmentLines text := by
  unfold parseM3U8 segmentLines
  induction splitNewline text with
  | nil => rfl
  | cons raw rest ih =>
    rw [List.map_cons, List.filter_cons, List.filterMap_cons, ih]
    by_cases hb : isBlankLine raw = true
    · have ht := (trim_eq_nil_iff raw).mpr hb
      simp [hb, ht]
    · have ht : trim raw ≠ [] := fun h => hb ((trim_eq_nil_iff raw).mp h)
      by_cases hh : (trim raw).head? = some '#'
      · simp [hb, hh, startsWithHash]
      · simp [hb, hh, startsWithHash, ht]

/-- C5: `parseM3U8` returns exactly the lines of the text (split on newline,
surrounding whitespace trimmed) that are non-blank and do not begin with `#`, in
file order and with nothing added (the lines being the newline-free pieces
that give the text back when joined with newlines); the spec example yields its
two URLs. -/
theorem parseM3U8_returns_segment_lines (text : List Char) :
    parseM3U8 text = segmentLines text ∧
      (parseM3U8 text).Sublist ((splitNewline text).map trim) ∧
      (∀ l, l ∈ parseM3U8 text ↔
        l ∈ (splitNewline text).map trim ∧ l ≠ [] ∧ l.head? ≠ some '#') ∧
      (List.intercalate ['\n'] (splitNewline text) = text ∧
        ∀ l ∈ splitNewline text, '\n' ∉ l) ∧
      parseM3U8 "#EXTM3U\n#EXTINF:10\nhttps://x/seg1.aac\n\nhttps://x/seg2.aac\n".toList
        = ["https://x/seg1.aac".toList, "https://x/seg2.aac".toList] := by
  refine ⟨parseM3U8_eq_segmentLines text, List.filter_sublist _, ?_, splitNewline_spec text,
    by decide⟩
  intro l
  unfold parseM3U8
  rw [List.mem_filter]
  cases l <;> simp [startsWithHash]

/-! ## Credential cache and handshake -/

theorem truthy_cons (t : Char) (ts : List Char) : truthy (some (t :: ts)) = true := rfl

/-- Shape of a successful `retrieveToken`: both requests were sent, in order,
both were answered with success, and the result is read off the two answers. -/
theorem retrieveToken_ok (cfg : Static) (w : World) (d : DeviceInfo) (areaId : JSString)
    (c : Credential) (sent : List Effect)
    (h : retrieveToken cfg w d areaId = (.ok c, sent)) :
    ∃ req2 r1 r2,
      sent = [.fetchAuth1 (auth1Request d), .fetchAuth2 req2] ∧
      w.auth1 (auth1Request d) = some r1 ∧ r1.ok = true ∧
      w.auth2 req2 = some r2 ∧ r2.ok = true ∧
      r1.authToken = some c.authToken ∧ req2.authToken = c.authToken ∧
      c.areaInfo = trim r2.text ∧ c.areaId = firstField (trim r2.text) := by
  unfold retrieveToken at h
  split at h
  · simp at h
  · rename_i lat lng hgps
    split at h
    · simp at h
    · rename_i r1 h1
      split at h
      · simp at h
      · rename_i hok1
        simp only at h
        split at h
        · simp at h
        · simp at h
        · rename_i t ts htok
          split at h
          · simp at h
          · rename_i partialKey hpk
            split at h
            · simp at h
            · rename_i r2 h2
              split at h
              · simp at h
              · rename_i hok2
                simp only [Prod.mk.injEq, Except.ok.injEq] at h
                obtain ⟨hc, hs⟩ := h
                refine ⟨auth2Request d (t :: ts) partialKey lat lng, r1, r2, hs.symm, h1,
                  by simpa using hok1, h2, by simpa using hok2, ?_, ?_, ?_, ?_⟩
                · rw [htok, ← hc]
                · rw [← hc]
                  rfl
                · rw [← hc]
                · rw [← hc]

/-- The refresh branch of `loadOrRefreshToken`, taken when the stored token is
missing, empty or at least `TOKEN_TTL_MS` old. -/
theorem loadOrRefreshToken_refresh (cfg : Static) (w : World) (pref : Option JSString)
    (stored : Store)
    (h : (truthy stored.token && decide (w.now - stored.tokenTime.getD 0 < TOKEN_TTL_MS))
      = false) :
    (∃ e sent,
      retrieveToken cfg w (stored.device.getD w.randomDevice)
        ((pref.orElse fun _ => stored.prefArea).getD "JP13".toList) = (.error e, sent) ∧
      (loadOrRefreshToken cfg w pref stored).result = .error e ∧
      (loadOrRefreshToken cfg w pref stored).trace = deviceWrites w stored ++ sent ∧
      credentialFields (loadOrRefreshToken cfg w pref stored).store = credentialFields stored ∧
      (loadOrRefreshToken cfg w pref stored).store.device
        = some (stored.device.getD w.randomDevice)) ∨
    (∃ c sent,
      retrieveToken cfg w (stored.device.getD w.randomDevice)
        ((pref.orElse fun _ => stored.prefArea).getD "JP13".toList) = (.ok c, sent) ∧
      (loadOrRefreshToken cfg w pref stored).result
        = .ok { authToken := some c.authToken, areaId := some c.areaId,
                areaInfo := some c.areaInfo } ∧
      (loadOrRefreshToken cfg w pref stored).trace
        = deviceWrites w stored ++ sent ++
            [.storageSetCredential c.authToken c.areaId c.areaInfo w.nowAtStore] ∧
      credentialFields (loadOrRefreshToken cfg w pref stored).store
        = issuedFields c w.nowAtStore ∧
      (loadOrRefreshToken cfg w pref stored).store.device
        = some (stored.device.getD w.randomDevice)) := by
  unfold loadOrRefreshToken
  simp only [h, Bool.false_eq_true, if_false]
  cases hr : retrieveToken cfg w (stored.device.getD w.randomDevice)
      ((pref.orElse fun _ => stored.prefArea).getD "JP13".toList) with
  | mk res sent =>
    cases res with
    | error e =>
      left
      refine ⟨e, sent, rfl, rfl, ?_, ?_, ?_⟩
      · cases hd : stored.device <;> simp [deviceWrites, hd]
      · cases hd : stored.device <;> simp [credentialFields]
      · cases hd : stored.device <;> simp [hd]
    | ok c =>
      right
      refine ⟨c, sent, rfl, rfl, ?_, ?_, ?_⟩
      · cases hd : stored.device <;> simp [deviceWrites, hd]
      · cases hd : stored.device <;> simp [credentialFields, issuedFields]
      · cases hd : stored.device <;> simp [hd]

/-- The cache branch of `loadOrRefreshToken`. -/
theorem loadOrRefreshToken_cached (cfg : Static) (w : World) (pref : Option JSString)
    (stored : Store)
    (h : (truthy stored.token && decide (w.now - stored.tokenTime.getD 0 < TOKEN_TTL_MS))
      = true) :
    (loadOrRefreshToken cfg w pref stored).result
        = .ok { authToken := stored.token, areaId := stored.areaId,
                areaInfo := stored.areaInfo } ∧
      (loadOrRefreshToken cfg w pref stored).trace = [] ∧
      (loadOrRefreshToken cfg w pref stored).store = stored := by
  unfold loadOrRefreshToken
  simp [h]

/-- C7, as stated, fails: a credential issued for `JP13` 1000 seconds ago is
returned from the cache, with no request sent, although the preferred area
(passed as argument, or stored) is `JP27`. -/
theorem loadOrRefreshToken_area_change_counterexample :
    exampleStore.areaId = some "JP13".toList ∧
      exampleStore.prefArea = some "JP27".toList ∧
      (loadOrRefreshToken exampleStatic exampleWorld (some "JP27".toList) exampleStore).result
        = .ok { authToken := some "OLDTOKEN".toList, areaId := some "JP13".toList,
                areaInfo := some "JP13,東京都,tokyo Japan".toList } ∧
      (loadOrRefreshToken exampleStatic exampleWorld (some "JP27".toList) exampleStore).trace
        = [] ∧
      (loadOrRefreshToken exampleStatic exampleWorld none exampleStore).result
        = .ok { authToken := some "OLDTOKEN".toList, areaId := some "JP13".toList,
                areaInfo := some "JP13,東京都,tokyo Japan".toList } ∧
      (loadOrRefreshToken exampleStatic exampleWorld none exampleStore).trace = [] := by
  have h := fun pref => loadOrRefreshToken_cached exampleStatic exampleWorld pref exampleStore
    (by decide)
  exact ⟨rfl, rfl, (h _).1, (h _).2.1, (h _).1, (h _).2.1⟩

/-- C7, amended: when the stored credential is at least 70 minutes old,
`loadOrRefreshToken` returns a value only after auth1 and then auth2 were sent
and answered with success, the value returned is the one read off the two
answers (not the stored one), and the effects are exactly: the device write (if
no identity was stored), auth1, auth2, the write of the new credential. -/
theorem loadOrRefreshToken_expired_runs_handshake (cfg : Static) (w : World)
    (pref : Option JSString) (stored : Store) (issuedAt : Int)
    (htime : stored.tokenTime = some issuedAt)
    (hage : 70 * 60 * 1000 ≤ w.now - issuedAt) (r : AuthResult)
    (hret : (loadOrRefreshToken cfg w pref stored).result = .ok r) :
    ∃ req1 req2 r1 r2 token,
      (loadOrRefreshToken cfg w pref stored).trace
        = deviceWrites w stored ++ [.fetchAuth1 req1, .fetchAuth2 req2,
            .storageSetCredential token (firstField (trim r2.text)) (trim r2.text)
              w.nowAtStore] ∧
      w.auth1 req1 = some r1 ∧ r1.ok = true ∧ r1.authToken = some token ∧
      req2.authToken = token ∧ w.auth2 req2 = some r2 ∧ r2.ok = true ∧
      r = { authToken := some token, areaId := some (firstField (trim r2.text)),
            areaInfo := some (trim r2.text) } := by
  have hexp : (truthy stored.token
      && decide (w.now - stored.tokenTime.getD 0 < TOKEN_TTL_MS)) = false := by
    have : ¬ (w.now - issuedAt < TOKEN_TTL_MS) := by
      unfold TOKEN_TTL_MS
      omega
    simp [htime, this]
  rcases loadOrRefreshToken_refresh cfg w pref stored hexp with
    ⟨e, sent, _, hres, _⟩ | ⟨c, sent, hrt, hres, htr, _⟩
  · rw [hres] at hret
    cases hret
  · obtain ⟨req2, r1, r2, hsent, h1, hok1, h2, hok2, htok, hreq, hinfo, harea⟩ :=
      retrieveToken_ok cfg w _ _ c sent hrt
    refine ⟨auth1Request (stored.device.getD w.randomDevice), req2, r1, r2, c.authToken,
      ?_, h1, hok1, htok, hreq, h2, hok2, ?_⟩
    · rw [htr, hsent, ← harea, ← hinfo]
      simp
    · rw [hres] at hret
      simp only [Except.ok.injEq] at hret
      rw [← hret, harea, hinfo]

/-- Witness for C7 (amended): the stored credential is 36000 seconds old and
both endpoints answer with success. -/
theorem loadOrRefreshToken_expired_runs_handshake_witness :
    ∃ req1 req2 r1 r2 token,
      (loadOrRefreshToken exampleStatic laterWorld none exampleStore).trace
        = deviceWrites laterWorld exampleStore ++
            [.fetchAuth1 req1, .fetchAuth2 req2,
              .storageSetCredential token (firstField (trim r2.text)) (trim r2.text)
                laterWorld.nowAtStore] ∧
      laterWorld.auth1 req1 = some r1 ∧ r1.ok = true ∧ r1.authToken = some token ∧
      req2.authToken = token ∧ laterWorld.auth2 req2 = some r2 ∧ r2.ok = true ∧
      ({ authToken := some "NEWTOKEN".toList, areaId := some "JP13".toList,
         areaInfo := some "JP13,東京都,tokyo Japan".toList } : AuthResult)
        = { authToken := some token, areaId := some (firstField (trim r2.text)),
            areaInfo := some (trim r2.text) } :=
  loadOrRefreshToken_expired_runs_handshake exampleStatic laterWorld none exampleStore
    9000000 rfl (by decide)
    { authToken := some "NEWTOKEN".toList, areaId := some "JP13".toList,
      areaInfo := some "JP13,東京都,tokyo Japan".toList } rfl

/-- C8: with a non-empty stored token issued less than 70 minutes ago,
`loadOrRefreshToken` returns exactly the stored token, area id and area
descriptor, sends no request and writes nothing to the store (whatever the
preferred area and the stored device identity are). -/
theorem loadOrRefreshToken_returns_cached (cfg : Static) (w : World)
    (pref : Option JSString) (stored : Store) (t : Char) (ts : List Char) (issuedAt : Int)
    (htoken : stored.token = some (t :: ts)) (htime : stored.tokenTime = some issuedAt)
    (hage : w.now - issuedAt < 70 * 60 * 1000) :
    (loadOrRefreshToken cfg w pref stored).result
        = .ok { authToken := some (t :: ts), areaId := stored.areaId,
                areaInfo := stored.areaInfo } ∧
      (loadOrRefreshToken cfg w pref stored).trace = [] ∧
      (loadOrRefreshToken cfg w pref stored).store = stored := by
  have h := loadOrRefreshToken_cached cfg w pref stored (by
    have : w.now - issuedAt < TOKEN_TTL_MS := by
      unfold TOKEN_TTL_MS
      omega
    simp [htoken, htime, truthy_cons, this])
  rw [htoken] at h
  exact h

/-- Witness for C8: the example store, whose credential is 1000 seconds old. -/
theorem loadOrRefreshToken_returns_cached_witness :
    (loadOrRefreshToken exampleStatic exampleWorld none exampleStore).result
        = .ok { authToken := some "OLDTOKEN".toList, areaId := some "JP13".toList,
                areaInfo := some "JP13,東京都,tokyo Japan".toList } ∧
      (loadOrRefreshToken exampleStatic exampleWorld none exampleStore).trace = [] ∧
      (loadOrRefreshToken exampleStatic exampleWorld none exampleStore).store
        = exampleStore :=
  loadOrRefreshToken_returns_cached exampleStatic exampleWorld none exampleStore
    'O' "LDTOKEN".toList 9000000 rfl rfl (by decide)

theorem init_store (cfg : Static) (w : World) (forceReauth : Bool) (stored : Store) :
    (init cfg w forceReauth stored).1
      = (loadOrRefreshToken cfg w none
          (if forceReauth then { stored with token := none, tokenTime := none }
            else stored)).store := by
  unfold init
  simp only
  split <;> rfl

/-- The stored credential after `loadOrRefreshToken`: untouched, or the four
fields of the one credential that `retrieveToken` returned in this run. -/
theorem loadOrRefreshToken_fields (cfg : Static) (w : World) (pref : Option JSString)
    (stored : Store) :
    credentialFields (loadOrRefreshToken cfg w pref stored).store = credentialFields stored ∨
      ∃ c sent,
        retrieveToken cfg w (stored.device.getD w.randomDevice)
          ((pref.orElse fun _ => stored.prefArea).getD "JP13".toList) = (.ok c, sent) ∧
        credentialFields (loadOrRefreshToken cfg w pref stored).store
          = issuedFields c w.nowAtStore := by
  cases h : (truthy stored.token && decide (w.now - stored.tokenTime.getD 0 < TOKEN_TTL_MS))
  · rcases loadOrRefreshToken_refresh cfg w pref stored h with
      ⟨e, sent, _, _, _, hf, _⟩ | ⟨c, sent, hrt, _, _, hf, _⟩
    · exact Or.inl hf
    · exact Or.inr ⟨c, sent, hrt, hf⟩
  · left
    rw [(loadOrRefreshToken_cached cfg w pref stored h).2.2]

/-- C9, as stated, fails: `init(true)` with a failing auth1 removes the stored
token and issue time but leaves the stored area id and area descriptor, so the
four fields are neither all unchanged nor those of a new issuance. -/
theorem init_forced_failure_counterexample :
    credentialFields (init exampleStatic failingWorld true exampleStore).1
        = (none, some "JP13".toList, some "JP13,東京都,tokyo Japan".toList, none) ∧
      credentialFields (init exampleStatic failingWorld true exampleStore).1
        ≠ credentialFields exampleStore ∧
      ∀ c time, credentialFields (init exampleStatic failingWorld true exampleStore).1
        ≠ issuedFields c time := by
  have h : credentialFields (init exampleStatic failingWorld true exampleStore).1
      = (none, some "JP13".toList, some "JP13,東京都,tokyo Japan".toList, none) := by
    decide
  refine ⟨h, ?_, ?_⟩
  · rw [h]
    decide
  · intro c time
    rw [h]
    simp [issuedFields]

/-- C9, amended: after `loadOrRefreshToken`, and after `init(false)`, the four
stored credential fields are all unchanged or all those of the single
credential issued in this run; `init(true)` first discards the stored token and
issue time, so after it the four fields are all those of the single new
issuance, or (when the handshake fails) the token and the issue time are absent
and the area id and area descriptor are unchanged. -/
theorem credential_fields_after_refresh (cfg : Static) (w : World) (stored : Store) :
    (∀ pref,
      credentialFields (loadOrRefreshToken cfg w pref stored).store = credentialFields stored ∨
      ∃ c sent,
        retrieveToken cfg w (stored.device.getD w.randomDevice)
          ((pref.orElse fun _ => stored.prefArea).getD "JP13".toList) = (.ok c, sent) ∧
        credentialFields (loadOrRefreshToken cfg w pref stored).store
          = issuedFields c w.nowAtStore) ∧
    (credentialFields (init cfg w false stored).1 = credentialFields stored ∨
      ∃ c sent,
        retrieveToken cfg w (stored.device.getD w.randomDevice)
          (stored.prefArea.getD "JP13".toList) = (.ok c, sent) ∧
        credentialFields (init cfg w false stored).1 = issuedFields c w.nowAtStore) ∧
    (credentialFields (init cfg w true stored).1
        = (none, stored.areaId, stored.areaInfo, none) ∨
      ∃ c sent,
        retrieveToken cfg w (stored.device.getD w.randomDevice)
          (stored.prefArea.getD "JP13".toList) = (.ok c, sent) ∧
        credentialFields (init cfg w true stored).1 = issuedFields c w.nowAtStore) := by
  refine ⟨fun pref => loadOrRefreshToken_fields cfg w pref stored, ?_, ?_⟩
  · rw [init_store]
    exact loadOrRefreshToken_fields cfg w none stored
  · rw [init_store]
    rcases loadOrRefreshToken_fields cfg w none
        { stored with token := none, tokenTime := none } with h | h
    · left
      simpa [credentialFields] using h
    · right
      simpa using h

theorem substring_slice (s : JSString) (keyOffset keyLength : Int) (h0 : 0 ≤ keyOffset)
    (hl : 0 ≤ keyLength) (hin : keyOffset + keyLength ≤ s.length) :
    substring s (some keyOffset) (addNumber (some keyOffset) (some keyLength))
      = (s.drop keyOffset.toNat).take keyLength.toNat := by
  simp only [substring, addNumber, clampIndex]
  have ha : min keyOffset.toNat s.length = keyOffset.toNat := by omega
  have hb : min (keyOffset + keyLength).toNat s.length
      = keyOffset.toNat + keyLength.toNat := by omega
  rw [ha, hb]
  congr 2 <;> omega

/-- Every auth2 request sent by `retrieveToken` carries the partial key computed
from the offset and length headers of the auth1 answer. -/
theorem retrieveToken_partialKey (cfg : Static) (w : World) (d : DeviceInfo)
    (areaId : JSString) (req : Auth2Request)
    (hsent : Effect.fetchAuth2 req ∈ (retrieveToken cfg w d areaId).2) :
    ∃ r1, w.auth1 (auth1Request d) = some r1 ∧
      some req.partialKey
        = partialKeyOf cfg.appKey (parseInt10 (r1.keyOffset.getD "0".toList))
            (parseInt10 (r1.keyLength.getD "16".toList)) := by
  unfold retrieveToken at hsent
  split at hsent
  · simp at hsent
  · split at hsent
    · simp at hsent
    · rename_i r1 h1
      refine ⟨r1, h1, ?_⟩
      split at hsent
      · simp at hsent
      · simp only at hsent
        split at hsent
        · simp at hsent
        · simp at hsent
        · split at hsent
          · simp at hsent
          · rename_i partialKey hpk
            rw [hpk]
            split at hsent
            · simp at hsent
              rw [hsent]
              rfl
            · split at hsent
              · simp at hsent
                rw [hsent]
                rfl
              · simp at hsent
                rw [hsent]
                rfl

theorem btoa_eq_some (s x : JSString) (h : btoa s = some x) :
    x = base64Encode (s.map Char.toNat) := by
  unfold btoa at h
  split at h
  · simpa using h.symm
  · simp at h

/-- When auth1 answers with success and a non-empty token, the coordinates of
the area (or of `JP13`) exist and the partial key can be encoded, the auth2
request is sent. -/
theorem retrieveToken_sends_auth2 (cfg : Static) (w : World) (d : DeviceInfo)
    (areaId : JSString) (r1 : Auth1Response) (t : Char) (ts : List Char)
    (partialKey : JSString)
    (h1 : w.auth1 (auth1Request d) = some r1) (hok : r1.ok = true)
    (htok : r1.authToken = some (t :: ts))
    (hgps : ((cfg.gps areaId).orElse fun _ => cfg.gps "JP13".toList).isSome = true)
    (hkey : partialKeyOf cfg.appKey (parseInt10 (r1.keyOffset.getD "0".toList))
      (parseInt10 (r1.keyLength.getD "16".toList)) = some partialKey) :
    ∃ req, Effect.fetchAuth2 req ∈ (retrieveToken cfg w d areaId).2 ∧
      req.authToken = t :: ts ∧ req.partialKey = partialKey := by
  unfold retrieveToken
  cases hg : (cfg.gps areaId).orElse fun _ => cfg.gps "JP13".toList with
  | none =>
    rw [hg] at hgps
    cases hgps
  | some p =>
    obtain ⟨lat, lng⟩ := p
    refine ⟨auth2Request d (t :: ts) partialKey lat lng, ?_, rfl, rfl⟩
    simp only [h1, hok, htok, hkey]
    cases w.auth2 (auth2Request d (t :: ts) partialKey lat lng) with
    | none => simp
    | some r2 => cases hok2 : r2.ok <;> simp [hok2]

/-- C10, amended: when auth1 returns `keyOffset` and `keyLength` with
`0 <= keyOffset`, `0 <= keyLength` and `keyOffset + keyLength` within the
length of the secret, the partial key sent in auth2 is the base64 encoding of
the `keyLength` characters of the compiled-in secret that start at `keyOffset`; it depends on the secret, the
offset and the length only, so any two runs with the same three values send the
same key; and the key is sent once auth1 succeeded with a token. -/
theorem partialKey_is_base64_of_secret_slice (cfg : Static) (w : World) (d : DeviceInfo)
    (areaId : JSString) (r1 : Auth1Response) (keyOffset keyLength : Int)
    (h1 : w.auth1 (auth1Request d) = some r1)
    (hoff : parseInt10 (r1.keyOffset.getD "0".toList) = some keyOffset)
    (hlen : parseInt10 (r1.keyLength.getD "16".toList) = some keyLength)
    (h0 : 0 ≤ keyOffset) (hl : 0 ≤ keyLength)
    (hin : keyOffset + keyLength ≤ cfg.appKey.length) :
    ((cfg.appKey.drop keyOffset.toNat).take keyLength.toNat).length = keyLength.toNat ∧
      (∀ req, Effect.fetchAuth2 req ∈ (retrieveToken cfg w d areaId).2 →
        req.partialKey
          = base64Encode (((cfg.appKey.drop keyOffset.toNat).take keyLength.toNat).map
              Char.toNat)) ∧
      (∀ (cfg2 : Static) (w2 : World) (d2 : DeviceInfo) (areaId2 : JSString)
          (r2 : Auth1Response),
        cfg2.appKey = cfg.appKey → w2.auth1 (auth1Request d2) = some r2 →
        parseInt10 (r2.keyOffset.getD "0".toList) = some keyOffset →
        parseInt10 (r2.keyLength.getD "16".toList) = some keyLength →
        ∀ req req2, Effect.fetchAuth2 req ∈ (retrieveToken cfg w d areaId).2 →
          Effect.fetchAuth2 req2 ∈ (retrieveToken cfg2 w2 d2 areaId2).2 →
          req2.partialKey = req.partialKey) ∧
      (r1.ok = true → (∃ t ts, r1.authToken = some (t :: ts)) →
        ((cfg.gps areaId).orElse fun _ => cfg.gps "JP13".toList).isSome = true →
        (∀ c ∈ cfg.appKey, c.toNat ≤ 0xFF) →
        ∃ req, Effect.fetchAuth2 req ∈ (retrieveToken cfg w d areaId).2) := by
  have hkey : ∀ (cfg2 : Static) (w2 : World) (d2 : DeviceInfo) (areaId2 : JSString)
      (r2 : Auth1Response), cfg2.appKey = cfg.appKey →
      w2.auth1 (auth1Request d2) = some r2 →
      parseInt10 (r2.keyOffset.getD "0".toList) = some keyOffset →
      parseInt10 (r2.keyLength.getD "16".toList) = some keyLength →
      ∀ req, Effect.fetchAuth2 req ∈ (retrieveToken cfg2 w2 d2 areaId2).2 →
        req.partialKey
          = base64Encode (((cfg.appKey.drop keyOffset.toNat).take keyLength.toNat).map
              Char.toNat) := by
    intro cfg2 w2 d2 areaId2 r2 hcfg h2 hoff2 hlen2 req hreq
    obtain ⟨r, hr, hpk⟩ := retrieveToken_partialKey cfg2 w2 d2 areaId2 req hreq
    rw [h2] at hr
    cases hr
    rw [hoff2, hlen2, hcfg, partialKeyOf, substring_slice _ _ _ h0 hl hin] at hpk
    exact btoa_eq_some _ _ hpk.symm
  refine ⟨?_, hkey cfg w d areaId r1 rfl h1 hoff hlen, ?_, ?_⟩
  · rw [List.length_take, List.length_drop]
    omega
  · intro cfg2 w2 d2 areaId2 r2 hcfg h2 hoff2 hlen2 req req2 hreq hreq2
    rw [hkey cfg w d areaId r1 rfl h1 hoff hlen req hreq,
      hkey cfg2 w2 d2 areaId2 r2 hcfg h2 hoff2 hlen2 req2 hreq2]
  · intro hok htok hgps hlatin
    obtain ⟨t, ts, htok⟩ := htok
    have hb : btoa ((cfg.appKey.drop keyOffset.toNat).take keyLength.toNat)
        = some (base64Encode
            (((cfg.appKey.drop keyOffset.toNat).take keyLength.toNat).map Char.toNat)) := by
      unfold btoa
      rw [if_pos]
      rw [List.all_eq_true]
      intro c hc
      simpa using hlatin c (List.mem_of_mem_drop (List.mem_of_mem_take hc))
    obtain ⟨req, hreq, _⟩ := retrieveToken_sends_auth2 cfg w d areaId r1 t ts _ h1 hok htok
      hgps (by rw [hoff, hlen, partialKeyOf, substring_slice _ _ _ h0 hl hin, hb])
    exact ⟨req, hreq⟩

/-- Witness for C10 (amended): auth1 answers offset 5 and length 3; the three characters
`107` of the example secret are sent as `MTA3`. -/
theorem partialKey_is_base64_of_secret_slice_witness :
    ∃ req, Effect.fetchAuth2 req
        ∈ (retrieveToken exampleStatic exampleWorld exampleDevice "JP13".toList).2 ∧
      req.partialKey = "MTA3".toList :=
  have h := partialKey_is_base64_of_secret_slice exampleStatic exampleWorld exampleDevice
    "JP13".toList
    { ok := true, status := 200, authToken := some "NEWTOKEN".toList,
      keyOffset := some "5".toList, keyLength := some "3".toList }
    5 3 rfl (by decide) (by decide) (by decide) (by decide) (by decide)
  have hsent := h.2.2.2 rfl ⟨_, _, rfl⟩ rfl (by decide)
  hsent.elim fun req hreq => ⟨req, hreq, h.2.1 req hreq⟩

/-! ## Decimal strings -/

theorem digitChar_isDigit (d : Nat) : (digitChar d).isDigit = true := by
  unfold digitChar
  split <;> decide

theorem digitChar_value (d : Nat) (h : d < 10) : (digitChar d).toNat - 48 = d := by
  interval_cases d <;> decide

theorem digitsValue_append_singleton (ds : List Char) (c : Char) :
    digitsValue (ds ++ [c]) = digitsValue ds * 10 + (c.toNat - 48) := by
  simp [digitsValue, List.foldl_append]

theorem natToDigitsAux_eq (fuel n : Nat) (h : n ≤ fuel) :
    natToDigitsAux fuel n
      = if n < 10 then [digitChar n]
        else natToDigitsAux (n / 10) (n / 10) ++ [digitChar (n % 10)] := by
  induction fuel using Nat.strong_induction_on generalizing n with
  | _ fuel ih =>
    cases fuel with
    | zero =>
      have : n = 0 := by omega
      subst this
      rfl
    | succ fuel =>
      rw [natToDigitsAux]
      by_cases hn : n < 10
      · simp [hn]
      · simp only [hn, if_false]
        congr 1
        have h1 : n / 10 ≤ fuel := by omega
        rw [ih fuel (by omega) (n / 10) h1]
        by_cases hq : n / 10 < 10
        · simp only [hq, if_true]
          cases hq2 : n / 10 with
          | zero => omega
          | succ q =>
            rw [natToDigitsAux]
            simp [← hq2, hq]
        · simp only [hq, if_false]
          have h2 : n / 10 / 10 ≤ n / 10 := Nat.div_le_self _ _
          rw [ih (n / 10) (by omega) (n / 10) (Nat.le_refl _)]
          simp [hq]

/-- The recurrence of decimal notation: the fuel of `natToDigits` never runs out. -/
theorem natToDigits_eq (n : Nat) :
    natToDigits n
      = if n < 10 then [digitChar n] else natToDigits (n / 10) ++ [digitChar (n % 10)] :=
  natToDigitsAux_eq n n (Nat.le_refl n)

theorem natToDigits_isDigit (n : Nat) : (natToDigits n).all Char.isDigit = true := by
  induction n using Nat.strong_induction_on with
  | _ n ih =>
    rw [natToDigits_eq]
    by_cases hn : n < 10
    · simp [hn, digitChar_isDigit]
    · simp only [hn, if_false, List.all_append, ih (n / 10) (by omega), Bool.true_and]
      simp [digitChar_isDigit]

theorem digitsValue_natToDigits (n : Nat) : digitsValue (natToDigits n) = n := by
  induction n using Nat.strong_induction_on with
  | _ n ih =>
    rw [natToDigits_eq]
    by_cases hn : n < 10
    · simp only [hn, if_true]
      simp [digitsValue, digitChar_value n hn]
    · simp only [hn, if_false]
      rw [digitsValue_append_singleton, ih (n / 10) (by omega),
        digitChar_value _ (Nat.mod_lt _ (by decide))]
      omega

theorem natToDigits_length_one (n : Nat) (h : n < 10) : (natToDigits n).length = 1 := by
  rw [natToDigits_eq]
  simp [h]

theorem natToDigits_length_two (n : Nat) (h1 : 10 ≤ n) (h2 : n < 100) :
    (natToDigits n).length = 2 := by
  rw [natToDigits_eq]
  simp [show ¬ n < 10 by omega, natToDigits_length_one (n / 10) (by omega)]

theorem natToDigits_length_four (n : Nat) (h1 : 1000 ≤ n) (h2 : n < 10000) :
    (natToDigits n).length = 4 := by
  rw [natToDigits_eq, if_neg (by omega), natToDigits_eq (n / 10), if_neg (by omega)]
  simp [natToDigits_length_two (n / 10 / 10) (by omega) (by omega)]

/-- A field below 100 padded to two characters: two digits with its value. -/
theorem padStart2_spec (n : Int) (h0 : 0 ≤ n) (h1 : n < 100) :
    (padStart2 (numberToString n)).length = 2 ∧
      (padStart2 (numberToString n)).all Char.isDigit = true ∧
      (digitsValue (padStart2 (numberToString n)) : Int) = n := by
  obtain ⟨k, rfl⟩ := Int.eq_ofNat_of_zero_le h0
  have hk : k < 100 := by omega
  simp only [numberToString, show ¬ ((k : Int) < 0) by omega, if_false, Int.natAbs_ofNat]
  by_cases h10 : k < 10
  · have hp : padStart2 (natToDigits k) = ['0', digitChar k] := by
      rw [natToDigits_eq, if_pos h10]
      rfl
    rw [hp]
    refine ⟨rfl, ?_, ?_⟩
    · simp [digitChar_isDigit]
    · have h48 : ('0' : Char).toNat - 48 = 0 := by decide
      simp only [digitsValue, List.foldl_cons, List.foldl_nil, h48, digitChar_value k h10]
      omega
  · have hl := natToDigits_length_two k (by omega) hk
    have hp : padStart2 (natToDigits k) = natToDigits k := by
      simp [padStart2, hl]
    rw [hp]
    exact ⟨hl, natToDigits_isDigit k, by rw [digitsValue_natToDigits]⟩

/-- A year in `1000..9999` as a string: four digits with its value. -/
theorem yearString_spec (n : Int) (h0 : 1000 ≤ n) (h1 : n < 10000) :
    (numberToString n).length = 4 ∧ (numberToString n).all Char.isDigit = true ∧
      (digitsValue (numberToString n) : Int) = n := by
  obtain ⟨k, rfl⟩ := Int.eq_ofNat_of_zero_le (show 0 ≤ n by omega)
  simp only [numberToString, show ¬ ((k : Int) < 0) by omega, if_false, Int.natAbs_ofNat]
  exact ⟨natToDigits_length_four k (by omega) (by omega), natToDigits_isDigit k,
    by rw [digitsValue_natToDigits]⟩

theorem toNumber_of_digits (s : JSString) (h : s.all Char.isDigit = true) :
    toNumber s = some (digitsValue s : Int) := by
  simp [toNumber, h]

theorem toNumber_isSome (s : JSString) (v : Int) (h : toNumber s = some v) :
    v = (digitsValue s : Int) := by
  unfold toNumber at h
  split at h
  · simpa using h.symm
  · simp at h

/-! ## Calendar arithmetic -/

theorem dayFromYear_bounds (y : Int) :
    146097 * (y - 1970) - 506 ≤ 400 * dayFromYear y ∧
      400 * dayFromYear y ≤ 146097 * (y - 1970) + 589 := by
  unfold dayFromYear
  omega

/-- The computed year is the one ECMA-262 specifies: the year whose first day
is the last first-of-year not after `day`. -/
theorem yearFromDay_spec (day : Int) :
    dayFromYear (yearFromDay day) ≤ day ∧ day < dayFromYear (yearFromDay day + 1) := by
  unfold yearFromDay
  simp only
  generalize hy : 1970 + 400 * day / 146097 = y
  have h1 := dayFromYear_bounds (y - 1)
  have h2 := dayFromYear_bounds (y + 1 + 1)
  split
  · rw [Int.sub_add_cancel]
    omega
  · split
    · omega
    · omega

theorem dayFromYear_mono (a b : Int) (h : a ≤ b) : dayFromYear a ≤ dayFromYear b := by
  unfold dayFromYear
  omega

theorem yearFromDay_unique (day y : Int) (h1 : dayFromYear y ≤ day)
    (h2 : day < dayFromYear (y + 1)) : yearFromDay day = y := by
  obtain ⟨h3, h4⟩ := yearFromDay_spec day
  by_contra hne
  rcases Int.lt_or_gt_of_ne hne with h | h
  · have := dayFromYear_mono (yearFromDay day + 1) y (by omega)
    omega
  · have := dayFromYear_mono (y + 1) (yearFromDay day) (by omega)
    omega

theorem dayFromYear_succ (y : Int) :
    dayFromYear (y + 1) = dayFromYear y + (if isLeapYear y = true then 366 else 365) := by
  unfold dayFromYear isLeapYear
  simp only [Bool.and_eq_true, Bool.or_eq_true, beq_iff_eq, bne_iff_ne, ne_eq]
  split <;> omega

theorem dayWithinYear_bounds (t : Int) :
    0 ≤ dayWithinYear t ∧
      dayWithinYear t < (if isLeapYear (yearFromTime t) = true then 366 else 365) := by
  have h := yearFromDay_spec (dayOfTime t)
  have hs := dayFromYear_succ (yearFromDay (dayOfTime t))
  unfold dayWithinYear yearFromTime
  constructor
  · omega
  · split at hs <;> rename_i hl <;> simp only [hl, if_true, if_false] <;> omega

theorem monthStart_values (leap : Bool) :
    monthStart 0 leap = 0 ∧ monthStart 1 leap = 31 ∧
    monthStart 2 leap = 59 + (if leap = true then 1 else 0) ∧
    monthStart 3 leap = 90 + (if leap = true then 1 else 0) ∧
    monthStart 4 leap = 120 + (if leap = true then 1 else 0) ∧
    monthStart 5 leap = 151 + (if leap = true then 1 else 0) ∧
    monthStart 6 leap = 181 + (if leap = true then 1 else 0) ∧
    monthStart 7 leap = 212 + (if leap = true then 1 else 0) ∧
    monthStart 8 leap = 243 + (if leap = true then 1 else 0) ∧
    monthStart 9 leap = 273 + (if leap = true then 1 else 0) ∧
    monthStart 10 leap = 304 + (if leap = true then 1 else 0) ∧
    monthStart 11 leap = 334 + (if leap = true then 1 else 0) := by
  cases leap <;> decide

/-- The month table read backwards: the month found for day `d` of a year is
the `m` in `0..11` with `monthStart m <= d < monthStart (m + 1)`. -/
theorem month_of_day (d : Int) (leap : Bool) (h0 : 0 ≤ d)
    (h1 : d < (if leap = true then 366 else 365)) :
    0 ≤ monthOfDayWithinYear d leap ∧ monthOfDayWithinYear d leap ≤ 11 ∧
      1 ≤ d - monthStart (monthOfDayWithinYear d leap) leap + 1 ∧
      d - monthStart (monthOfDayWithinYear d leap) leap + 1 ≤ 31 := by
  have hm : ∀ m ms : Int, monthStart m leap = ms →
      (0 ≤ m ∧ m ≤ 11 ∧ ms ≤ d ∧ d - ms ≤ 30) → monthOfDayWithinYear d leap = m →
      0 ≤ monthOfDayWithinYear d leap ∧ monthOfDayWithinYear d leap ≤ 11 ∧
      1 ≤ d - monthStart (monthOfDayWithinYear d leap) leap + 1 ∧
      d - monthStart (monthOfDayWithinYear d leap) leap + 1 ≤ 31 := by
    intro m ms hs hm he
    rw [he, hs]
    omega
  have h1' : d < 365 + (if leap = true then (1 : Int) else 0) := by
    cases leap <;> simp at h1 ⊢ <;> omega
  have hdef : monthOfDayWithinYear d leap
      = if d < 31 then 0
        else if d < 59 + (if leap = true then (1 : Int) else 0) then 1
        else if d < 90 + (if leap = true then (1 : Int) else 0) then 2
        else if d < 120 + (if leap = true then (1 : Int) else 0) then 3
        else if d < 151 + (if leap = true then (1 : Int) else 0) then 4
        else if d < 181 + (if leap = true then (1 : Int) else 0) then 5
        else if d < 212 + (if leap = true then (1 : Int) else 0) then 6
        else if d < 243 + (if leap = true then (1 : Int) else 0) then 7
        else if d < 273 + (if leap = true then (1 : Int) else 0) then 8
        else if d < 304 + (if leap = true then (1 : Int) else 0) then 9
        else if d < 334 + (if leap = true then (1 : Int) else 0) then 10
        else 11 := rfl
  by_cases c0 : d < 31
  · exact hm 0 _ (monthStart_values leap).1 (by clear hdef hm; omega)
      (by rw [hdef]; simp only [c0, if_true, if_false])
  by_cases c1 : d < 59 + (if leap = true then (1 : Int) else 0)
  · exact hm 1 _ (monthStart_values leap).2.1 (by clear hdef hm; omega)
      (by rw [hdef]; simp only [c0, c1, if_true, if_false])
  by_cases c2 : d < 90 + (if leap = true then (1 : Int) else 0)
  · exact hm 2 _ (monthStart_values leap).2.2.1 (by clear hdef hm; omega)
      (by rw [hdef]; simp only [c0, c1, c2, if_true, if_false])
  by_cases c3 : d < 120 + (if leap = true then (1 : Int) else 0)
  · exact hm 3 _ (monthStart_values leap).2.2.2.1 (by clear hdef hm; omega)
      (by rw [hdef]; simp only [c0, c1, c2, c3, if_true, if_false])
  by_cases c4 : d < 151 + (if leap = true then (1 : Int) else 0)
  · exact hm 4 _ (monthStart_values leap).2.2.2.2.1 (by clear hdef hm; omega)
      (by rw [hdef]; simp only [c0, c1, c2, c3, c4, if_true, if_false])
  by_cases c5 : d < 181 + (if leap = true then (1 : Int) else 0)
  · exact hm 5 _ (monthStart_values leap).2.2.2.2.2.1 (by clear hdef hm; omega)
      (by rw [hdef]; simp only [c0, c1, c2, c3, c4, c5, if_true, if_false])
  by_cases c6 : d < 212 + (if leap = true then (1 : Int) else 0)
  · exact hm 6 _ (monthStart_values leap).2.2.2.2.2.2.1 (by clear hdef hm; omega)
      (by rw [hdef]; simp only [c0, c1, c2, c3, c4, c5, c6, if_true, if_false])
  by_cases c7 : d < 243 + (if leap = true then (1 : Int) else 0)
  · exact hm 7 _ (monthStart_values leap).2.2.2.2.2.2.2.1 (by clear hdef hm; omega)
      (by rw [hdef]; simp only [c0, c1, c2, c3, c4, c5, c6, c7, if_true, if_false])
  by_cases c8 : d < 273 + (if leap = true then (1 : Int) else 0)
  · exact hm 8 _ (monthStart_values leap).2.2.2.2.2.2.2.2.1 (by clear hdef hm; omega)
      (by rw [hdef]; simp only [c0, c1, c2, c3, c4, c5, c6, c7, c8, if_true, if_false])
  by_cases c9 : d < 304 + (if leap = true then (1 : Int) else 0)
  · exact hm 9 _ (monthStart_values leap).2.2.2.2.2.2.2.2.2.1 (by clear hdef hm; omega)
      (by rw [hdef]; simp only [c0, c1, c2, c3, c4, c5, c6, c7, c8, c9, if_true, if_false])
  by_cases c10 : d < 334 + (if leap = true then (1 : Int) else 0)
  · exact hm 10 _ (monthStart_values leap).2.2.2.2.2.2.2.2.2.2.1 (by clear hdef hm; omega)
      (by rw [hdef]; simp only [c0, c1, c2, c3, c4, c5, c6, c7, c8, c9, c10, if_true, if_false])
  exact hm 11 _ (monthStart_values leap).2.2.2.2.2.2.2.2.2.2.2 (by clear hdef hm; omega)
    (by rw [hdef]; simp only [c0, c1, c2, c3, c4, c5, c6, c7, c8, c9, c10, if_false])

theorem makeDay_getters (t : Int) :
    makeDay (yearFromTime t) (monthFromTime t) (dateFromTime t) = dayOfTime t := by
  obtain ⟨h0, h1⟩ := dayWithinYear_bounds t
  obtain ⟨hm0, hm1, _, _⟩ := month_of_day (dayWithinYear t) (isLeapYear (yearFromTime t)) h0 h1
  have hdiv : monthFromTime t / 12 = 0 := by
    unfold monthFromTime
    omega
  have hmod : monthFromTime t % 12 = monthFromTime t := by
    unfold monthFromTime
    omega
  simp only [makeDay, hdiv, hmod, Int.add_zero]
  unfold dateFromTime dayWithinYear
  omega

theorem time_getters (t : Int) :
    t = dayOfTime t * msPerDay
        + makeTime (hourFromTime t) (minFromTime t) (secFromTime t) (t % 1000) ∧
      0 ≤ hourFromTime t ∧ hourFromTime t < 24 ∧ 0 ≤ minFromTime t ∧ minFromTime t < 60 ∧
      0 ≤ secFromTime t ∧ secFromTime t < 60 := by
  unfold dayOfTime msPerDay makeTime hourFromTime minFromTime secFromTime
  omega

/-- Reading the six UTC fields of a whole-second time value and feeding them
back to `Date.UTC` gives the time value back, unless the year is in `0..99`. -/
theorem dateUTC_getters (t : Int) (hms : t % 1000 = 0)
    (hyear : ¬ (0 ≤ yearFromTime t ∧ yearFromTime t ≤ 99))
    (hclip : -8640000000000000 ≤ t ∧ t ≤ 8640000000000000) :
    dateUTC (some (yearFromTime t)) (some (monthFromTime t)) (some (dateFromTime t))
        (some (hourFromTime t)) (some (minFromTime t)) (some (secFromTime t)) = some t := by
  have h := (time_getters t).1
  rw [hms] at h
  simp only [dateUTC, Option.bind_eq_bind, Option.some_bind, hyear, if_false, makeDay_getters,
    makeDate]
  rw [← h]
  simp [timeClip, hclip]

/-- Time values of the years 1000 to 9999. -/
theorem year_range (t : Int) (h0 : -30610224000000 ≤ t) (h1 : t < 253402300800000) :
    1000 ≤ yearFromTime t ∧ yearFromTime t < 10000 := by
  have hs := yearFromDay_spec (dayOfTime t)
  have hlow : dayFromYear 1000 = -354285 := by decide
  have hhigh : dayFromYear 10000 = 2932897 := by decide
  have hd : -354285 ≤ dayOfTime t ∧ dayOfTime t < 2932897 := by
    unfold dayOfTime msPerDay
    omega
  unfold yearFromTime
  constructor
  · by_contra hc
    have := dayFromYear_mono (yearFromDay (dayOfTime t) + 1) 1000 (by omega)
    omega
  · by_contra hc
    have := dayFromYear_mono 10000 (yearFromDay (dayOfTime t)) (by omega)
    omega

/-! ## Timestamps -/

theorem slice_fields (a b c d e f : JSString) (ha : a.length = 4) (hb : b.length = 2)
    (hc : c.length = 2) (hd : d.length = 2) (he : e.length = 2) (hf : f.length = 2) :
    slice (a ++ b ++ c ++ d ++ e ++ f) 0 4 = a ∧
      slice (a ++ b ++ c ++ d ++ e ++ f) 4 6 = b ∧
      slice (a ++ b ++ c ++ d ++ e ++ f) 6 8 = c ∧
      slice (a ++ b ++ c ++ d ++ e ++ f) 8 10 = d ∧
      slice (a ++ b ++ c ++ d ++ e ++ f) 10 12 = e ∧
      slice (a ++ b ++ c ++ d ++ e ++ f) 12 14 = f := by
  have key : ∀ (p x r : JSString) (i j : Nat), p.length = i → x.length = j - i → i ≤ j →
      slice (p ++ x ++ r) i j = x := by
    intro p x r i j hp hx hij
    subst hp
    rw [slice, List.append_assoc, List.drop_left, hx.symm, List.take_left]
  refine ⟨?_, ?_, ?_, ?_, ?_, ?_⟩
  · have := key [] a (b ++ c ++ d ++ e ++ f) 0 4 rfl (by simp [ha]) (by decide)
    simpa [List.append_assoc] using this
  · have := key a b (c ++ d ++ e ++ f) 4 6 ha (by simp [hb]) (by decide)
    simpa [List.append_assoc] using this
  · have := key (a ++ b) c (d ++ e ++ f) 6 8 (by simp [ha, hb]) (by simp [hc]) (by decide)
    simpa [List.append_assoc] using this
  · have := key (a ++ b ++ c) d (e ++ f) 8 10 (by simp [ha, hb, hc]) (by simp [hd])
      (by decide)
    simpa [List.append_assoc] using this
  · have := key (a ++ b ++ c ++ d) e f 10 12 (by simp [ha, hb, hc, hd]) (by simp [he])
      (by decide)
    simpa [List.append_assoc] using this
  · have := key (a ++ b ++ c ++ d ++ e) f [] 12 14 (by simp [ha, hb, hc, hd, he])
      (by simp [hf]) (by decide)
    simpa [List.append_assoc] using this

/-- For a whole-second time value of the years 1000 to 9999 the string built by
`addSeconds` has 14 digits, and `toDate` reads the time value back from it. -/
theorem formatDate_spec (t : Int) (h0 : -30610224000000 ≤ t) (h1 : t < 253402300800000)
    (hms : t % 1000 = 0) :
    (formatDate (some t)).length = 14 ∧ (formatDate (some t)).all Char.isDigit = true ∧
      toDate (formatDate (some t)) = some t := by
  obtain ⟨hy0, hy1⟩ := year_range t h0 h1
  obtain ⟨hd0, hd1⟩ := dayWithinYear_bounds t
  obtain ⟨hm0, hm1, hdt0, hdt1⟩ :=
    month_of_day (dayWithinYear t) (isLeapYear (yearFromTime t)) hd0 hd1
  obtain ⟨_, hh0, hh1, hmi0, hmi1, hs0, hs1⟩ := time_getters t
  obtain ⟨yl, yd, yv⟩ := yearString_spec (yearFromTime t) hy0 hy1
  obtain ⟨ml, md, mv⟩ := padStart2_spec (monthFromTime t + 1)
    (by unfold monthFromTime; omega) (by unfold monthFromTime; omega)
  obtain ⟨dl, dd, dv⟩ := padStart2_spec (dateFromTime t)
    (by unfold dateFromTime monthFromTime; omega) (by unfold dateFromTime monthFromTime; omega)
  obtain ⟨hl, hd, hv⟩ := padStart2_spec (hourFromTime t) hh0 (by omega)
  obtain ⟨il, id, iv⟩ := padStart2_spec (minFromTime t) hmi0 (by omega)
  obtain ⟨sl, sd, sv⟩ := padStart2_spec (secFromTime t) hs0 (by omega)
  obtain ⟨f1, f2, f3, f4, f5, f6⟩ := slice_fields _ _ _ _ _ _ yl ml dl hl il sl
  refine ⟨?_, ?_, ?_⟩
  · simp [formatDate, yl, ml, dl, hl, il, sl]
  · simp [formatDate, yd, md, dd, hd, id, sd]
  · unfold toDate
    simp only [formatDate]
    rw [f1, f2, f3, f4, f5, f6, toNumber_of_digits _ yd, toNumber_of_digits _ md,
      toNumber_of_digits _ dd, toNumber_of_digits _ hd, toNumber_of_digits _ id,
      toNumber_of_digits _ sd, yv, mv, dv, hv, iv, sv]
    simp only [Option.map_some', Int.add_sub_cancel]
    exact dateUTC_getters t hms (by omega) (by omega)

/-- The function `addSeconds` moves the time value read by `toDate` by
`seconds` seconds and formats the result. -/
theorem addSeconds_eq (timeStr : JSString) (seconds c : Int) (h : toDate timeStr = some c) :
    addSeconds timeStr seconds = formatDate (timeClip (c + 1000 * seconds)) := by
  unfold toDate at h
  unfold addSeconds
  cases hy : toNumber (slice timeStr 0 4) with
  | none => simp [hy, dateUTC] at h
  | some y =>
    cases hmo : toNumber (slice timeStr 4 6) with
    | none => simp [hy, hmo, dateUTC] at h
    | some mo =>
      cases hd : toNumber (slice timeStr 6 8) with
      | none => simp [hy, hmo, hd, dateUTC] at h
      | some d =>
        cases hh : toNumber (slice timeStr 8 10) with
        | none => simp [hy, hmo, hd, hh, dateUTC] at h
        | some hr =>
          cases hmi : toNumber (slice timeStr 10 12) with
          | none => simp [hy, hmo, hd, hh, hmi, dateUTC] at h
          | some mi =>
            cases hs : toNumber (slice timeStr 12 14) with
            | none => simp [hy, hmo, hd, hh, hmi, hs, dateUTC] at h
            | some s =>
              simp only [hy, hmo, hd, hh, hmi, hs, dateUTC, Option.map_some',
                Option.bind_eq_bind, Option.some_bind] at h ⊢
              generalize (if 0 ≤ y ∧ y ≤ 99 then 1900 + y else y) = yr at h ⊢
              have hc : c = makeDate (makeDay yr (mo - 1) d) (makeTime hr mi s 0) := by
                unfold timeClip at h
                split at h
                · simpa using h.symm
                · simp at h
              congr 2
              rw [hc]
              unfold makeDate makeTime
              omega

theorem isDigit_value (c : Char) (h : c.isDigit = true) : c.toNat - 48 ≤ 9 := by
  simp only [Char.isDigit, Bool.and_eq_true, decide_eq_true_eq] at h
  have h2 : c.val.toNat ≤ 57 := h.2
  show c.val.toNat - 48 ≤ 9
  omega

theorem digitsValue_lt (s : JSString) (hs : s.all Char.isDigit = true) :
    digitsValue s + 1 ≤ 10 ^ s.length := by
  have key : ∀ (l : List Char) (acc : Nat), l.all Char.isDigit = true →
      List.foldl (fun acc c => acc * 10 + (c.toNat - 48)) acc l + 1
        ≤ (acc + 1) * 10 ^ l.length := by
    intro l
    induction l with
    | nil => intro acc _; simp
    | cons c cs ih =>
      intro acc hl
      simp only [List.all_cons, Bool.and_eq_true] at hl
      have hv := isDigit_value c hl.1
      have h1 := ih (acc * 10 + (c.toNat - 48)) hl.2
      have h2 : (acc * 10 + (c.toNat - 48) + 1) * 10 ^ cs.length
          ≤ ((acc + 1) * 10) * 10 ^ cs.length :=
        Nat.mul_le_mul_right _ (by omega)
      simp only [List.foldl_cons, List.length_cons, Nat.pow_succ]
      calc _ ≤ _ := h1
        _ ≤ _ := h2
        _ = _ := by ring
  simpa using key s 0 hs

theorem slice_all (s : JSString) (a b : Nat) (p : Char → Bool) (h : s.all p = true) :
    (slice s a b).all p = true := by
  rw [List.all_eq_true] at h ⊢
  intro c hc
  exact h c (List.mem_of_mem_drop (List.mem_of_mem_take hc))

theorem monthStart_add_days (month day : Nat) (leap : Bool) (h1 : 1 ≤ month)
    (h2 : month ≤ 12) (h3 : day ≤ daysInMonth month leap) :
    0 ≤ monthStart ((month : Int) - 1) leap ∧
      monthStart ((month : Int) - 1) leap + (day : Int)
        ≤ (if leap = true then 366 else 365) := by
  have hd : (day : Int) ≤ (daysInMonth month leap : Int) := by exact_mod_cast h3
  interval_cases month <;> cases leap <;>
    simp [monthStart, daysInMonth] at hd ⊢ <;> omega

/-- A valid timestamp of the years 1000 to 9999 is read by `toDate` as a
whole-second time value of those years. -/
theorem toDate_of_valid (t : JSString) (hv : validTimestamp t = true)
    (hyear : 1000 ≤ digitsValue (slice t 0 4)) :
    ∃ c, toDate t = some c ∧ c % 1000 = 0 ∧ -30610224000000 ≤ c ∧ c < 253402300800000 := by
  simp only [validTimestamp, Bool.and_eq_true, beq_iff_eq, decide_eq_true_eq] at hv
  obtain ⟨⟨⟨⟨⟨⟨hlen, hdig⟩, hm1, hm2⟩, hd1, hd2⟩, hh⟩, hmi⟩, hs⟩ := hv
  have hy4 : digitsValue (slice t 0 4) + 1 ≤ 10 ^ 4 :=
    Nat.le_trans (digitsValue_lt _ (slice_all t 0 4 _ hdig))
      (Nat.pow_le_pow_right (by decide) (by simp [slice]))
  generalize hY : digitsValue (slice t 0 4) = Y at *
  generalize hM : digitsValue (slice t 4 6) = M at *
  generalize hD : digitsValue (slice t 6 8) = D at *
  generalize hH : digitsValue (slice t 8 10) = H at *
  generalize hMi : digitsValue (slice t 10 12) = Mi at *
  generalize hS : digitsValue (slice t 12 14) = S at *
  obtain ⟨hms0, hms1⟩ := monthStart_add_days M D (isLeapYear (Y : Int)) hm1 hm2 hd2
  have hsucc := dayFromYear_succ (Y : Int)
  have hlow := dayFromYear_mono 1000 Y (by omega)
  have hhigh := dayFromYear_mono (Y + 1) 10000 (by omega)
  have hl : dayFromYear 1000 = -354285 := by decide
  have hh' : dayFromYear 10000 = 2932897 := by decide
  have hdiv : ((M : Int) - 1) / 12 = 0 := by omega
  have hmod : ((M : Int) - 1) % 12 = (M : Int) - 1 := by omega
  have hday : dayFromYear Y ≤ makeDay Y ((M : Int) - 1) D ∧
      makeDay Y ((M : Int) - 1) D < dayFromYear (Y + 1) := by
    simp only [makeDay, hdiv, hmod, Int.add_zero]
    generalize isLeapYear (Y : Int) = leap at *
    cases leap <;> simp at hsucc hms1 <;> omega
  have htd : toDate t
      = timeClip (makeDate (makeDay Y ((M : Int) - 1) D) (makeTime H Mi S 0)) := by
    unfold toDate
    rw [toNumber_of_digits _ (slice_all t 0 4 _ hdig), toNumber_of_digits _ (slice_all t 4 6 _ hdig),
      toNumber_of_digits _ (slice_all t 6 8 _ hdig), toNumber_of_digits _ (slice_all t 8 10 _ hdig),
      toNumber_of_digits _ (slice_all t 10 12 _ hdig),
      toNumber_of_digits _ (slice_all t 12 14 _ hdig), hY, hM, hD, hH, hMi, hS]
    simp only [dateUTC, Option.map_some', Option.bind_eq_bind, Option.some_bind,
      show ¬ (0 ≤ (Y : Int) ∧ (Y : Int) ≤ 99) by omega, if_false]
  generalize makeDay Y ((M : Int) - 1) D = day at *
  refine ⟨makeDate day (makeTime H Mi S 0), ?_, ?_, ?_, ?_⟩
  · rw [htd, timeClip, if_pos]
    simp only [makeDate, makeTime, msPerDay]
    omega
  · simp only [makeDate, makeTime, msPerDay]
    omega
  · simp only [makeDate, makeTime, msPerDay]
    omega
  · simp only [makeDate, makeTime, msPerDay]
    omega

/-! ## Chunk planning -/

theorem fetchM3U8Chunk_ok (net : ManifestRequest → Option ManifestResponse)
    (hnet : ∀ req, ∃ r, net req = some r ∧ 200 ≤ r.status ∧ r.status ≤ 299)
    (stationId ft to_ authToken areaId : JSString) :
    ∃ urls, fetchM3U8Chunk net stationId ft to_ authToken areaId = .ok urls := by
  obtain ⟨r, hr, h1, h2⟩ := hnet ⟨stationId, ft, to_, authToken, areaId⟩
  refine ⟨parseM3U8 r.text, ?_⟩
  unfold fetchM3U8Chunk
  rw [hr]
  simp only
  rw [if_neg (by omega), if_neg (by simp [h1, h2])]

theorem collectChunks_done (net : ManifestRequest → Option ManifestResponse)
    (stationId endTime authToken areaId : JSString) (totalSecs : Int) (chunkStart : JSString)
    (elapsed : Int) (acc : List JSString) (h : ¬ elapsed < totalSecs) :
    manifestRanges (collectChunks net stationId endTime authToken areaId totalSecs chunkStart
      elapsed acc).2 = [] := by
  rw [collectChunks, if_neg h]
  rfl

theorem collectChunks_step (net : ManifestRequest → Option ManifestResponse)
    (hnet : ∀ req, ∃ r, net req = some r ∧ 200 ≤ r.status ∧ r.status ≤ 299)
    (stationId endTime authToken areaId : JSString) (totalSecs : Int) (chunkStart : JSString)
    (elapsed : Int) (acc : List JSString) (h : elapsed < totalSecs) :
    ∃ urls,
      manifestRanges (collectChunks net stationId endTime authToken areaId totalSecs
          chunkStart elapsed acc).2
        = (chunkStart,
            if elapsed + FIXED_SEEK_SEC ≥ totalSecs then endTime
            else addSeconds chunkStart FIXED_SEEK_SEC) ::
          manifestRanges (collectChunks net stationId endTime authToken areaId totalSecs
            (if elapsed + FIXED_SEEK_SEC ≥ totalSecs then endTime
              else addSeconds chunkStart FIXED_SEEK_SEC)
            (elapsed + FIXED_SEEK_SEC) (acc ++ urls)).2 := by
  obtain ⟨urls, hurls⟩ := fetchM3U8Chunk_ok net hnet stationId chunkStart
    (if elapsed + FIXED_SEEK_SEC ≥ totalSecs then endTime
      else addSeconds chunkStart FIXED_SEEK_SEC) authToken areaId
  refine ⟨urls, ?_⟩
  rw [collectChunks, if_pos h]
  simp only [hurls]
  simp [manifestRanges]

/-- A range of more than 300 and at most 600 seconds is fetched in two chunks. -/
theorem planDownload_two_chunks (net : ManifestRequest → Option ManifestResponse)
    (hnet : ∀ req, ∃ r, net req = some r ∧ 200 ≤ r.status ∧ r.status ≤ 299)
    (stationId startTime endTime authToken areaId : JSString) (totalSecs : Int)
    (hdiff : diffSeconds startTime endTime = some totalSecs) (h1 : 300 < totalSecs)
    (h2 : totalSecs ≤ 600) :
    manifestRanges (planDownload net stationId startTime endTime authToken areaId).2
      = [(startTime, addSeconds startTime 300), (addSeconds startTime 300, endTime)] := by
  unfold planDownload
  rw [hdiff]
  simp only [show ¬ totalSecs ≤ 0 by omega, if_false]
  obtain ⟨u1, hu1⟩ := collectChunks_step net hnet stationId endTime authToken areaId totalSecs
    startTime 0 [] (by omega)
  rw [hu1]
  have hc1 : ¬ (0 + FIXED_SEEK_SEC ≥ totalSecs) := by
    simp only [FIXED_SEEK_SEC]
    omega
  simp only [hc1, if_false]
  obtain ⟨u2, hu2⟩ := collectChunks_step net hnet stationId endTime authToken areaId totalSecs
    (addSeconds startTime FIXED_SEEK_SEC) (0 + FIXED_SEEK_SEC) ([] ++ u1)
    (by simp only [FIXED_SEEK_SEC]; omega)
  rw [hu2]
  have hc2 : 0 + FIXED_SEEK_SEC + FIXED_SEEK_SEC ≥ totalSecs := by
    simp only [FIXED_SEEK_SEC]
    omega
  simp only [hc2, if_true]
  rw [collectChunks_done _ _ _ _ _ _ _ _ _ (by simp only [FIXED_SEEK_SEC]; omega)]
  rfl

/-- The ranges requested by the loop from a state `(chunkStart, elapsed)` in
which `chunkStart` is `elapsed` seconds after the start `s` of the job. -/
theorem collectChunks_ranges (net : ManifestRequest → Option ManifestResponse)
    (hnet : ∀ req, ∃ r, net req = some r ∧ 200 ≤ r.status ∧ r.status ≤ 299)
    (stationId endTime authToken areaId : JSString) (totalSecs s : Int)
    (hs0 : -30610224000000 ≤ s) (hs1 : s + 1000 * totalSecs < 253402300800000)
    (hsms : s % 1000 = 0) :
    ∀ (n : Nat) (chunkStart : JSString) (elapsed : Int) (acc : List JSString),
      (totalSecs - elapsed).toNat = n → 0 ≤ elapsed →
      toDate chunkStart = some (s + 1000 * elapsed) →
      (manifestRanges (collectChunks net stationId endTime authToken areaId totalSecs
          chunkStart elapsed acc).2).length = ((totalSecs - elapsed + 299) / 300).toNat ∧
      (elapsed < totalSecs →
        (manifestRanges (collectChunks net stationId endTime authToken areaId totalSecs
            chunkStart elapsed acc).2).head?.map Prod.fst = some chunkStart ∧
        (manifestRanges (collectChunks net stationId endTime authToken areaId totalSecs
            chunkStart elapsed acc).2).getLast?.map Prod.snd = some endTime) ∧
      List.Chain' consecutiveRanges
        (manifestRanges (collectChunks net stationId endTime authToken areaId totalSecs
          chunkStart elapsed acc).2) := by
  intro n
  induction n using Nat.strong_induction_on with
  | _ n ih =>
    intro chunkStart elapsed acc hn h0 hdate
    by_cases hlt : elapsed < totalSecs
    · obtain ⟨urls, hstep⟩ := collectChunks_step net hnet stationId endTime authToken areaId
        totalSecs chunkStart elapsed acc hlt
      rw [hstep]
      by_cases hfinal : elapsed + FIXED_SEEK_SEC ≥ totalSecs
      · simp only [hfinal, if_true]
        rw [collectChunks_done _ _ _ _ _ _ _ _ _ (by omega)]
        simp only [FIXED_SEEK_SEC] at hfinal
        refine ⟨?_, fun _ => ⟨rfl, rfl⟩, List.chain'_singleton _⟩
        simp only [List.length_singleton]
        omega
      · simp only [hfinal, if_false]
        have hfinal' : elapsed + 300 < totalSecs := by
          simp only [FIXED_SEEK_SEC] at hfinal
          omega
        have hadd : addSeconds chunkStart FIXED_SEEK_SEC
            = formatDate (some (s + 1000 * (elapsed + FIXED_SEEK_SEC))) := by
          rw [addSeconds_eq chunkStart FIXED_SEEK_SEC _ hdate, timeClip, if_pos]
          · congr 2
            omega
          · simp only [FIXED_SEEK_SEC]
            omega
        obtain ⟨_, _, hnext⟩ := formatDate_spec (s + 1000 * (elapsed + FIXED_SEEK_SEC))
          (by simp only [FIXED_SEEK_SEC]; omega) (by simp only [FIXED_SEEK_SEC]; omega)
          (by simp only [FIXED_SEEK_SEC]; omega)
        rw [← hadd] at hnext
        obtain ⟨hlen, hends, hchain⟩ := ih ((totalSecs - (elapsed + FIXED_SEEK_SEC)).toNat)
          (by simp only [FIXED_SEEK_SEC]; omega) (addSeconds chunkStart FIXED_SEEK_SEC)
          (elapsed + FIXED_SEEK_SEC) (acc ++ urls) rfl (by simp only [FIXED_SEEK_SEC]; omega)
          hnext
        obtain ⟨hhead, hlast⟩ := hends (by simp only [FIXED_SEEK_SEC]; omega)
        generalize manifestRanges (collectChunks net stationId endTime authToken areaId
          totalSecs (addSeconds chunkStart FIXED_SEEK_SEC) (elapsed + FIXED_SEEK_SEC)
          (acc ++ urls)).2 = rest at *
        cases rest with
        | nil => simp at hhead
        | cons r rs =>
          refine ⟨?_, fun _ => ⟨rfl, ?_⟩, ?_⟩
          · simp only [List.length_cons, FIXED_SEEK_SEC] at hlen ⊢
            omega
          · rw [List.getLast?_cons_cons]
            exact hlast
          · refine List.Chain'.cons ?_ hchain
            simp only [List.head?_cons, Option.map_some', Option.some.injEq] at hhead
            refine ⟨hhead, ?_⟩
            unfold diffSeconds
            rw [hnext, hdate]
            simp only [FIXED_SEEK_SEC]
            congr 1
            omega
    · rw [collectChunks_done _ _ _ _ _ _ _ _ _ hlt]
      refine ⟨?_, fun h => absurd h hlt, List.chain'_nil⟩
      simp only [List.length_nil]
      omega

theorem exampleManifestServer_ok :
    ∀ req, ∃ r, exampleManifestServer req = some r ∧ 200 ≤ r.status ∧ r.status ≤ 299 :=
  fun _ => ⟨_, rfl, by decide, by decide⟩

/-- C6, as stated, fails for years below 1000: `addSeconds` writes the year
without padding, so for the valid timestamps `05000101000000` and
`05000101001000` (600 seconds apart) the first chunk ends at the 13-character
string `5000101000500`, which `toDate` reads as a date of the year 5000; the
non-final chunk does not end 300 seconds after its start. It also needs the
manifest fetches to succeed: when the server answers 404, only the first of the
two ranges of the spec example is requested. -/
theorem chunk_ranges_year_500_counterexample :
    validTimestamp "05000101000000".toList = true ∧
      validTimestamp "05000101001000".toList = true ∧
      diffSeconds "05000101000000".toList "05000101001000".toList = some 600 ∧
      manifestRanges (planDownload exampleManifestServer "TBS".toList "05000101000000".toList
          "05000101001000".toList "token".toList "JP13".toList).2
        = [("05000101000000".toList, "5000101000500".toList),
            ("5000101000500".toList, "05000101001000".toList)] ∧
      diffSeconds "05000101000000".toList "5000101000500".toList = some 142030630200 ∧
      diffSeconds "05000101000000".toList "5000101000500".toList ≠ some 300 ∧
      manifestRanges (planDownload notFoundManifestServer "TBS".toList
          "20240101120000".toList "20240101121000".toList "token".toList "JP13".toList).2
        = [("20240101120000".toList, "20240101120500".toList)] := by
  refine ⟨by decide, by decide, by decide, ?_, by decide, by decide, ?_⟩
  · rw [planDownload_two_chunks exampleManifestServer exampleManifestServer_ok _ _ _ _ _ 600
      (by decide) (by decide) (by decide)]
    decide
  · have hdiff : diffSeconds "20240101120000".toList "20240101121000".toList = some 600 := by
      decide
    unfold planDownload
    rw [hdiff]
    simp only [show ¬ ((600 : Int) ≤ 0) by decide, if_false]
    rw [collectChunks, if_pos (by decide)]
    decide

/-- C6, amended: for valid 14-digit timestamps of the years 1000 to 9999
with `endTime` later than `startTime`, and a server that answers every manifest
request with success, the ranges for which phase 1 of `downloadTimefree`
requests a manifest are `ceil(totalSeconds / 300)` in number, the first starts
at `startTime`, each later one starts where the previous one ended, every
non-final one ends exactly 300 seconds after its start, and the final one ends
at `endTime`; from `20240101120000` to `20240101121000` the ranges are
`(20240101120000, 20240101120500)` and `(20240101120500, 20240101121000)`. -/
theorem downloadTimefree_chunk_ranges (net : ManifestRequest → Option ManifestResponse)
    (stationId startTime endTime authToken areaId : JSString) (totalSecs : Int)
    (hstart : validTimestamp startTime = true) (hend : validTimestamp endTime = true)
    (hyear : 1000 ≤ digitsValue (slice startTime 0 4))
    (hyearEnd : 1000 ≤ digitsValue (slice endTime 0 4))
    (hdiff : diffSeconds startTime endTime = some totalSecs) (hpos : 0 < totalSecs)
    (hnet : ∀ req, ∃ r, net req = some r ∧ 200 ≤ r.status ∧ r.status ≤ 299) :
    (manifestRanges (planDownload net stationId startTime endTime authToken areaId).2).length
        = ((totalSecs + 299) / 300).toNat ∧
      (manifestRanges (planDownload net stationId startTime endTime authToken
          areaId).2).head?.map Prod.fst = some startTime ∧
      List.Chain' consecutiveRanges
        (manifestRanges (planDownload net stationId startTime endTime authToken areaId).2) ∧
      (manifestRanges (planDownload net stationId startTime endTime authToken
          areaId).2).getLast?.map Prod.snd = some endTime ∧
      manifestRanges (planDownload exampleManifestServer "TBS".toList "20240101120000".toList
          "20240101121000".toList "token".toList "JP13".toList).2
        = [("20240101120000".toList, "20240101120500".toList),
            ("20240101120500".toList, "20240101121000".toList)] := by
  obtain ⟨s, hs, hsms, hs0, _⟩ := toDate_of_valid startTime hstart hyear
  obtain ⟨e, he, hems, _, he1⟩ := toDate_of_valid endTime hend hyearEnd
  have htotal : e = s + 1000 * totalSecs := by
    unfold diffSeconds at hdiff
    rw [hs, he] at hdiff
    simp only [Option.some.injEq] at hdiff
    omega
  have hmain := collectChunks_ranges net hnet stationId endTime authToken areaId totalSecs s
    hs0 (by omega) hsms (totalSecs - 0).toNat startTime 0 [] rfl (Int.le_refl 0)
    (by rw [hs]; congr 1; omega)
  have hplan : planDownload net stationId startTime endTime authToken areaId
      = collectChunks net stationId endTime authToken areaId totalSecs startTime 0 [] := by
    unfold planDownload
    rw [hdiff]
    simp only [show ¬ totalSecs ≤ 0 by omega, if_false]
  rw [hplan]
  obtain ⟨hlen, hends, hchain⟩ := hmain
  obtain ⟨hhead, hlast⟩ := hends hpos
  refine ⟨?_, hhead, hchain, hlast, ?_⟩
  · rw [hlen, Int.sub_zero]
  · rw [planDownload_two_chunks exampleManifestServer exampleManifestServer_ok _ _ _ _ _ 600
      (by decide) (by decide) (by decide)]
    decide

/-- Witness for C6 (amended): the job of the spec example. -/
theorem downloadTimefree_chunk_ranges_witness :
    (manifestRanges (planDownload exampleManifestServer "TBS".toList "20240101120000".toList
        "20240101121000".toList "token".toList "JP13".toList).2).length = 2 ∧
      (manifestRanges (planDownload exampleManifestServer "TBS".toList
        "20240101120000".toList "20240101121000".toList "token".toList
        "JP13".toList).2).getLast?.map Prod.snd = some "20240101121000".toList :=
  have h := downloadTimefree_chunk_ranges exampleManifestServer "TBS".toList
    "20240101120000".toList "20240101121000".toList "token".toList "JP13".toList 600
    (by decide) (by decide) (by decide) (by decide) (by decide) (by decide)
    exampleManifestServer_ok
  ⟨h.1, h.2.2.2.1⟩

/-! ## Idempotence of the ID3 stripper -/

/-- C19: `parseAAC` is idempotent, and its result is a suffix of its input,
never longer than the input. -/
theorem parseAAC_idempotent (b : List Nat) :
    parseAAC (parseAAC b) = parseAAC b ∧ parseAAC b <:+ b ∧
      (parseAAC b).length ≤ b.length := by
  refine ⟨?_, List.drop_suffix _ _, ?_⟩
  · obtain ⟨n, hn, _, hlast⟩ := parseAACLoop_spec b 0
    have hp : parseAAC b = b.drop (skipOffset b 0 n) := by
      rw [parseAAC, hn]
    rw [hp]
    rcases hlast with h | h
    · have h0 : hasID3 (b.drop (skipOffset b 0 n)) 0 = false := by
        rw [hasID3_drop]
        exact h
      rw [parseAAC, parseAACLoop_of_no_tag _ _ h0]
      rfl
    · rw [parseAAC, parseAACLoop_of_short _ _ (by rw [List.length_drop]; omega)]
      rfl
  · rw [parseAAC, List.length_drop]
    omega

/-! ## Player rules -/

theorem playerRules_ids (radioBase : Nat) (authToken areaId : JSString)
    (filters : List JSString) :
    (filters.enum.map fun p => playerRule radioBase authToken areaId p.1 p.2).map (·.id)
      = (List.range filters.length).map (radioBase + ·) := by
  rw [← List.enum_map_fst, List.map_map, List.map_map]
  rfl

theorem playerRules_mem_id (radioBase : Nat) (authToken areaId : JSString)
    (filters : List JSString) (r : Rule)
    (h : r ∈ filters.enum.map fun p => playerRule radioBase authToken areaId p.1 p.2) :
    radioBase ≤ r.id := by
  obtain ⟨p, _, rfl⟩ := List.mem_map.mp h
  exact Nat.le_add_right _ _

theorem kept_rules_eq (radioBase : Nat) (existing : List Rule) :
    (existing.filter fun r =>
        !((existing.filter fun r => decide (r.id ≥ radioBase)).map (·.id)).contains r.id)
      = existing.filter fun r => decide (r.id < radioBase) := by
  apply List.filter_congr
  intro r hr
  by_cases hlt : r.id < radioBase
  · have hnot : ¬ r.id ∈ (existing.filter fun r => decide (r.id ≥ radioBase)).map (·.id) := by
      intro hmem
      obtain ⟨q, hq, hid⟩ := List.mem_map.mp hmem
      have := (List.mem_filter.mp hq).2
      simp only [decide_eq_true_eq] at this
      have hid2 : q.id = r.id := hid
      omega
    simp [hlt, hnot]
  · have hmem : r.id ∈ (existing.filter fun r => decide (r.id ≥ radioBase)).map (·.id) :=
      List.mem_map.mpr ⟨r, List.mem_filter.mpr ⟨hr, by simp; omega⟩, rfl⟩
    simp [hlt, hmem]

/-- The rule set after `updatePlayerRules`: the old rules below `radioBase`
followed by the new player rules. -/
theorem updatePlayerRules_eq (radioBase : Nat) (filters : List JSString)
    (authToken areaId : JSString) (existing : List Rule) :
    updatePlayerRules radioBase filters authToken areaId existing
      = some ((existing.filter fun r => decide (r.id < radioBase)) ++
          filters.enum.map fun p => playerRule radioBase authToken areaId p.1 p.2) := by
  unfold updatePlayerRules updateDynamicRules
  simp only [kept_rules_eq]
  rw [if_pos]
  constructor
  · rw [playerRules_ids]
    exact (List.nodup_range _).map fun a b h => by omega
  · intro r hr hmem
    have h1 := playerRules_mem_id radioBase authToken areaId filters r hr
    obtain ⟨q, hq, hid⟩ := List.mem_map.mp hmem
    have := (List.mem_filter.mp hq).2
    simp only [decide_eq_true_eq] at this
    have hid2 : q.id = r.id := hid
    omega

theorem playerRules_filter_ge (radioBase : Nat) (filters : List JSString)
    (authToken areaId : JSString) (existing : List Rule) :
    ((existing.filter fun r => decide (r.id < radioBase)) ++
        filters.enum.map fun p => playerRule radioBase authToken areaId p.1 p.2).filter
        (fun r => decide (r.id ≥ radioBase))
      = filters.enum.map fun p => playerRule radioBase authToken areaId p.1 p.2 := by
  rw [List.filter_append]
  have h1 : (existing.filter fun r => decide (r.id < radioBase)).filter
      (fun r => decide (r.id ≥ radioBase)) = [] := by
    rw [List.filter_eq_nil_iff]
    intro r hr
    have := (List.mem_filter.mp hr).2
    simp only [decide_eq_true_eq] at this ⊢
    omega
  have h2 : (filters.enum.map fun p => playerRule radioBase authToken areaId p.1 p.2).filter
      (fun r => decide (r.id ≥ radioBase))
      = filters.enum.map fun p => playerRule radioBase authToken areaId p.1 p.2 := by
    rw [List.filter_eq_self]
    intro r hr
    simpa using playerRules_mem_id radioBase authToken areaId filters r hr
  rw [h1, h2, List.nil_append]

theorem playerRules_filter_lt (radioBase : Nat) (filters : List JSString)
    (authToken areaId : JSString) (existing : List Rule) :
    ((existing.filter fun r => decide (r.id < radioBase)) ++
        filters.enum.map fun p => playerRule radioBase authToken areaId p.1 p.2).filter
        (fun r => decide (r.id < radioBase))
      = existing.filter fun r => decide (r.id < radioBase) := by
  rw [List.filter_append]
  have h1 : (filters.enum.map fun p => playerRule radioBase authToken areaId p.1 p.2).filter
      (fun r => decide (r.id < radioBase)) = [] := by
    rw [List.filter_eq_nil_iff]
    intro r hr
    have := playerRules_mem_id radioBase authToken areaId filters r hr
    simp only [decide_eq_true_eq]
    omega
  rw [h1, List.append_nil, List.filter_filter]
  simp

/-- C16: for every existing rule set, token and area id, the single
`updateDynamicRules` call of `updatePlayerRules` is accepted and replaces the
player-rule namespace wholesale: afterwards the rules with id at least
`RADIO_BASE` are exactly one rule per pattern of `PLAYER_URL_FILTERS`, the
`i`-th with id `RADIO_BASE + i`, setting `X-Radiko-AuthToken` to the token and
`X-Radiko-AreaId` to the area id on `xmlhttprequest`, `media` and `other`; the
rules with id below `RADIO_BASE` are unchanged. -/
theorem updatePlayerRules_replaces_namespace (radioBase : Nat) (filters : List JSString)
    (authToken areaId : JSString) (existing : List Rule) :
    ∃ rules, updatePlayerRules radioBase filters authToken areaId existing = some rules ∧
      (rules.filter fun r => decide (r.id ≥ radioBase)).length = filters.length ∧
      (∀ i urlFilter, filters[i]? = some urlFilter →
        (rules.filter fun r => decide (r.id ≥ radioBase))[i]?
          = some (
            { id := radioBase + i,
              priority := 1,
              actionType := "modifyHeaders".toList,
              requestHeaders :=
                [ { header := "X-Radiko-AuthToken".toList, operation := "set".toList,
                    value := authToken },
                  { header := "X-Radiko-AreaId".toList, operation := "set".toList,
                    value := areaId } ],
              urlFilter := urlFilter,
              resourceTypes :=
                ["xmlhttprequest".toList, "media".toList, "other".toList] } : Rule)) ∧
      (rules.filter fun r => decide (r.id < radioBase))
        = existing.filter fun r => decide (r.id < radioBase) := by
  refine ⟨_, updatePlayerRules_eq radioBase filters authToken areaId existing, ?_, ?_, ?_⟩
  · rw [playerRules_filter_ge]
    simp
  · intro i urlFilter hi
    rw [playerRules_filter_ge, List.getElem?_map, List.getElem?_enum, hi]
    rfl
  · exact playerRules_filter_lt radioBase filters authToken areaId existing

/-! ## Device identity -/

theorem retrieveToken_respectsDevice (cfg : Static) (w : World) (d : DeviceInfo)
    (areaId : JSString) :
    ∀ e ∈ (retrieveToken cfg w d areaId).2, respectsDevice d e := by
  unfold retrieveToken
  split
  · simp
  · split
    · simp [respectsDevice]
    · split
      · simp [respectsDevice]
      · simp only
        split
        · simp [respectsDevice]
        · simp [respectsDevice]
        · split
          · simp [respectsDevice]
          · split
            · simp [respectsDevice, auth2Request]
            · split <;> simp [respectsDevice, auth2Request]

/-- The effects of `loadOrRefreshToken` on and with the device identity:
nothing at all on a cache hit; otherwise the identity is written first if none
was stored, and everything after that uses the identity then stored. -/
theorem loadOrRefreshToken_device (cfg : Static) (w : World) (pref : Option JSString)
    (stored : Store) :
    ((loadOrRefreshToken cfg w pref stored).trace = [] ∧
      (loadOrRefreshToken cfg w pref stored).store = stored) ∨
    (∃ rest, (loadOrRefreshToken cfg w pref stored).trace = deviceWrites w stored ++ rest ∧
      (∀ e ∈ rest, respectsDevice (stored.device.getD w.randomDevice) e) ∧
      (loadOrRefreshToken cfg w pref stored).store.device
        = some (stored.device.getD w.randomDevice)) := by
  cases h : (truthy stored.token && decide (w.now - stored.tokenTime.getD 0 < TOKEN_TTL_MS))
  · right
    have hsent := retrieveToken_respectsDevice cfg w (stored.device.getD w.randomDevice)
      ((pref.orElse fun _ => stored.prefArea).getD "JP13".toList)
    rcases loadOrRefreshToken_refresh cfg w pref stored h with
      ⟨e, sent, hrt, _, htr, _, hdev⟩ | ⟨c, sent, hrt, _, htr, _, hdev⟩
    · rw [hrt] at hsent
      exact ⟨sent, htr, hsent, hdev⟩
    · rw [hrt] at hsent
      refine ⟨sent ++ [.storageSetCredential c.authToken c.areaId c.areaInfo w.nowAtStore],
        by rw [htr, List.append_assoc], ?_, hdev⟩
      intro e he
      rcases List.mem_append.mp he with h1 | h1
      · exact hsent e h1
      · rw [List.mem_singleton.mp h1]
        trivial
  · left
    exact (loadOrRefreshToken_cached cfg w pref stored h).2

theorem init_trace (cfg : Static) (w : World) (forceReauth : Bool) (stored : Store) :
    ∃ tail,
      (init cfg w forceReauth stored).2
        = (if forceReauth then [Effect.storageRemoveToken] else []) ++
          (loadOrRefreshToken cfg w none
            (if forceReauth then { stored with token := none, tokenTime := none }
              else stored)).trace ++ tail ∧
      ∀ e ∈ tail, beforeHandshake e ∧ ∀ d, respectsDevice d e := by
  have key : ∀ (trace0 : List Effect) (store0 : Store),
      ∃ tail,
        (match (loadOrRefreshToken cfg w none store0).result with
          | .error _ => ((loadOrRefreshToken cfg w none store0).store,
              trace0 ++ (loadOrRefreshToken cfg w none store0).trace)
          | .ok result =>
            ((loadOrRefreshToken cfg w none store0).store,
              trace0 ++ (loadOrRefreshToken cfg w none store0).trace ++
                (match (loadOrRefreshToken cfg w none store0).store.device with
                  | some device => [Effect.updateAuthRules device.userId device.device]
                  | none => []) ++
                [Effect.updatePlayerRules result.authToken result.areaId])).2
          = trace0 ++ (loadOrRefreshToken cfg w none store0).trace ++ tail ∧
        ∀ e ∈ tail, beforeHandshake e ∧ ∀ d, respectsDevice d e := by
    intro trace0 store0
    cases (loadOrRefreshToken cfg w none store0).result with
    | error _ => exact ⟨[], by simp, by simp⟩
    | ok result =>
      cases (loadOrRefreshToken cfg w none store0).store.device with
      | none =>
        refine ⟨[.updatePlayerRules result.authToken result.areaId], by simp, ?_⟩
        intro e he
        rw [List.mem_singleton.mp he]
        exact ⟨trivial, fun _ => trivial⟩
      | some device =>
        refine ⟨[.updateAuthRules device.userId device.device,
          .updatePlayerRules result.authToken result.areaId], by simp, ?_⟩
        intro e he
        simp only [List.mem_cons, List.mem_singleton, List.not_mem_nil, or_false] at he
        rcases he with rfl | rfl <;> exact ⟨trivial, fun _ => trivial⟩
  exact key _ _

/-- C18: the persisted device identity is immutable once created. When the
store holds an identity `d`, `loadOrRefreshToken` and `init` (forced or not,
whatever the handshake answers) leave it stored, never write the identity, and
every auth1 and auth2 request they send carries `d`. When none is stored, either
no handshake is attempted and nothing is written, or the generated identity is
written to the store before the first handshake request and used for it. -/
theorem device_identity_immutable (cfg : Static) (w : World) (pref : Option JSString)
    (stored : Store) (forceReauth : Bool) :
    (∀ d, stored.device = some d →
      (loadOrRefreshToken cfg w pref stored).store.device = some d ∧
      (∀ e ∈ (loadOrRefreshToken cfg w pref stored).trace, respectsDevice d e) ∧
      (init cfg w forceReauth stored).1.device = some d ∧
      (∀ e ∈ (init cfg w forceReauth stored).2, respectsDevice d e)) ∧
    (stored.device = none →
      (((∀ e ∈ (loadOrRefreshToken cfg w pref stored).trace, beforeHandshake e) ∧
          (loadOrRefreshToken cfg w pref stored).store.device = none) ∨
        (∃ post, (loadOrRefreshToken cfg w pref stored).trace
            = .storageSetDevice w.randomDevice :: post ∧
          (∀ e ∈ post, respectsDevice w.randomDevice e) ∧
          (loadOrRefreshToken cfg w pref stored).store.device = some w.randomDevice)) ∧
      (((∀ e ∈ (init cfg w forceReauth stored).2, beforeHandshake e) ∧
          (init cfg w forceReauth stored).1.device = none) ∨
        (∃ pre post, (init cfg w forceReauth stored).2
            = pre ++ .storageSetDevice w.randomDevice :: post ∧
          (∀ e ∈ pre, beforeHandshake e) ∧
          (∀ e ∈ post, respectsDevice w.randomDevice e) ∧
          (init cfg w forceReauth stored).1.device = some w.randomDevice))) := by
  obtain ⟨tail, htrace, htail⟩ := init_trace cfg w forceReauth stored
  have hstore := init_store cfg w forceReauth stored
  have hdev0 : (if forceReauth then { stored with token := none, tokenTime := none }
      else stored).device = stored.device := by
    cases forceReauth <;> rfl
  have hpre : ∀ e ∈ (if forceReauth then [Effect.storageRemoveToken] else []),
      beforeHandshake e ∧ ∀ d, respectsDevice d e := by
    intro e he
    cases forceReauth
    · simp at he
    · simp only [if_true, List.mem_singleton] at he
      rw [he]
      exact ⟨trivial, fun _ => trivial⟩
  generalize (if forceReauth then { stored with token := none, tokenTime := none }
    else stored) = store0 at *
  constructor
  · intro d hd
    refine ⟨?_, ?_, ?_, ?_⟩
    · rcases loadOrRefreshToken_device cfg w pref stored with ⟨_, hs⟩ | ⟨rest, _, _, hs⟩
      · rw [hs, hd]
      · rw [hs, hd]
        rfl
    · rcases loadOrRefreshToken_device cfg w pref stored with ⟨ht, _⟩ | ⟨rest, ht, hr, _⟩
      · rw [ht]
        simp
      · rw [ht]
        simp only [deviceWrites, hd, List.nil_append]
        simpa [hd] using hr
    · rw [hstore]
      rcases loadOrRefreshToken_device cfg w none store0 with ⟨_, hs⟩ | ⟨rest, _, _, hs⟩
      · rw [hs, hdev0, hd]
      · rw [hs, hdev0, hd]
        rfl
    · rw [htrace]
      intro e he
      rcases List.mem_append.mp he with h1 | h1
      · rcases List.mem_append.mp h1 with h2 | h2
        · exact (hpre e h2).2 d
        · rcases loadOrRefreshToken_device cfg w none store0 with ⟨ht, _⟩ | ⟨rest, ht, hr, _⟩
          · rw [ht] at h2
            simp at h2
          · rw [ht] at h2
            simp only [deviceWrites, hdev0, hd, List.nil_append] at h2
            have := hr e h2
            simpa [hdev0, hd] using this
      · exact (htail e h1).2 d
  · intro hnone
    constructor
    · rcases loadOrRefreshToken_device cfg w pref stored with ⟨ht, hs⟩ | ⟨rest, ht, hr, hs⟩
      · left
        rw [ht, hs]
        exact ⟨by simp, hnone⟩
      · right
        refine ⟨rest, ?_, ?_, ?_⟩
        · rw [ht]
          simp [deviceWrites, hnone]
        · simpa [hnone] using hr
        · simpa [hnone] using hs
    · rw [htrace, hstore]
      rcases loadOrRefreshToken_device cfg w none store0 with ⟨ht, hs⟩ | ⟨rest, ht, hr, hs⟩
      · left
        rw [ht, hs, hdev0]
        refine ⟨?_, hnone⟩
        intro e he
        simp only [List.append_nil] at he
        rcases List.mem_append.mp he with h1 | h1
        · exact (hpre e h1).1
        · exact (htail e h1).1
      · right
        refine ⟨_, rest ++ tail, ?_, fun e he => (hpre e he).1, ?_, ?_⟩
        · rw [ht]
          simp [deviceWrites, hdev0, hnone]
        · intro e he
          rcases List.mem_append.mp he with h1 | h1
          · have := hr e h1
            simpa [hdev0, hnone] using this
          · exact (htail e h1).2 _
        · simpa [hdev0, hnone] using hs

/-! ## The worker pool: induction principle -/

theorem runPool_induction (segmentUrls : List JSString) (authToken areaId : JSString)
    (segNet : Nat → JSString → Option SegmentResponse) (sched : Nat → Nat)
    (P : PoolState → Prop)
    (hresume : ∀ s w, P s → P (resumeWorker segmentUrls authToken areaId segNet s w)) :
    ∀ (fuel n : Nat) (s : PoolState), P s →
      P (runPool segmentUrls authToken areaId segNet sched fuel n s) := by
  intro fuel
  induction fuel with
  | zero => intro n s hs; exact hs
  | succ fuel ih =>
    intro n s hs
    rw [runPool]
    split
    · exact hs
    · exact ih _ _ (hresume _ _ hs)

theorem spawnedPool_induction (maxWorkers : Nat) (segmentUrls : List JSString)
    (authToken areaId : JSString) (P : PoolState → Prop) (h0 : P (initialPool segmentUrls))
    (hspawn : ∀ s, P s → P (spawnWorker segmentUrls authToken areaId s)) :
    P (spawnedPool maxWorkers segmentUrls authToken areaId) := by
  unfold spawnedPool
  generalize List.range maxWorkers = l
  generalize initialPool segmentUrls = s at h0
  induction l generalizing s with
  | nil => exact h0
  | cons _ l ih => exact ih _ (hspawn s h0)

/-- A property of the initial state that every worker start and every worker
step preserves holds when `fetchSegments` is over, whatever the schedule. -/
theorem fetchSegments_induction (maxWorkers : Nat) (segmentUrls : List JSString)
    (authToken areaId : JSString) (segNet : Nat → JSString → Option SegmentResponse)
    (sched : Nat → Nat) (P : PoolState → Prop) (h0 : P (initialPool segmentUrls))
    (hspawn : ∀ s, P s → P (spawnWorker segmentUrls authToken areaId s))
    (hresume : ∀ s w, P s → P (resumeWorker segmentUrls authToken areaId segNet s w)) :
    P (fetchSegments maxWorkers segmentUrls authToken areaId segNet sched) :=
  runPool_induction segmentUrls authToken areaId segNet sched P hresume _ _ _
    (spawnedPool_induction maxWorkers segmentUrls authToken areaId P h0 hspawn)

theorem loopHead_events (segmentUrls : List JSString) (authToken areaId : JSString)
    (s : PoolState) (h : ∀ e ∈ s.trace, isPoolEvent e) :
    ∀ e ∈ (loopHead segmentUrls authToken areaId s).1.trace, isPoolEvent e := by
  unfold loopHead
  split
  · intro e he
    rcases List.mem_append.mp he with h1 | h1
    · exact h e h1
    · rw [List.mem_singleton.mp h1]
      trivial
  · exact h

/-- The segment fetcher only requests segments and reports progress. -/
theorem fetchSegments_events (maxWorkers : Nat) (segmentUrls : List JSString)
    (authToken areaId : JSString) (segNet : Nat → JSString → Option SegmentResponse)
    (sched : Nat → Nat) :
    ∀ e ∈ (fetchSegments maxWorkers segmentUrls authToken areaId segNet sched).trace,
      isPoolEvent e := by
  apply fetchSegments_induction maxWorkers segmentUrls authToken areaId segNet sched
    (fun s => ∀ e ∈ s.trace, isPoolEvent e)
  · intro e he
    simp [initialPool] at he
  · intro s hs
    exact loopHead_events segmentUrls authToken areaId s hs
  · intro s w hs
    unfold resumeWorker
    split
    · split
      · exact hs
      · split
        · exact hs
        · exact hs
    · apply loopHead_events
      intro e he
      rcases List.mem_append.mp he with h1 | h1
      · exact hs e h1
      · rw [List.mem_singleton.mp h1]
        trivial
    · exact hs

/-! ## Planning: failures and empty manifests -/

/-- Induction along the `while` loop of phase 1. -/
theorem collectChunks_induction (net : ManifestRequest → Option ManifestResponse)
    (stationId endTime authToken areaId : JSString) (totalSecs : Int)
    (P : JSString → Int → List JSString →
      Except DownloadError (List JSString) × List DownloadEvent → Prop)
    (hdone : ∀ chunkStart elapsed acc, ¬ elapsed < totalSecs →
      P chunkStart elapsed acc (.ok acc, []))
    (herr : ∀ chunkStart elapsed acc e, elapsed < totalSecs →
      fetchM3U8Chunk net stationId chunkStart
        (if elapsed + FIXED_SEEK_SEC ≥ totalSecs then endTime
          else addSeconds chunkStart FIXED_SEEK_SEC) authToken areaId = .error e →
      P chunkStart elapsed acc
        (.error e,
          [.progress "playlist".toList elapsed totalSecs,
            .fetchManifest
              { stationId := stationId, ft := chunkStart,
                to_ := (if elapsed + FIXED_SEEK_SEC ≥ totalSecs then endTime
                  else addSeconds chunkStart FIXED_SEEK_SEC),
                authToken := authToken, areaId := areaId }]))
    (hok : ∀ chunkStart elapsed acc urls rest, elapsed < totalSecs →
      fetchM3U8Chunk net stationId chunkStart
        (if elapsed + FIXED_SEEK_SEC ≥ totalSecs then endTime
          else addSeconds chunkStart FIXED_SEEK_SEC) authToken areaId = .ok urls →
      P (if elapsed + FIXED_SEEK_SEC ≥ totalSecs then endTime
          else addSeconds chunkStart FIXED_SEEK_SEC) (elapsed + FIXED_SEEK_SEC)
        (acc ++ urls) rest →
      P chunkStart elapsed acc
        (rest.1,
          [.progress "playlist".toList elapsed totalSecs,
            .fetchManifest
              { stationId := stationId, ft := chunkStart,
                to_ := (if elapsed + FIXED_SEEK_SEC ≥ totalSecs then endTime
                  else addSeconds chunkStart FIXED_SEEK_SEC),
                authToken := authToken, areaId := areaId }] ++ rest.2)) :
    ∀ chunkStart elapsed acc,
      P chunkStart elapsed acc
        (collectChunks net stationId endTime authToken areaId totalSecs chunkStart elapsed
          acc) := by
  have key : ∀ (n : Nat) chunkStart elapsed acc, (totalSecs - elapsed).toNat = n →
      P chunkStart elapsed acc
        (collectChunks net stationId endTime authToken areaId totalSecs chunkStart elapsed
          acc) := by
    intro n
    induction n using Nat.strong_induction_on with
    | _ n ih =>
      intro chunkStart elapsed acc hn
      by_cases hlt : elapsed < totalSecs
      · rw [collectChunks, if_pos hlt]
        simp only
        cases hf : fetchM3U8Chunk net stationId chunkStart
            (if elapsed + FIXED_SEEK_SEC ≥ totalSecs then endTime
              else addSeconds chunkStart FIXED_SEEK_SEC) authToken areaId with
        | error e => exact herr chunkStart elapsed acc e hlt hf
        | ok urls =>
          exact hok chunkStart elapsed acc urls _ hlt hf
            (ih ((totalSecs - (elapsed + FIXED_SEEK_SEC)).toNat)
              (by simp only [FIXED_SEEK_SEC]; omega) _ _ _ rfl)
      · rw [collectChunks, if_neg hlt]
        exact hdone chunkStart elapsed acc hlt
  intro chunkStart elapsed acc
  exact key _ chunkStart elapsed acc rfl

theorem collectChunks_events (net : ManifestRequest → Option ManifestResponse)
    (stationId endTime authToken areaId : JSString) (totalSecs : Int)
    (chunkStart : JSString) (elapsed : Int) (acc : List JSString) :
    ∀ e ∈ (collectChunks net stationId endTime authToken areaId totalSecs chunkStart
      elapsed acc).2, isPlanEvent e := by
  apply collectChunks_induction net stationId endTime authToken areaId totalSecs
    (fun _ _ _ out => ∀ e ∈ out.2, isPlanEvent e)
  · intro _ _ _ _ e he
    simp at he
  · intro _ _ _ _ _ _ e he
    simp only [List.mem_cons, List.mem_singleton, List.not_mem_nil, or_false] at he
    rcases he with rfl | rfl <;> trivial
  · intro _ _ _ _ rest _ _ ih e he
    rcases List.mem_append.mp he with h1 | h1
    · simp only [List.mem_cons, List.mem_singleton, List.not_mem_nil, or_false] at h1
      rcases h1 with rfl | rfl <;> trivial
    · exact ih e h1

/-- A manifest request answered with status 404 ends the loop: it is the last
step, and the loop throws the `playlist 404` error for its range. -/
theorem collectChunks_notFound (net : ManifestRequest → Option ManifestResponse)
    (stationId endTime authToken areaId : JSString) (totalSecs : Int)
    (chunkStart : JSString) (elapsed : Int) (acc : List JSString) :
    ∀ req r,
      DownloadEvent.fetchManifest req
        ∈ (collectChunks net stationId endTime authToken areaId totalSecs chunkStart
            elapsed acc).2 →
      net req = some r → r.status = 404 →
      (collectChunks net stationId endTime authToken areaId totalSecs chunkStart
          elapsed acc).1 = .error (.playlist404 stationId req.ft req.to_) ∧
      (collectChunks net stationId endTime authToken areaId totalSecs chunkStart
          elapsed acc).2.getLast? = some (.fetchManifest req) := by
  apply collectChunks_induction net stationId endTime authToken areaId totalSecs
    (fun _ _ _ out => ∀ req r, DownloadEvent.fetchManifest req ∈ out.2 →
      net req = some r → r.status = 404 →
      out.1 = .error (.playlist404 stationId req.ft req.to_) ∧
      out.2.getLast? = some (.fetchManifest req))
  · intro _ _ _ _ req r hmem
    simp at hmem
  · intro chunkStart elapsed acc e _ hf req r hmem hr h404
    simp only [List.mem_cons, List.mem_singleton, List.not_mem_nil, or_false,
      DownloadEvent.fetchManifest.injEq, reduceCtorEq, false_or] at hmem
    subst hmem
    unfold fetchM3U8Chunk at hf
    rw [hr] at hf
    simp only [h404, if_true, Except.error.injEq] at hf
    exact ⟨by rw [← hf], rfl⟩
  · intro chunkStart elapsed acc urls rest _ hf ih req r hmem hr h404
    rcases List.mem_append.mp hmem with h1 | h1
    · simp only [List.mem_cons, List.mem_singleton, List.not_mem_nil, or_false,
        DownloadEvent.fetchManifest.injEq, reduceCtorEq, false_or] at h1
      subst h1
      unfold fetchM3U8Chunk at hf
      rw [hr] at hf
      simp [h404] at hf
    · obtain ⟨h2, h3⟩ := ih req r h1 hr h404
      refine ⟨h2, ?_⟩
      rw [List.getLast?_append_of_ne_nil _ (List.ne_nil_of_mem h1)]
      exact h3

/-- When every manifest is fetched with success and holds no segment line, the
loop ends with the list of segment URLs it started with. -/
theorem collectChunks_empty (net : ManifestRequest → Option ManifestResponse)
    (hnet : ∀ req, ∃ r, net req = some r ∧ (200 ≤ r.status ∧ r.status ≤ 299) ∧
      parseM3U8 r.text = [])
    (stationId endTime authToken areaId : JSString) (totalSecs : Int)
    (chunkStart : JSString) (elapsed : Int) (acc : List JSString) :
    (collectChunks net stationId endTime authToken areaId totalSecs chunkStart elapsed
      acc).1 = .ok acc := by
  apply collectChunks_induction net stationId endTime authToken areaId totalSecs
    (fun _ _ acc out => out.1 = .ok acc)
  · intro _ _ _ _
    rfl
  · intro chunkStart elapsed acc e _ hf
    obtain ⟨r, hr, hok, _⟩ := hnet ⟨stationId, chunkStart,
      (if elapsed + FIXED_SEEK_SEC ≥ totalSecs then endTime
        else addSeconds chunkStart FIXED_SEEK_SEC), authToken, areaId⟩
    unfold fetchM3U8Chunk at hf
    rw [hr] at hf
    simp only at hf
    rw [if_neg (by omega), if_neg (by simp [hok])] at hf
    cases hf
  · intro chunkStart elapsed acc urls rest _ hf ih
    obtain ⟨r, hr, hok, hempty⟩ := hnet ⟨stationId, chunkStart,
      (if elapsed + FIXED_SEEK_SEC ≥ totalSecs then endTime
        else addSeconds chunkStart FIXED_SEEK_SEC), authToken, areaId⟩
    unfold fetchM3U8Chunk at hf
    rw [hr] at hf
    simp only at hf
    rw [if_neg (by omega), if_neg (by simp [hok])] at hf
    simp only [Except.ok.injEq] at hf
    rw [← hf, hempty, List.append_nil] at ih
    exact ih

theorem planDownload_events (net : ManifestRequest → Option ManifestResponse)
    (stationId startTime endTime authToken areaId : JSString) :
    ∀ e ∈ (planDownload net stationId startTime endTime authToken areaId).2,
      isPlanEvent e := by
  unfold planDownload
  split
  · simp
  · split
    · simp
    · exact collectChunks_events _ _ _ _ _ _ _ _ _

theorem planDownload_notFound (net : ManifestRequest → Option ManifestResponse)
    (stationId startTime endTime authToken areaId : JSString) (req : ManifestRequest)
    (r : ManifestResponse)
    (hmem : DownloadEvent.fetchManifest req
      ∈ (planDownload net stationId startTime endTime authToken areaId).2)
    (hr : net req = some r) (h404 : r.status = 404) :
    (planDownload net stationId startTime endTime authToken areaId).1
        = .error (.playlist404 stationId req.ft req.to_) ∧
      (planDownload net stationId startTime endTime authToken areaId).2.getLast?
        = some (.fetchManifest req) := by
  unfold planDownload at hmem ⊢
  cases hd : diffSeconds startTime endTime with
  | none =>
    rw [hd] at hmem
    simp at hmem
  | some totalSecs =>
    rw [hd] at hmem
    by_cases hpos : totalSecs ≤ 0
    · simp [hpos] at hmem
    · simp only [hpos, if_false] at hmem ⊢
      exact collectChunks_notFound _ _ _ _ _ _ _ _ _ req r hmem hr h404

theorem planDownload_empty (net : ManifestRequest → Option ManifestResponse)
    (hnet : ∀ req, ∃ r, net req = some r ∧ (200 ≤ r.status ∧ r.status ≤ 299) ∧
      parseM3U8 r.text = [])
    (stationId startTime endTime authToken areaId : JSString) :
    (planDownload net stationId startTime endTime authToken areaId).1 = .ok [] ∨
      (planDownload net stationId startTime endTime authToken areaId
          = (.error .endNotAfterStart, []) ∧
        ∃ n, diffSeconds startTime endTime = some n ∧ n ≤ 0) := by
  unfold planDownload
  cases hd : diffSeconds startTime endTime with
  | none =>
    left
    rfl
  | some totalSecs =>
    by_cases hle : totalSecs ≤ 0
    · right
      refine ⟨?_, totalSecs, rfl, hle⟩
      show (if totalSecs ≤ 0 then _ else _) = _
      rw [if_pos hle]
    · left
      show Prod.fst (if totalSecs ≤ 0 then _ else _) = _
      rw [if_neg hle]
      exact collectChunks_empty net hnet _ _ _ _ _ _ _ _

/-- The four ways in which `downloadTimefree` ends. -/
theorem downloadTimefree_cases (maxWorkers : Nat)
    (net : ManifestRequest → Option ManifestResponse)
    (segNet : Nat → JSString → Option SegmentResponse) (sched : Nat → Nat)
    (stationId startTime endTime authToken areaId : JSString) :
    (∃ e, (planDownload net stationId startTime endTime authToken areaId).1 = .error e ∧
      downloadTimefree maxWorkers net segNet sched stationId startTime endTime authToken
          areaId
        = (.error e, (planDownload net stationId startTime endTime authToken areaId).2)) ∨
    ((planDownload net stationId startTime endTime authToken areaId).1 = .ok [] ∧
      downloadTimefree maxWorkers net segNet sched stationId startTime endTime authToken
          areaId
        = (.error .noSegments,
            (planDownload net stationId startTime endTime authToken areaId).2)) ∨
    (∃ urls e, (planDownload net stationId startTime endTime authToken areaId).1
        = .ok urls ∧ urls ≠ [] ∧
      (fetchSegments maxWorkers urls authToken areaId segNet sched).failure = some e ∧
      downloadTimefree maxWorkers net segNet sched stationId startTime endTime authToken
          areaId
        = (.error e,
            (planDownload net stationId startTime endTime authToken areaId).2 ++
              (fetchSegments maxWorkers urls authToken areaId segNet sched).trace)) ∨
    (∃ urls, (planDownload net stationId startTime endTime authToken areaId).1
        = .ok urls ∧ urls ≠ [] ∧
      (fetchSegments maxWorkers urls authToken areaId segNet sched).failure = none ∧
      downloadTimefree maxWorkers net segNet sched stationId startTime endTime authToken
          areaId
        = (.ok (),
            (planDownload net stationId startTime endTime authToken areaId).2 ++
              (fetchSegments maxWorkers urls authToken areaId segNet sched).trace ++
              [.download (buildFilename stationId startTime)
                (blobBytes
                  (fetchSegments maxWorkers urls authToken areaId segNet sched).results)])) := by
  unfold downloadTimefree
  cases hp : planDownload net stationId startTime endTime authToken areaId with
  | mk res steps =>
    cases res with
    | error e => exact Or.inl ⟨e, rfl, rfl⟩
    | ok urls =>
      cases urls with
      | nil => exact Or.inr (Or.inl ⟨rfl, rfl⟩)
      | cons u us =>
        simp only [List.length_cons, Nat.add_one_ne_zero, if_false]
        cases hf : (fetchSegments maxWorkers (u :: us) authToken areaId segNet sched).failure with
        | some e =>
          exact Or.inr (Or.inr (Or.inl ⟨u :: us, e, rfl, List.cons_ne_nil _ _, hf, rfl⟩))
        | none =>
          exact Or.inr (Or.inr (Or.inr ⟨u :: us, rfl, List.cons_ne_nil _ _, hf, rfl⟩))

theorem planEvent_not_segment (e : DownloadEvent) (h : isPlanEvent e) :
    ¬ isSegmentOrArtifact e := by
  cases e <;> simp [isPlanEvent, isSegmentOrArtifact] at h ⊢

/-- C13: when the manifest fetch of some chunk is answered with status 404,
`downloadTimefree` fails with the `playlist 404` error of that chunk: the
request is the last step performed, so no manifest of a later chunk is
requested, no segment is fetched and no artifact is handed to the file sink. -/
theorem downloadTimefree_playlist_404 (maxWorkers : Nat)
    (net : ManifestRequest → Option ManifestResponse)
    (segNet : Nat → JSString → Option SegmentResponse) (sched : Nat → Nat)
    (stationId startTime endTime authToken areaId : JSString) (req : ManifestRequest)
    (r : ManifestResponse)
    (hreq : DownloadEvent.fetchManifest req
      ∈ (downloadTimefree maxWorkers net segNet sched stationId startTime endTime
          authToken areaId).2)
    (hr : net req = some r) (h404 : r.status = 404) :
    (downloadTimefree maxWorkers net segNet sched stationId startTime endTime authToken
        areaId).1 = .error (.playlist404 stationId req.ft req.to_) ∧
      (downloadTimefree maxWorkers net segNet sched stationId startTime endTime authToken
        areaId).2.getLast? = some (.fetchManifest req) ∧
      ∀ e ∈ (downloadTimefree maxWorkers net segNet sched stationId startTime endTime
        authToken areaId).2, ¬ isSegmentOrArtifact e := by
  have hplan : DownloadEvent.fetchManifest req
      ∈ (planDownload net stationId startTime endTime authToken areaId).2 := by
    rcases downloadTimefree_cases maxWorkers net segNet sched stationId startTime endTime
      authToken areaId with ⟨e, _, hd⟩ | ⟨_, hd⟩ | ⟨urls, e, _, _, _, hd⟩ | ⟨urls, _, _, _, hd⟩
    · rw [hd] at hreq
      exact hreq
    · rw [hd] at hreq
      exact hreq
    · rw [hd] at hreq
      rcases List.mem_append.mp hreq with h1 | h1
      · exact h1
      · exact absurd (fetchSegments_events _ _ _ _ _ _ _ h1) (by simp [isPoolEvent])
    · rw [hd] at hreq
      rcases List.mem_append.mp hreq with h1 | h1
      · rcases List.mem_append.mp h1 with h2 | h2
        · exact h2
        · exact absurd (fetchSegments_events _ _ _ _ _ _ _ h2) (by simp [isPoolEvent])
      · simp at h1
  obtain ⟨hres, hlast⟩ := planDownload_notFound net stationId startTime endTime authToken
    areaId req r hplan hr h404
  rcases downloadTimefree_cases maxWorkers net segNet sched stationId startTime endTime
    authToken areaId with ⟨e, he, hd⟩ | ⟨he, _⟩ | ⟨urls, e, he, _⟩ | ⟨urls, he, _⟩
  · rw [hd]
    rw [hres] at he
    cases he
    exact ⟨rfl, hlast, fun e he => planEvent_not_segment e (planDownload_events _ _ _ _ _ _ e he)⟩
  · rw [hres] at he
    cases he
  · rw [hres] at he
    cases he
  · rw [hres] at he
    cases he

/-! ## Rejected jobs -/

/-- Every valid timestamp names a date: `toDate` is not `NaN`, in the years
`0..99` (read as `1900..1999` by `Date.UTC`) as in all others. -/
theorem toDate_isSome_of_valid (t : JSString) (hv : validTimestamp t = true) :
    ∃ c, toDate t = some c := by
  simp only [validTimestamp, Bool.and_eq_true, beq_iff_eq, decide_eq_true_eq] at hv
  obtain ⟨⟨⟨⟨⟨⟨_, hdig⟩, hm1, hm2⟩, _, _⟩, hh⟩, hmi⟩, hs⟩ := hv
  have hy4 : digitsValue (slice t 0 4) + 1 ≤ 10 ^ 4 :=
    Nat.le_trans (digitsValue_lt _ (slice_all t 0 4 _ hdig))
      (Nat.pow_le_pow_right (by decide) (by simp [slice]))
  have hd2 : digitsValue (slice t 6 8) + 1 ≤ 10 ^ 2 :=
    Nat.le_trans (digitsValue_lt _ (slice_all t 6 8 _ hdig))
      (Nat.pow_le_pow_right (by decide) (by simp [slice]))
  have htd : toDate t
      = timeClip (makeDate
          (makeDay
            (if 0 ≤ (digitsValue (slice t 0 4) : Int) ∧ (digitsValue (slice t 0 4) : Int) ≤ 99
              then 1900 + (digitsValue (slice t 0 4) : Int) else digitsValue (slice t 0 4))
            ((digitsValue (slice t 4 6) : Int) - 1) (digitsValue (slice t 6 8)))
          (makeTime (digitsValue (slice t 8 10)) (digitsValue (slice t 10 12))
            (digitsValue (slice t 12 14)) 0)) := by
    unfold toDate
    rw [toNumber_of_digits _ (slice_all t 0 4 _ hdig), toNumber_of_digits _ (slice_all t 4 6 _ hdig),
      toNumber_of_digits _ (slice_all t 6 8 _ hdig), toNumber_of_digits _ (slice_all t 8 10 _ hdig),
      toNumber_of_digits _ (slice_all t 10 12 _ hdig),
      toNumber_of_digits _ (slice_all t 12 14 _ hdig)]
    simp only [dateUTC, Option.map_some', Option.bind_eq_bind, Option.some_bind]
  generalize digitsValue (slice t 0 4) = Y at *
  generalize digitsValue (slice t 4 6) = M at *
  generalize digitsValue (slice t 6 8) = D at *
  generalize digitsValue (slice t 8 10) = H at *
  generalize digitsValue (slice t 10 12) = Mi at *
  generalize digitsValue (slice t 12 14) = S at *
  have hyr : (100 : Int) ≤ (if 0 ≤ (Y : Int) ∧ (Y : Int) ≤ 99 then 1900 + (Y : Int) else Y) ∧
      (if 0 ≤ (Y : Int) ∧ (Y : Int) ≤ 99 then 1900 + (Y : Int) else Y) ≤ 9999 := by
    split <;> omega
  generalize (if 0 ≤ (Y : Int) ∧ (Y : Int) ≤ 99 then 1900 + (Y : Int) else (Y : Int)) = yr at *
  obtain ⟨hms0, hms1⟩ := monthStart_add_days M 0 (isLeapYear yr) hm1 hm2 (Nat.zero_le _)
  have hb := dayFromYear_bounds yr
  have hdiv : ((M : Int) - 1) / 12 = 0 := by omega
  have hmod : ((M : Int) - 1) % 12 = (M : Int) - 1 := by omega
  have hms2 : monthStart ((M : Int) - 1) (isLeapYear yr) ≤ 366 := by
    have h1 : (if isLeapYear yr = true then (366 : Int) else 365) ≤ 366 := by split <;> omega
    omega
  refine ⟨makeDate (makeDay yr ((M : Int) - 1) D) (makeTime H Mi S 0), htd.trans ?_⟩
  rw [timeClip, if_pos]
  simp only [makeDate, makeDay, makeTime, msPerDay, hdiv, hmod, Int.add_zero]
  generalize monthStart ((M : Int) - 1) (isLeapYear yr) = ms at *
  generalize dayFromYear yr = dy at *
  omega

theorem diffSeconds_isSome_of_valid (startTime endTime : JSString)
    (hs : validTimestamp startTime = true) (he : validTimestamp endTime = true) :
    ∃ n, diffSeconds startTime endTime = some n := by
  obtain ⟨a, ha⟩ := toDate_isSome_of_valid startTime hs
  obtain ⟨b, hb⟩ := toDate_isSome_of_valid endTime he
  exact ⟨(b - a + 500) / 1000, by simp [diffSeconds, ha, hb]⟩

theorem planDownload_not_after (net : ManifestRequest → Option ManifestResponse)
    (stationId startTime endTime authToken areaId : JSString) (n : Int)
    (hd : diffSeconds startTime endTime = some n) (hle : n ≤ 0) :
    planDownload net stationId startTime endTime authToken areaId
      = (.error .endNotAfterStart, []) := by
  unfold planDownload
  rw [hd]
  show (if n ≤ 0 then _ else _) = _
  rw [if_pos hle]

theorem downloadTimefree_not_after (maxWorkers : Nat)
    (net : ManifestRequest → Option ManifestResponse)
    (segNet : Nat → JSString → Option SegmentResponse) (sched : Nat → Nat)
    (stationId startTime endTime authToken areaId : JSString) (n : Int)
    (hd : diffSeconds startTime endTime = some n) (hle : n ≤ 0) :
    downloadTimefree maxWorkers net segNet sched stationId startTime endTime authToken areaId
      = (.error .endNotAfterStart, []) := by
  unfold downloadTimefree
  rw [planDownload_not_after net stationId startTime endTime authToken areaId n hd hle]

theorem planDownload_notFound_example :
    planDownload notFoundManifestServer "TBS".toList "20240101120000".toList
        "20240101121000".toList "token".toList "JP13".toList
      = (.error (.playlist404 "TBS".toList "20240101120000".toList "20240101120500".toList),
          [.progress "playlist".toList 0 600,
            .fetchManifest
              { stationId := "TBS".toList, ft := "20240101120000".toList,
                to_ := "20240101120500".toList, authToken := "token".toList,
                areaId := "JP13".toList }]) := by
  have hdiff : diffSeconds "20240101120000".toList "20240101121000".toList = some 600 := by
    decide
  unfold planDownload
  rw [hdiff]
  simp only [show ¬ ((600 : Int) ≤ 0) by decide, if_false]
  rw [collectChunks, if_pos (by decide)]
  rfl

/-- Witness for C13: the job of the spec example against a server that answers
404; the first manifest request is the only step after the progress report. -/
theorem downloadTimefree_playlist_404_witness :
    (downloadTimefree 3 notFoundManifestServer exampleSegmentServer (fun n => n)
        "TBS".toList "20240101120000".toList "20240101121000".toList "token".toList
        "JP13".toList).1
      = .error (.playlist404 "TBS".toList "20240101120000".toList "20240101120500".toList) ∧
    (downloadTimefree 3 notFoundManifestServer exampleSegmentServer (fun n => n)
        "TBS".toList "20240101120000".toList "20240101121000".toList "token".toList
        "JP13".toList).2.getLast?
      = some (.fetchManifest
          { stationId := "TBS".toList, ft := "20240101120000".toList,
            to_ := "20240101120500".toList, authToken := "token".toList,
            areaId := "JP13".toList }) :=
  have h := downloadTimefree_playlist_404 3 notFoundManifestServer exampleSegmentServer
    (fun n => n) "TBS".toList "20240101120000".toList "20240101121000".toList "token".toList
    "JP13".toList
    { stationId := "TBS".toList, ft := "20240101120000".toList,
      to_ := "20240101120500".toList, authToken := "token".toList, areaId := "JP13".toList }
    { status := 404, text := [] }
    (by
      unfold downloadTimefree
      rw [planDownload_notFound_example]
      simp)
    rfl rfl
  ⟨h.1, h.2.1⟩

/-! ## Jobs without segments -/

/-- C14: when every manifest fetch succeeds and yields no segment line,
`downloadTimefree` fails (with the error `noSegments` whenever the duration is
positive) without fetching a segment or producing an artifact, and the message
of its error differs from the message of every manifest fetch failure: status
404, another non-success status, or a rejected `fetch`. -/
theorem downloadTimefree_no_segments (maxWorkers : Nat)
    (net : ManifestRequest → Option ManifestResponse)
    (segNet : Nat → JSString → Option SegmentResponse) (sched : Nat → Nat)
    (stationId startTime endTime authToken areaId : JSString)
    (hnet : ∀ req, ∃ r, net req = some r ∧ (200 ≤ r.status ∧ r.status ≤ 299) ∧
      parseM3U8 r.text = []) :
    (∃ e, (downloadTimefree maxWorkers net segNet sched stationId startTime endTime
          authToken areaId).1 = .error e ∧
        (e = .noSegments ∨ e = .endNotAfterStart) ∧
        (∀ s ft to_, errorMessage e ≠ errorMessage (.playlist404 s ft to_)) ∧
        (∀ status, errorMessage e ≠ errorMessage (.playlistFailed status)) ∧
        errorMessage e ≠ errorMessage .fetchRejected) ∧
      (∀ n, diffSeconds startTime endTime = some n → 0 < n →
        (downloadTimefree maxWorkers net segNet sched stationId startTime endTime
          authToken areaId).1 = .error .noSegments) ∧
      ∀ ev ∈ (downloadTimefree maxWorkers net segNet sched stationId startTime endTime
          authToken areaId).2, ¬ isSegmentOrArtifact ev := by
  have hmsg1 : (∀ s ft to_,
        errorMessage .noSegments ≠ errorMessage (.playlist404 s ft to_)) ∧
      (∀ status, errorMessage .noSegments ≠ errorMessage (.playlistFailed status)) ∧
      errorMessage .noSegments ≠ errorMessage .fetchRejected := by
    refine ⟨?_, ?_, ?_⟩
    · intro s ft to_ h
      have h2 := congrArg (fun o => o.bind List.head?) h
      simp [errorMessage] at h2
    · intro status h
      have h2 := congrArg (fun o => o.bind List.head?) h
      simp [errorMessage] at h2
    · simp [errorMessage]
  have hmsg2 : (∀ s ft to_,
        errorMessage .endNotAfterStart ≠ errorMessage (.playlist404 s ft to_)) ∧
      (∀ status, errorMessage .endNotAfterStart ≠ errorMessage (.playlistFailed status)) ∧
      errorMessage .endNotAfterStart ≠ errorMessage .fetchRejected := by
    refine ⟨?_, ?_, ?_⟩
    · intro s ft to_ h
      have h2 := congrArg (fun o => o.bind List.head?) h
      simp [errorMessage] at h2
    · intro status h
      have h2 := congrArg (fun o => o.bind List.head?) h
      simp [errorMessage] at h2
    · simp [errorMessage]
  have hev : ∀ ev ∈ (planDownload net stationId startTime endTime authToken areaId).2,
      ¬ isSegmentOrArtifact ev :=
    fun ev h => planEvent_not_segment ev (planDownload_events _ _ _ _ _ _ ev h)
  rcases planDownload_empty net hnet stationId startTime endTime authToken areaId with
    hok | ⟨herr, n, hn, hle⟩
  · have hd : downloadTimefree maxWorkers net segNet sched stationId startTime endTime
          authToken areaId
        = (.error .noSegments,
            (planDownload net stationId startTime endTime authToken areaId).2) := by
      rcases downloadTimefree_cases maxWorkers net segNet sched stationId startTime endTime
        authToken areaId with ⟨e, he, _⟩ | ⟨_, hd⟩ | ⟨urls, e, he, hne, _⟩ | ⟨urls, he, hne, _⟩
      · rw [hok] at he
        cases he
      · exact hd
      · rw [hok] at he
        cases he
        exact absurd rfl hne
      · rw [hok] at he
        cases he
        exact absurd rfl hne
    rw [hd]
    exact ⟨⟨_, rfl, Or.inl rfl, hmsg1⟩, fun _ _ _ => rfl, hev⟩
  · have hd : downloadTimefree maxWorkers net segNet sched stationId startTime endTime
          authToken areaId = (.error .endNotAfterStart, []) :=
      downloadTimefree_not_after maxWorkers net segNet sched stationId startTime endTime
        authToken areaId n hn hle
    rw [hd]
    refine ⟨⟨_, rfl, Or.inr rfl, hmsg2⟩, ?_, ?_⟩
    · intro m hm hpos
      rw [hn] at hm
      cases hm
      omega
    · intro ev h
      simp at h

theorem emptyManifestServer_empty :
    ∀ req, ∃ r, emptyManifestServer req = some r ∧ (200 ≤ r.status ∧ r.status ≤ 299) ∧
      parseM3U8 r.text = [] :=
  fun _ => ⟨{ status := 200, text := "#EXTM3U\n".toList }, rfl, by decide, by decide⟩

/-- Witness for C14: the job of the spec example against a server whose
playlists hold no segment line. -/
theorem downloadTimefree_no_segments_witness :
    (downloadTimefree 3 emptyManifestServer exampleSegmentServer (fun n => n)
        "TBS".toList "20240101120000".toList "20240101121000".toList "token".toList
        "JP13".toList).1 = .error .noSegments :=
  (downloadTimefree_no_segments 3 emptyManifestServer exampleSegmentServer (fun n => n)
    "TBS".toList "20240101120000".toList "20240101121000".toList "token".toList
    "JP13".toList emptyManifestServer_empty).2.1 600 (by decide) (by decide)

/-! ## The file name -/

theorem slice_zero (s : JSString) (n : Nat) : slice s 0 n = s.take n := by
  simp [slice]

theorem slice_to_end (s : JSString) (a b : Nat) (h : s.length = b) : slice s a b = s.drop a := by
  unfold slice
  apply List.take_of_length_le
  simp [h]

/-- C17: for every station id and every start time of 14 characters, the name
under which the artifact is handed to the file sink is `RADIKO_`, the station
id, `_`, the first 8 characters of the start time, `_`, its characters 8 to 13
and `.aac`; every artifact `downloadTimefree` hands over carries that name. -/
theorem download_filename (maxWorkers : Nat)
    (net : ManifestRequest → Option ManifestResponse)
    (segNet : Nat → JSString → Option SegmentResponse) (sched : Nat → Nat)
    (stationId startTime endTime authToken areaId : JSString)
    (hlen : startTime.length = 14) :
    buildFilename stationId startTime
        = "RADIKO_".toList ++ stationId ++ "_".toList ++ startTime.take 8 ++ "_".toList ++
            startTime.drop 8 ++ ".aac".toList ∧
      (startTime.take 8).length = 8 ∧ (startTime.drop 8).length = 6 ∧
      ∀ filename bytes,
        DownloadEvent.download filename bytes
            ∈ (downloadTimefree maxWorkers net segNet sched stationId startTime endTime
                authToken areaId).2 →
          filename = "RADIKO_".toList ++ stationId ++ "_".toList ++ startTime.take 8 ++
            "_".toList ++ startTime.drop 8 ++ ".aac".toList := by
  have hname : buildFilename stationId startTime
      = "RADIKO_".toList ++ stationId ++ "_".toList ++ startTime.take 8 ++ "_".toList ++
          startTime.drop 8 ++ ".aac".toList := by
    unfold buildFilename
    rw [slice_zero, slice_to_end startTime 8 14 hlen]
  refine ⟨hname, by simp [hlen], by simp [hlen], ?_⟩
  intro filename bytes hmem
  have hplan : ∀ ev ∈ (planDownload net stationId startTime endTime authToken areaId).2,
      ev ≠ DownloadEvent.download filename bytes := by
    intro ev hev heq
    have := planDownload_events _ _ _ _ _ _ ev hev
    rw [heq] at this
    exact this
  have hpool : ∀ urls, ∀ ev ∈ (fetchSegments maxWorkers urls authToken areaId segNet
      sched).trace, ev ≠ DownloadEvent.download filename bytes := by
    intro urls ev hev heq
    have := fetchSegments_events _ _ _ _ _ _ ev hev
    rw [heq] at this
    exact this
  rcases downloadTimefree_cases maxWorkers net segNet sched stationId startTime endTime
    authToken areaId with ⟨e, _, hd⟩ | ⟨_, hd⟩ | ⟨urls, e, _, _, _, hd⟩ | ⟨urls, _, _, _, hd⟩
  · rw [hd] at hmem
    exact absurd rfl (hplan _ hmem)
  · rw [hd] at hmem
    exact absurd rfl (hplan _ hmem)
  · rw [hd] at hmem
    rcases List.mem_append.mp hmem with h1 | h1
    · exact absurd rfl (hplan _ h1)
    · exact absurd rfl (hpool urls _ h1)
  · rw [hd] at hmem
    rcases List.mem_append.mp hmem with h1 | h1
    · rcases List.mem_append.mp h1 with h2 | h2
      · exact absurd rfl (hplan _ h2)
      · exact absurd rfl (hpool urls _ h2)
    · simp only [List.mem_singleton, DownloadEvent.download.injEq] at h1
      rw [h1.1]
      exact hname

/-- Witness for C17: station `TBS` with start `20240101120000`. -/
theorem download_filename_witness :
    buildFilename "TBS".toList "20240101120000".toList
      = "RADIKO_TBS_20240101_120000.aac".toList :=
  (download_filename 3 exampleManifestServer exampleSegmentServer (fun n => n) "TBS".toList
    "20240101120000".toList "20240101121000".toList "token".toList "JP13".toList
    (by decide)).1.trans (by decide)

/-! ## The segment fetcher: invariant -/

theorem orElse_ne_none (failure : Option DownloadError) (e : DownloadError) :
    (failure.orElse fun _ => some e) ≠ none := by
  cases failure <;> simp

theorem poolInv_initial (segmentUrls : List JSString) (authToken areaId : JSString)
    (segNet : Nat → JSString → Option SegmentResponse) :
    PoolInv segmentUrls authToken areaId segNet (fun _ => none) 0
      (List.replicate segmentUrls.length none) none [] where
  results_length := by simp
  index_le := Nat.zero_le _
  fetch_lt := by intro _ _ h; cases h
  body_ok := by intro _ _ _ h; cases h
  finished_done := by intro _ h; cases h
  thrown_failed := by intro _ h; cases h
  failure_cause := by intro _ h; cases h
  status := by intro _ h; omega
  fetches := by simp

/-- A fetch that succeeds: the worker goes on to read the body. -/
theorem poolInv_fetch_ok {segmentUrls : List JSString} {authToken areaId : JSString}
    {segNet : Nat → JSString → Option SegmentResponse} {W : Nat → Option WorkerState}
    {index : Nat} {results : List (Option (List Nat))} {failure : Option DownloadError}
    {trace : List DownloadEvent}
    (h : PoolInv segmentUrls authToken areaId segNet W index results failure trace)
    (W' : Nat → Option WorkerState) (w i : Nat) (r : SegmentResponse)
    (hw : W w = some (.awaitingFetch i)) (hr : segmentOk segmentUrls segNet i r)
    (hw' : W' w = some (.awaitingBody i r.body)) (hother : ∀ u, u ≠ w → W' u = W u) :
    PoolInv segmentUrls authToken areaId segNet W' index results failure trace where
  results_length := h.results_length
  index_le := h.index_le
  fetch_lt := by
    intro u j hu
    by_cases huw : u = w
    · subst huw
      rw [hw'] at hu
      cases hu
    · rw [hother u huw] at hu
      exact h.fetch_lt u j hu
  body_ok := by
    intro u j b hu
    by_cases huw : u = w
    · subst huw
      rw [hw'] at hu
      cases hu
      exact ⟨h.fetch_lt u i hw, r, hr, rfl⟩
    · rw [hother u huw] at hu
      exact h.body_ok u j b hu
  finished_done := by
    intro u hu
    by_cases huw : u = w
    · subst huw
      rw [hw'] at hu
      cases hu
    · rw [hother u huw] at hu
      exact h.finished_done u hu
  thrown_failed := by
    intro u hu
    by_cases huw : u = w
    · subst huw
      rw [hw'] at hu
      cases hu
    · rw [hother u huw] at hu
      exact h.thrown_failed u hu
  failure_cause := h.failure_cause
  status := by
    intro j hj
    rcases h.status j hj with ⟨u, hu⟩ | ⟨u, b, hu⟩ | h3 | h4
    · by_cases huw : u = w
      · subst huw
        rw [hw] at hu
        cases hu
        exact Or.inr (Or.inl ⟨u, r.body, hw'⟩)
      · exact Or.inl ⟨u, by rw [hother u huw]; exact hu⟩
    · by_cases huw : u = w
      · subst huw
        rw [hw] at hu
        cases hu
      · exact Or.inr (Or.inl ⟨u, b, by rw [hother u huw]; exact hu⟩)
    · exact Or.inr (Or.inr (Or.inl h3))
    · exact Or.inr (Or.inr (Or.inr h4))
  fetches := h.fetches

/-- A fetch that fails: the worker throws, and the first exception thrown is
kept. -/
theorem poolInv_fetch_bad {segmentUrls : List JSString} {authToken areaId : JSString}
    {segNet : Nat → JSString → Option SegmentResponse} {W : Nat → Option WorkerState}
    {index : Nat} {results : List (Option (List Nat))} {failure : Option DownloadError}
    {trace : List DownloadEvent}
    (h : PoolInv segmentUrls authToken areaId segNet W index results failure trace)
    (W' : Nat → Option WorkerState) (w i : Nat) (e : DownloadError)
    (hw : W w = some (.awaitingFetch i)) (hbad : segmentBad segmentUrls segNet i e)
    (hw' : W' w = some .thrown) (hother : ∀ u, u ≠ w → W' u = W u) :
    PoolInv segmentUrls authToken areaId segNet W' index results
      (failure.orElse fun _ => some e) trace where
  results_length := h.results_length
  index_le := h.index_le
  fetch_lt := by
    intro u j hu
    by_cases huw : u = w
    · subst huw
      rw [hw'] at hu
      cases hu
    · rw [hother u huw] at hu
      exact h.fetch_lt u j hu
  body_ok := by
    intro u j b hu
    by_cases huw : u = w
    · subst huw
      rw [hw'] at hu
      cases hu
    · rw [hother u huw] at hu
      exact h.body_ok u j b hu
  finished_done := by
    intro u hu
    by_cases huw : u = w
    · subst huw
      rw [hw'] at hu
      cases hu
    · rw [hother u huw] at hu
      exact h.finished_done u hu
  thrown_failed := fun _ _ => orElse_ne_none failure e
  failure_cause := by
    intro e' he'
    cases hf : failure with
    | none =>
      rw [hf] at he'
      simp at he'
      subst he'
      exact ⟨i, h.fetch_lt w i hw, hbad⟩
    | some f =>
      rw [hf] at he'
      simp at he'
      subst he'
      exact h.failure_cause f hf
  status := by
    intro j hj
    rcases h.status j hj with ⟨u, hu⟩ | ⟨u, b, hu⟩ | h3 | h4
    · by_cases huw : u = w
      · subst huw
        rw [hw] at hu
        cases hu
        exact Or.inr (Or.inr (Or.inr ⟨⟨e, hbad⟩, orElse_ne_none failure e⟩))
      · exact Or.inl ⟨u, by rw [hother u huw]; exact hu⟩
    · by_cases huw : u = w
      · subst huw
        rw [hw] at hu
        cases hu
      · exact Or.inr (Or.inl ⟨u, b, by rw [hother u huw]; exact hu⟩)
    · exact Or.inr (Or.inr (Or.inl h3))
    · exact Or.inr (Or.inr (Or.inr ⟨h4.1, orElse_ne_none failure e⟩))
  fetches := h.fetches

/-- A body that arrives: the stripped bytes go to the slot of the index and the
progress is reported; the worker runs on. -/
theorem poolInv_store {segmentUrls : List JSString} {authToken areaId : JSString}
    {segNet : Nat → JSString → Option SegmentResponse} {W : Nat → Option WorkerState}
    {index : Nat} {results : List (Option (List Nat))} {failure : Option DownloadError}
    {trace : List DownloadEvent}
    (h : PoolInv segmentUrls authToken areaId segNet W index results failure trace)
    (W' : Nat → Option WorkerState) (w i : Nat) (b : List Nat) (phase : JSString)
    (done total : Int)
    (hw : W w = some (.awaitingBody i b))
    (hw' : W' w = none) (hother : ∀ u, u ≠ w → W' u = W u) :
    PoolInv segmentUrls authToken areaId segNet W' index (results.set i (some (parseAAC b)))
      failure (trace ++ [.progress phase done total]) where
  results_length := by
    rw [List.length_set]
    exact h.results_length
  index_le := h.index_le
  fetch_lt := by
    intro u j hu
    by_cases huw : u = w
    · subst huw
      rw [hw'] at hu
      cases hu
    · rw [hother u huw] at hu
      exact h.fetch_lt u j hu
  body_ok := by
    intro u j b' hu
    by_cases huw : u = w
    · subst huw
      rw [hw'] at hu
      cases hu
    · rw [hother u huw] at hu
      exact h.body_ok u j b' hu
  finished_done := by
    intro u hu
    by_cases huw : u = w
    · subst huw
      rw [hw'] at hu
      cases hu
    · rw [hother u huw] at hu
      exact h.finished_done u hu
  thrown_failed := by
    intro u hu
    by_cases huw : u = w
    · subst huw
      rw [hw'] at hu
      cases hu
    · rw [hother u huw] at hu
      exact h.thrown_failed u hu
  failure_cause := h.failure_cause
  status := by
    intro j hj
    by_cases hji : j = i
    · subst hji
      obtain ⟨_, r, hr, hb⟩ := h.body_ok w j b hw
      refine Or.inr (Or.inr (Or.inl ⟨r, hr, ?_⟩))
      rw [hb, List.getElem?_set, if_pos rfl, if_pos]
      rw [h.results_length]
      exact Nat.lt_of_lt_of_le hj h.index_le
    · rcases h.status j hj with ⟨u, hu⟩ | ⟨u, b', hu⟩ | ⟨r, hr, hres⟩ | h4
      · by_cases huw : u = w
        · subst huw
          rw [hw] at hu
          cases hu
        · exact Or.inl ⟨u, by rw [hother u huw]; exact hu⟩
      · by_cases huw : u = w
        · subst huw
          rw [hw] at hu
          cases hu
          exact absurd rfl hji
        · exact Or.inr (Or.inl ⟨u, b', by rw [hother u huw]; exact hu⟩)
      · refine Or.inr (Or.inr (Or.inl ⟨r, hr, ?_⟩))
        rw [List.getElem?_set_ne (fun hij => hji hij.symm)]
        exact hres
      · exact Or.inr (Or.inr (Or.inr h4))
  fetches := by
    rw [List.filterMap_append, h.fetches]
    simp [segmentOf]

/-- The loop head when an index is left: the worker takes it and requests its
segment. -/
theorem poolInv_claim {segmentUrls : List JSString} {authToken areaId : JSString}
    {segNet : Nat → JSString → Option SegmentResponse} {W : Nat → Option WorkerState}
    {index : Nat} {results : List (Option (List Nat))} {failure : Option DownloadError}
    {trace : List DownloadEvent}
    (h : PoolInv segmentUrls authToken areaId segNet W index results failure trace)
    (W' : Nat → Option WorkerState) (w : Nat)
    (hw : W w = none) (hlt : index < segmentUrls.length)
    (hw' : W' w = some (.awaitingFetch index)) (hother : ∀ u, u ≠ w → W' u = W u) :
    PoolInv segmentUrls authToken areaId segNet W' (index + 1) results failure
      (trace ++ [.fetchSegment index (segmentUrls.getD index []) authToken areaId]) where
  results_length := h.results_length
  index_le := hlt
  fetch_lt := by
    intro u j hu
    by_cases huw : u = w
    · subst huw
      rw [hw'] at hu
      cases hu
      exact Nat.lt_succ_self _
    · rw [hother u huw] at hu
      exact Nat.lt_succ_of_lt (h.fetch_lt u j hu)
  body_ok := by
    intro u j b hu
    by_cases huw : u = w
    · subst huw
      rw [hw'] at hu
      cases hu
    · rw [hother u huw] at hu
      obtain ⟨h1, h2⟩ := h.body_ok u j b hu
      exact ⟨Nat.lt_succ_of_lt h1, h2⟩
  finished_done := by
    intro u hu
    by_cases huw : u = w
    · subst huw
      rw [hw'] at hu
      cases hu
    · rw [hother u huw] at hu
      exact Nat.le_succ_of_le (h.finished_done u hu)
  thrown_failed := by
    intro u hu
    by_cases huw : u = w
    · subst huw
      rw [hw'] at hu
      cases hu
    · rw [hother u huw] at hu
      exact h.thrown_failed u hu
  failure_cause := by
    intro e he
    obtain ⟨j, hj, hbad⟩ := h.failure_cause e he
    exact ⟨j, Nat.lt_succ_of_lt hj, hbad⟩
  status := by
    intro j hj
    by_cases hji : j = index
    · subst hji
      exact Or.inl ⟨w, hw'⟩
    · have hne : ∀ u x, W u = some x → u ≠ w := by
        intro u x hu huw
        subst huw
        rw [hw] at hu
        cases hu
      rcases h.status j (by omega) with ⟨u, hu⟩ | ⟨u, b, hu⟩ | h3 | h4
      · exact Or.inl ⟨u, by rw [hother u (hne u _ hu)]; exact hu⟩
      · exact Or.inr (Or.inl ⟨u, b, by rw [hother u (hne u _ hu)]; exact hu⟩)
      · exact Or.inr (Or.inr (Or.inl h3))
      · exact Or.inr (Or.inr (Or.inr h4))
  fetches := by
    rw [List.filterMap_append, h.fetches, List.range_succ, List.map_append]
    simp [segmentOf]

/-- The loop head when no index is left: the worker returns. -/
theorem poolInv_return {segmentUrls : List JSString} {authToken areaId : JSString}
    {segNet : Nat → JSString → Option SegmentResponse} {W : Nat → Option WorkerState}
    {index : Nat} {results : List (Option (List Nat))} {failure : Option DownloadError}
    {trace : List DownloadEvent}
    (h : PoolInv segmentUrls authToken areaId segNet W index results failure trace)
    (W' : Nat → Option WorkerState) (w : Nat)
    (hw : W w = none) (hge : ¬ index < segmentUrls.length)
    (hw' : W' w = some .finished) (hother : ∀ u, u ≠ w → W' u = W u) :
    PoolInv segmentUrls authToken areaId segNet W' index results failure trace where
  results_length := h.results_length
  index_le := h.index_le
  fetch_lt := by
    intro u j hu
    by_cases huw : u = w
    · subst huw
      rw [hw'] at hu
      cases hu
    · rw [hother u huw] at hu
      exact h.fetch_lt u j hu
  body_ok := by
    intro u j b hu
    by_cases huw : u = w
    · subst huw
      rw [hw'] at hu
      cases hu
    · rw [hother u huw] at hu
      exact h.body_ok u j b hu
  finished_done := fun _ _ => Nat.le_of_not_lt hge
  thrown_failed := by
    intro u hu
    by_cases huw : u = w
    · subst huw
      rw [hw'] at hu
      cases hu
    · rw [hother u huw] at hu
      exact h.thrown_failed u hu
  failure_cause := h.failure_cause
  status := by
    intro j hj
    have hne : ∀ u x, W u = some x → u ≠ w := by
      intro u x hu huw
      subst huw
      rw [hw] at hu
      cases hu
    rcases h.status j hj with ⟨u, hu⟩ | ⟨u, b, hu⟩ | h3 | h4
    · exact Or.inl ⟨u, by rw [hother u (hne u _ hu)]; exact hu⟩
    · exact Or.inr (Or.inl ⟨u, b, by rw [hother u (hne u _ hu)]; exact hu⟩)
    · exact Or.inr (Or.inr (Or.inl h3))
    · exact Or.inr (Or.inr (Or.inr h4))
  fetches := h.fetches

theorem lt_length_of_getElem? {α : Type} (l : List α) (w : Nat) (x : α)
    (h : l[w]? = some x) : w < l.length := by
  obtain ⟨hlt, _⟩ := List.getElem?_eq_some.mp h
  exact hlt

theorem set_getElem?_self {α : Type} (l : List α) (w : Nat) (x y : α)
    (h : l[w]? = some x) : (l.set w y)[w]? = some y := by
  rw [List.getElem?_set, if_pos rfl, if_pos (lt_length_of_getElem? l w x h)]

theorem concat_getElem?_other {α : Type} (l : List α) (x : α) (u : Nat)
    (h : u ≠ l.length) : (l ++ [x])[u]? = l[u]? := by
  by_cases hlt : u < l.length
  · exact List.getElem?_append_left hlt
  · rw [List.getElem?_eq_none (by simp; omega), List.getElem?_eq_none (by omega)]

theorem loopHead_workers (segmentUrls : List JSString) (authToken areaId : JSString)
    (s : PoolState) : (loopHead segmentUrls authToken areaId s).1.workers = s.workers := by
  unfold loopHead
  split <;> rfl

theorem poolInv_loopHead {segmentUrls : List JSString} {authToken areaId : JSString}
    {segNet : Nat → JSString → Option SegmentResponse} {W : Nat → Option WorkerState}
    (s : PoolState)
    (h : PoolInv segmentUrls authToken areaId segNet W s.index s.results s.failure s.trace)
    (W' : Nat → Option WorkerState) (w : Nat) (hw : W w = none)
    (hw' : W' w = some (loopHead segmentUrls authToken areaId s).2)
    (hother : ∀ u, u ≠ w → W' u = W u) :
    PoolInv segmentUrls authToken areaId segNet W'
      (loopHead segmentUrls authToken areaId s).1.index
      (loopHead segmentUrls authToken areaId s).1.results
      (loopHead segmentUrls authToken areaId s).1.failure
      (loopHead segmentUrls authToken areaId s).1.trace := by
  unfold loopHead at hw' ⊢
  by_cases hlt : s.index < segmentUrls.length
  · rw [if_pos hlt] at hw' ⊢
    exact poolInv_claim h W' w hw hlt hw' hother
  · rw [if_neg hlt] at hw' ⊢
    exact poolInv_return h W' w hw hlt hw' hother

theorem poolOk_initial (segmentUrls : List JSString) (authToken areaId : JSString)
    (segNet : Nat → JSString → Option SegmentResponse) :
    PoolOk segmentUrls authToken areaId segNet (initialPool segmentUrls) :=
  poolInv_initial segmentUrls authToken areaId segNet

theorem poolOk_spawn (segmentUrls : List JSString) (authToken areaId : JSString)
    (segNet : Nat → JSString → Option SegmentResponse) (s : PoolState)
    (h : PoolOk segmentUrls authToken areaId segNet s) :
    PoolOk segmentUrls authToken areaId segNet (spawnWorker segmentUrls authToken areaId s) := by
  unfold PoolOk spawnWorker
  apply poolInv_loopHead s h _ s.workers.length
  · exact List.getElem?_eq_none (Nat.le_refl _)
  · show ((loopHead segmentUrls authToken areaId s).1.workers ++ _)[s.workers.length]? = _
    rw [loopHead_workers]
    exact List.getElem?_concat_length _ _
  · intro u hu
    show ((loopHead segmentUrls authToken areaId s).1.workers ++ _)[u]? = _
    rw [loopHead_workers]
    exact concat_getElem?_other _ _ u hu

theorem poolOk_resume (segmentUrls : List JSString) (authToken areaId : JSString)
    (segNet : Nat → JSString → Option SegmentResponse) (s : PoolState) (w : Nat)
    (h : PoolOk segmentUrls authToken areaId segNet s) :
    PoolOk segmentUrls authToken areaId segNet
      (resumeWorker segmentUrls authToken areaId segNet s w) := by
  unfold resumeWorker
  rw [List.getD_eq_getElem?_getD]
  cases hst : s.workers[w]? with
  | none => exact h
  | some x =>
    cases x with
    | finished => exact h
    | thrown => exact h
    | awaitingFetch i =>
      simp only [Option.getD_some]
      cases hr : segNet i (segmentUrls.getD i []) with
      | none =>
        exact poolInv_fetch_bad h _ w i .fetchRejected hst (Or.inl ⟨hr, rfl⟩)
          (set_getElem?_self _ _ _ _ hst) (fun u hu => List.getElem?_set_ne (Ne.symm hu))
      | some r =>
        by_cases hok : 200 ≤ r.status ∧ r.status ≤ 299
        · simp only [hok, not_true_eq_false, if_false]
          exact poolInv_fetch_ok h _ w i r hst ⟨hr, hok⟩
            (set_getElem?_self _ _ _ _ hst) (fun u hu => List.getElem?_set_ne (Ne.symm hu))
        · simp only [hok, not_false_eq_true, if_true]
          exact poolInv_fetch_bad h _ w i _ hst (Or.inr ⟨r, hr, hok, rfl⟩)
            (set_getElem?_self _ _ _ _ hst) (fun u hu => List.getElem?_set_ne (Ne.symm hu))
    | awaitingBody i b =>
      simp only [Option.getD_some]
      have hmid := poolInv_store h (fun u => if u = w then none else s.workers[u]?) w i b
        "segments".toList ((s.done + 1 : Nat) : Int) ((segmentUrls.length : Nat) : Int) hst
        (if_pos rfl) (fun u hu => if_neg hu)
      refine poolInv_loopHead
        { s with results := s.results.set i (some (parseAAC b)),
                 done := s.done + 1,
                 trace := s.trace ++
                   [.progress "segments".toList ((s.done + 1 : Nat) : Int)
                     ((segmentUrls.length : Nat) : Int)] }
        hmid _ w (if_pos rfl) ?_ ?_
      · show ((loopHead segmentUrls authToken areaId _).1.workers.set w _)[w]? = _
        rw [loopHead_workers]
        exact set_getElem?_self _ _ _ _ hst
      · intro u hu
        show ((loopHead segmentUrls authToken areaId _).1.workers.set w _)[u]? = _
        rw [loopHead_workers, List.getElem?_set_ne (Ne.symm hu)]
        exact (if_neg hu).symm

/-- The invariant holds when `fetchSegments` is over, whatever the schedule. -/
theorem fetchSegments_poolOk (maxWorkers : Nat) (segmentUrls : List JSString)
    (authToken areaId : JSString) (segNet : Nat → JSString → Option SegmentResponse)
    (sched : Nat → Nat) :
    PoolOk segmentUrls authToken areaId segNet
      (fetchSegments maxWorkers segmentUrls authToken areaId segNet sched) :=
  fetchSegments_induction maxWorkers segmentUrls authToken areaId segNet sched
    (PoolOk segmentUrls authToken areaId segNet)
    (poolOk_initial segmentUrls authToken areaId segNet)
    (poolOk_spawn segmentUrls authToken areaId segNet)
    (fun s w => poolOk_resume segmentUrls authToken areaId segNet s w)

/-! ## The segment fetcher: every run settles -/

theorem sum_map_set {α : Type} (f : α → Nat) (l : List α) (w : Nat) (x y : α)
    (h : l[w]? = some x) : ((l.set w y).map f).sum + f x = (l.map f).sum + f y := by
  induction l generalizing w with
  | nil => simp at h
  | cons a l ih =>
    cases w with
    | zero =>
      simp only [List.getElem?_cons_zero, Option.some.injEq] at h
      subst h
      simp only [List.set_cons_zero, List.map_cons, List.sum_cons]
      omega
    | succ w =>
      simp only [List.getElem?_cons_succ] at h
      have := ih w h
      simp only [List.set_cons_succ, List.map_cons, List.sum_cons]
      omega

theorem le_sum_map {α : Type} (f : α → Nat) (l : List α) (w : Nat) (x : α)
    (h : l[w]? = some x) : f x ≤ (l.map f).sum := by
  induction l generalizing w with
  | nil => simp at h
  | cons a l ih =>
    cases w with
    | zero =>
      simp only [List.getElem?_cons_zero, Option.some.injEq] at h
      subst h
      simp only [List.map_cons, List.sum_cons]
      omega
    | succ w =>
      simp only [List.getElem?_cons_succ] at h
      have := ih w h
      simp only [List.map_cons, List.sum_cons]
      omega

theorem loopHead_cases (segmentUrls : List JSString) (authToken areaId : JSString)
    (s : PoolState) :
    (s.index < segmentUrls.length ∧
        (loopHead segmentUrls authToken areaId s).1.index = s.index + 1 ∧
        (loopHead segmentUrls authToken areaId s).2 = .awaitingFetch s.index) ∨
      (¬ s.index < segmentUrls.length ∧
        (loopHead segmentUrls authToken areaId s).1.index = s.index ∧
        (loopHead segmentUrls authToken areaId s).2 = .finished) := by
  unfold loopHead
  by_cases hlt : s.index < segmentUrls.length
  · rw [if_pos hlt]
    exact Or.inl ⟨hlt, rfl, rfl⟩
  · rw [if_neg hlt]
    exact Or.inr ⟨hlt, rfl, rfl⟩

theorem stepsLeft_spawn (segmentUrls : List JSString) (authToken areaId : JSString)
    (s : PoolState) :
    stepsLeft segmentUrls (spawnWorker segmentUrls authToken areaId s)
      = stepsLeft segmentUrls s := by
  unfold stepsLeft spawnWorker
  simp only [loopHead_workers, List.map_append, List.sum_append, List.map_cons, List.map_nil,
    List.sum_cons, List.sum_nil]
  rcases loopHead_cases segmentUrls authToken areaId s with ⟨hlt, hi, hw⟩ | ⟨hge, hi, hw⟩
  · rw [hi, hw]
    simp only [workerSteps]
    omega
  · rw [hi, hw]
    simp only [workerSteps]
    omega

theorem mem_waitingWorkers (s : PoolState) (w : Nat) (h : w ∈ waitingWorkers s) :
    (∃ i, s.workers[w]? = some (.awaitingFetch i)) ∨
      ∃ i b, s.workers[w]? = some (.awaitingBody i b) := by
  unfold waitingWorkers at h
  rw [List.mem_filter, List.getD_eq_getElem?_getD] at h
  obtain ⟨_, hwait⟩ := h
  cases hst : s.workers[w]? with
  | none =>
    rw [hst] at hwait
    simp [isWaiting] at hwait
  | some x =>
    rw [hst] at hwait
    cases x with
    | awaitingFetch i => exact Or.inl ⟨i, rfl⟩
    | awaitingBody i b => exact Or.inr ⟨i, b, rfl⟩
    | finished => simp [isWaiting] at hwait
    | thrown => simp [isWaiting] at hwait

theorem waitingWorkers_eq_nil (s : PoolState) (h : waitingWorkers s = []) (w : Nat) :
    s.workers[w]? = none ∨ s.workers[w]? = some .finished ∨ s.workers[w]? = some .thrown := by
  cases hst : s.workers[w]? with
  | none => exact Or.inl rfl
  | some x =>
    have hlt := lt_length_of_getElem? _ _ _ hst
    have hnot : w ∉ waitingWorkers s := by
      rw [h]
      exact List.not_mem_nil w
    unfold waitingWorkers at hnot
    rw [List.mem_filter, List.getD_eq_getElem?_getD, hst] at hnot
    cases x with
    | awaitingFetch i => exact absurd ⟨List.mem_range.mpr hlt, rfl⟩ hnot
    | awaitingBody i b => exact absurd ⟨List.mem_range.mpr hlt, rfl⟩ hnot
    | finished => exact Or.inr (Or.inl rfl)
    | thrown => exact Or.inr (Or.inr rfl)

/-- Every step of a waiting worker uses up one of the steps left. -/
theorem stepsLeft_resume (segmentUrls : List JSString) (authToken areaId : JSString)
    (segNet : Nat → JSString → Option SegmentResponse) (s : PoolState) (w : Nat)
    (h : w ∈ waitingWorkers s) :
    stepsLeft segmentUrls (resumeWorker segmentUrls authToken areaId segNet s w)
      < stepsLeft segmentUrls s := by
  unfold resumeWorker
  rw [List.getD_eq_getElem?_getD]
  rcases mem_waitingWorkers s w h with ⟨i, hst⟩ | ⟨i, b, hst⟩
  · rw [hst]
    simp only [Option.getD_some]
    cases hr : segNet i (segmentUrls.getD i []) with
    | none =>
      have := sum_map_set workerSteps s.workers w _ .thrown hst
      simp only [workerSteps] at this
      simp only [stepsLeft]
      omega
    | some r =>
      by_cases hok : 200 ≤ r.status ∧ r.status ≤ 299
      · dsimp only
        rw [if_neg (fun hn : ¬ (200 ≤ r.status ∧ r.status ≤ 299) => hn hok)]
        have := sum_map_set workerSteps s.workers w _ (.awaitingBody i r.body) hst
        simp only [workerSteps] at this
        simp only [stepsLeft]
        omega
      · dsimp only
        rw [if_pos hok]
        have := sum_map_set workerSteps s.workers w _ .thrown hst
        simp only [workerSteps] at this
        simp only [stepsLeft]
        omega
  · rw [hst]
    simp only [Option.getD_some, stepsLeft, loopHead_workers]
    rcases loopHead_cases segmentUrls authToken areaId
      { s with results := s.results.set i (some (parseAAC b)),
               done := s.done + 1,
               trace := s.trace ++
                 [.progress "segments".toList ((s.done + 1 : Nat) : Int)
                   ((segmentUrls.length : Nat) : Int)] } with
      ⟨hlt, hi, hw⟩ | ⟨hge, hi, hw⟩
    · rw [hi, hw]
      have := sum_map_set workerSteps s.workers w _ (.awaitingFetch s.index) hst
      simp only [workerSteps] at this
      dsimp only at hlt ⊢
      omega
    · rw [hi, hw]
      have := sum_map_set workerSteps s.workers w _ .finished hst
      simp only [workerSteps] at this
      dsimp only at hge ⊢
      omega

theorem runPool_settles (segmentUrls : List JSString) (authToken areaId : JSString)
    (segNet : Nat → JSString → Option SegmentResponse) (sched : Nat → Nat) :
    ∀ (fuel n : Nat) (s : PoolState), stepsLeft segmentUrls s ≤ fuel →
      waitingWorkers (runPool segmentUrls authToken areaId segNet sched fuel n s) = [] := by
  intro fuel
  induction fuel with
  | zero =>
    intro n s hs
    rw [runPool]
    cases hw : waitingWorkers s with
    | nil => rfl
    | cons w ws =>
      have hmem : w ∈ waitingWorkers s := by
        rw [hw]
        exact List.mem_cons_self w ws
      have hsteps : 1 ≤ (s.workers.map workerSteps).sum := by
        rcases mem_waitingWorkers s w hmem with ⟨i, hst⟩ | ⟨i, b, hst⟩
        · have := le_sum_map workerSteps s.workers w _ hst
          simp only [workerSteps] at this
          omega
        · have := le_sum_map workerSteps s.workers w _ hst
          simp only [workerSteps] at this
          omega
      unfold stepsLeft at hs
      omega
  | succ fuel ih =>
    intro n s hs
    rw [runPool]
    split
    · rename_i heq
      exact heq
    · rename_i w ws heq
      apply ih
      have hlt : sched n % (ws.length + 1) < (w :: ws).length := by
        simp only [List.length_cons]
        exact Nat.mod_lt _ (Nat.succ_pos _)
      have hmem : (w :: ws).getD (sched n % (ws.length + 1)) w ∈ waitingWorkers s := by
        rw [heq, List.getD_eq_getElem _ _ hlt]
        exact List.getElem_mem _
      have := stepsLeft_resume segmentUrls authToken areaId segNet s _ hmem
      omega

/-- Every run of `fetchSegments` ends with no worker waiting: all workers have
returned or thrown, whatever the schedule. -/
theorem fetchSegments_settles (maxWorkers : Nat) (segmentUrls : List JSString)
    (authToken areaId : JSString) (segNet : Nat → JSString → Option SegmentResponse)
    (sched : Nat → Nat) :
    waitingWorkers (fetchSegments maxWorkers segmentUrls authToken areaId segNet sched)
      = [] := by
  apply runPool_settles
  apply spawnedPool_induction maxWorkers segmentUrls authToken areaId
    (fun s => stepsLeft segmentUrls s ≤ 2 * segmentUrls.length)
  · simp [stepsLeft, initialPool]
  · intro s hs
    rw [stepsLeft_spawn]
    exact hs

/-! ## The segment fetcher: results in ordinal order -/

theorem resumeWorker_workers_length (segmentUrls : List JSString) (authToken areaId : JSString)
    (segNet : Nat → JSString → Option SegmentResponse) (s : PoolState) (w : Nat) :
    (resumeWorker segmentUrls authToken areaId segNet s w).workers.length
      = s.workers.length := by
  unfold resumeWorker
  split
  · split
    · simp
    · split <;> simp
  · simp [loopHead_workers]
  · rfl

theorem spawnWorker_workers_length (segmentUrls : List JSString) (authToken areaId : JSString)
    (s : PoolState) :
    (spawnWorker segmentUrls authToken areaId s).workers.length = s.workers.length + 1 := by
  simp [spawnWorker, loopHead_workers]

theorem spawnedPool_workers_length (maxWorkers : Nat) (segmentUrls : List JSString)
    (authToken areaId : JSString) :
    (spawnedPool maxWorkers segmentUrls authToken areaId).workers.length = maxWorkers := by
  have key : ∀ (l : List Nat) (s : PoolState),
      (l.foldl (fun s _ => spawnWorker segmentUrls authToken areaId s) s).workers.length
        = s.workers.length + l.length := by
    intro l
    induction l with
    | nil => intro s; rfl
    | cons a l ih =>
      intro s
      rw [List.foldl_cons, ih, spawnWorker_workers_length, List.length_cons]
      omega
  unfold spawnedPool
  rw [key]
  simp [initialPool]

theorem fetchSegments_workers_length (maxWorkers : Nat) (segmentUrls : List JSString)
    (authToken areaId : JSString) (segNet : Nat → JSString → Option SegmentResponse)
    (sched : Nat → Nat) :
    (fetchSegments maxWorkers segmentUrls authToken areaId segNet sched).workers.length
      = maxWorkers := by
  apply runPool_induction segmentUrls authToken areaId segNet sched
    (fun s => s.workers.length = maxWorkers)
  · intro s w hs
    rw [resumeWorker_workers_length]
    exact hs
  · exact spawnedPool_workers_length maxWorkers segmentUrls authToken areaId

/-- When no worker waits, every index taken has been stored or has failed. -/
theorem settled_status (segmentUrls : List JSString) (authToken areaId : JSString)
    (segNet : Nat → JSString → Option SegmentResponse) (s : PoolState)
    (h : PoolOk segmentUrls authToken areaId segNet s) (hw : waitingWorkers s = [])
    (i : Nat) (hi : i < s.index) :
    (∃ r, segmentOk segmentUrls segNet i r ∧
        s.results[i]? = some (some (parseAAC r.body))) ∨
      ((∃ e, segmentBad segmentUrls segNet i e) ∧ s.failure ≠ none) := by
  rcases h.status i hi with ⟨u, hu⟩ | ⟨u, b, hu⟩ | h3 | h4
  · have hu2 : s.workers[u]? = some (.awaitingFetch i) := hu
    rcases waitingWorkers_eq_nil s hw u with h1 | h1 | h1 <;> rw [h1] at hu2 <;> cases hu2
  · have hu2 : s.workers[u]? = some (.awaitingBody i b) := hu
    rcases waitingWorkers_eq_nil s hw u with h1 | h1 | h1 <;> rw [h1] at hu2 <;> cases hu2
  · exact Or.inl h3
  · exact Or.inr h4

theorem segmentBad_not_ok (segmentUrls : List JSString)
    (segNet : Nat → JSString → Option SegmentResponse) (i : Nat) (e : DownloadError)
    (r : SegmentResponse) (hbad : segmentBad segmentUrls segNet i e)
    (hok : segmentOk segmentUrls segNet i r) : False := by
  obtain ⟨hr, hst⟩ := hok
  rcases hbad with ⟨hnone, _⟩ | ⟨r', hr', hnot, _⟩
  · rw [hnone] at hr
    cases hr
  · rw [hr'] at hr
    cases hr
    exact hnot hst

/-- With at least one worker and every segment request answered with success,
`fetchSegments` ends without failure, with every index taken and every slot of
`results` holding the stripped body of its own segment. -/
theorem fetchSegments_all_ok (maxWorkers : Nat) (segmentUrls : List JSString)
    (authToken areaId : JSString) (segNet : Nat → JSString → Option SegmentResponse)
    (sched : Nat → Nat) (hworkers : 0 < maxWorkers)
    (hok : ∀ i, i < segmentUrls.length → ∃ r, segmentOk segmentUrls segNet i r) :
    (fetchSegments maxWorkers segmentUrls authToken areaId segNet sched).failure = none ∧
      (fetchSegments maxWorkers segmentUrls authToken areaId segNet sched).index
        = segmentUrls.length ∧
      (fetchSegments maxWorkers segmentUrls authToken areaId segNet sched).results
        = (List.range segmentUrls.length).map fun i =>
            some (parseAAC
              (((segNet i (segmentUrls.getD i [])).map fun r => r.body).getD [])) := by
  have hinv := fetchSegments_poolOk maxWorkers segmentUrls authToken areaId segNet sched
  have hset := fetchSegments_settles maxWorkers segmentUrls authToken areaId segNet sched
  have hlen := fetchSegments_workers_length maxWorkers segmentUrls authToken areaId segNet sched
  generalize fetchSegments maxWorkers segmentUrls authToken areaId segNet sched = pool at *
  have hfail : pool.failure = none := by
    cases hf : pool.failure with
    | none => rfl
    | some e =>
      obtain ⟨j, hj, hbad⟩ := hinv.failure_cause e hf
      obtain ⟨r, hr⟩ := hok j (Nat.lt_of_lt_of_le hj hinv.index_le)
      exact (segmentBad_not_ok segmentUrls segNet j e r hbad hr).elim
  have hindex : pool.index = segmentUrls.length := by
    apply Nat.le_antisymm hinv.index_le
    have h0 : ∃ x, pool.workers[0]? = some x :=
      ⟨pool.workers[0], List.getElem?_eq_getElem (by omega)⟩
    obtain ⟨x, hx⟩ := h0
    rcases waitingWorkers_eq_nil pool hset 0 with h1 | h1 | h1
    · rw [h1] at hx
      cases hx
    · exact hinv.finished_done 0 h1
    · exact absurd hfail (hinv.thrown_failed 0 h1)
  refine ⟨hfail, hindex, ?_⟩
  apply List.ext_getElem?
  intro i
  by_cases hi : i < segmentUrls.length
  · rcases settled_status segmentUrls authToken areaId segNet pool hinv hset i
      (by omega) with ⟨r, hr, hres⟩ | ⟨_, hne⟩
    · rw [hres, List.getElem?_map, List.getElem?_range hi]
      simp only [Option.map_some', hr.1, Option.getD_some]
    · exact absurd hfail hne
  · rw [List.getElem?_eq_none (by rw [hinv.results_length]; omega),
      List.getElem?_eq_none (by simp; omega)]

theorem parseAAC_of_short (buffer : List Nat) (h : buffer.length ≤ 10) :
    parseAAC buffer = buffer := by
  unfold parseAAC
  rw [parseAACLoop_of_short buffer 0 (by omega)]
  rfl

/-- C11: for every list of segment URLs and every schedule of the worker pool
(with at least one worker), if every segment request is answered with success,
then the run ends without failure, every index is requested exactly once (the
requests made are those of the indices `0, 1, ...`, each with its own URL),
`results[i]` is `parseAAC` of the body fetched from `segmentUrls[i]`, and the
bytes of the artifact are the stripped payloads concatenated in the order of
the indices, whatever the order of completion; these are the bytes
`downloadTimefree` hands to the file sink. -/
theorem fetchSegments_ordinal_order (maxWorkers : Nat) (segmentUrls : List JSString)
    (authToken areaId : JSString) (segNet : Nat → JSString → Option SegmentResponse)
    (sched : Nat → Nat) (hworkers : 0 < maxWorkers)
    (hok : ∀ i, i < segmentUrls.length →
      ∃ r, segNet i (segmentUrls.getD i []) = some r ∧ 200 ≤ r.status ∧ r.status ≤ 299) :
    (fetchSegments maxWorkers segmentUrls authToken areaId segNet sched).failure = none ∧
      (fetchSegments maxWorkers segmentUrls authToken areaId segNet sched).trace.filterMap
          segmentOf
        = (List.range segmentUrls.length).map
            (fun i => (i, segmentUrls.getD i [], authToken, areaId)) ∧
      (fetchSegments maxWorkers segmentUrls authToken areaId segNet sched).results.length
        = segmentUrls.length ∧
      (∀ i r, i < segmentUrls.length → segNet i (segmentUrls.getD i []) = some r →
        (fetchSegments maxWorkers segmentUrls authToken areaId segNet sched).results[i]?
          = some (some (parseAAC r.body))) ∧
      blobBytes (fetchSegments maxWorkers segmentUrls authToken areaId segNet sched).results
        = ((List.range segmentUrls.length).map fun i =>
            parseAAC (((segNet i (segmentUrls.getD i [])).map fun r => r.body).getD [])).flatten ∧
      ∀ (net : ManifestRequest → Option ManifestResponse)
        (stationId startTime endTime : JSString),
        (planDownload net stationId startTime endTime authToken areaId).1 = .ok segmentUrls →
        segmentUrls ≠ [] →
        (downloadTimefree maxWorkers net segNet sched stationId startTime endTime authToken
            areaId).1 = .ok () ∧
          (downloadTimefree maxWorkers net segNet sched stationId startTime endTime authToken
            areaId).2.getLast?
            = some (.download (buildFilename stationId startTime)
                ((List.range segmentUrls.length).map fun i =>
                  parseAAC
                    (((segNet i (segmentUrls.getD i [])).map fun r => r.body).getD [])).flatten) := by
  obtain ⟨hfail, hindex, hres⟩ := fetchSegments_all_ok maxWorkers segmentUrls authToken areaId
    segNet sched hworkers hok
  have hinv := fetchSegments_poolOk maxWorkers segmentUrls authToken areaId segNet sched
  have hblob : blobBytes
        (fetchSegments maxWorkers segmentUrls authToken areaId segNet sched).results
      = ((List.range segmentUrls.length).map fun i =>
          parseAAC
            (((segNet i (segmentUrls.getD i [])).map fun r => r.body).getD [])).flatten := by
    rw [hres, blobBytes, List.map_map]
    rfl
  refine ⟨hfail, ?_, hinv.results_length, ?_, hblob, ?_⟩
  · rw [hinv.fetches, hindex]
  · intro i r hi hr
    rw [hres, List.getElem?_map, List.getElem?_range hi]
    simp only [Option.map_some', hr, Option.getD_some]
  · intro net stationId startTime endTime hplan hne
    rcases downloadTimefree_cases maxWorkers net segNet sched stationId startTime endTime
      authToken areaId with ⟨e, he, _⟩ | ⟨he, _⟩ | ⟨urls, e, he, _, hf, _⟩ | ⟨urls, he, _, _, hd⟩
    · rw [hplan] at he
      cases he
    · rw [hplan] at he
      cases he
      exact absurd rfl hne
    · rw [hplan] at he
      cases he
      rw [hfail] at hf
      cases hf
    · rw [hplan] at he
      cases he
      rw [hd, hblob]
      exact ⟨rfl, List.getLast?_concat _⟩

/-- Witness for C11: three workers fetch the three example segments, the
last waiting worker being resumed at every step. -/
theorem fetchSegments_ordinal_order_witness :
    blobBytes (fetchSegments 3 exampleSegmentUrls "token".toList "JP13".toList
        exampleSegmentServer (fun _ => 2)).results
      = [255, 241, 0, 255, 241, 1, 255, 241, 2] :=
  (fetchSegments_ordinal_order 3 exampleSegmentUrls "token".toList "JP13".toList
    exampleSegmentServer (fun _ => 2) (by decide)
    (fun i _ => ⟨{ status := 200, body := [255, 241, i] }, rfl,
      show 200 ≤ 200 by decide, show 200 ≤ 299 by decide⟩)).2.2.2.2.1.trans
    (by
      rw [show List.range exampleSegmentUrls.length = [0, 1, 2] from by decide]
      simp only [List.map, exampleSegmentServer, Option.map_some', Option.getD_some]
      rw [parseAAC_of_short _ (by decide), parseAAC_of_short _ (by decide),
        parseAAC_of_short _ (by decide)]
      rfl)

/-! ## The segment fetcher: a failed fetch -/

/-- C12, counterexample: two workers, three segments, the request for segment
0 answered with status 500, the first waiting worker resumed at every step.
After the first step the failure is set, and only the segments 0 and 1 have
been requested; the run goes on from that state, and when it is over the
worker of segment 1 has reported progress, requested segment 2 and reported
progress again: the work outstanding at the failure is not abandoned. -/
theorem fetchSegments_fail_fast_counterexample :
    (runPool exampleSegmentUrls "token".toList "JP13".toList failingSegmentServer
        (fun _ => 0) 1 0
        (spawnedPool 2 exampleSegmentUrls "token".toList "JP13".toList)).failure
      = some (.segmentFailed 500 "https://x/seg0.aac".toList) ∧
    (runPool exampleSegmentUrls "token".toList "JP13".toList failingSegmentServer
        (fun _ => 0) 1 0
        (spawnedPool 2 exampleSegmentUrls "token".toList "JP13".toList)).trace
      = [.fetchSegment 0 "https://x/seg0.aac".toList "token".toList "JP13".toList,
          .fetchSegment 1 "https://x/seg1.aac".toList "token".toList "JP13".toList] ∧
    fetchSegments 2 exampleSegmentUrls "token".toList "JP13".toList failingSegmentServer
        (fun _ => 0)
      = runPool exampleSegmentUrls "token".toList "JP13".toList failingSegmentServer
          (fun _ => 0) 5 1
          (runPool exampleSegmentUrls "token".toList "JP13".toList failingSegmentServer
            (fun _ => 0) 1 0
            (spawnedPool 2 exampleSegmentUrls "token".toList "JP13".toList)) ∧
    (fetchSegments 2 exampleSegmentUrls "token".toList "JP13".toList failingSegmentServer
        (fun _ => 0)).trace
      = [.fetchSegment 0 "https://x/seg0.aac".toList "token".toList "JP13".toList,
          .fetchSegment 1 "https://x/seg1.aac".toList "token".toList "JP13".toList,
          .progress "segments".toList 1 3,
          .fetchSegment 2 "https://x/seg2.aac".toList "token".toList "JP13".toList,
          .progress "segments".toList 2 3] ∧
    (fetchSegments 2 exampleSegmentUrls "token".toList "JP13".toList failingSegmentServer
        (fun _ => 0)).failure
      = some (.segmentFailed 500 "https://x/seg0.aac".toList) := by
  refine ⟨by decide, by decide, rfl, by decide, by decide⟩

/-- C12, amended: once a segment request of `fetchSegments` is answered with a
non-success status, the whole operation fails, for every schedule of the
worker pool: when the run is over the failure is set, with the error of a
segment request that failed, so `fetchSegments` returns no results, and
`downloadTimefree` ends with an error and hands no artifact to the file sink.
Workers that still run are not cancelled. -/
theorem fetchSegments_failure_fails_job (maxWorkers : Nat) (segmentUrls : List JSString)
    (authToken areaId : JSString) (segNet : Nat → JSString → Option SegmentResponse)
    (sched : Nat → Nat) (i : Nat) (url tok area : JSString) (r : SegmentResponse)
    (hreq : DownloadEvent.fetchSegment i url tok area
      ∈ (fetchSegments maxWorkers segmentUrls authToken areaId segNet sched).trace)
    (hr : segNet i url = some r) (hbad : ¬ (200 ≤ r.status ∧ r.status ≤ 299)) :
    (∃ e j, (fetchSegments maxWorkers segmentUrls authToken areaId segNet sched).failure
          = some e ∧
        j < segmentUrls.length ∧ segmentBad segmentUrls segNet j e) ∧
      ∀ (net : ManifestRequest → Option ManifestResponse)
        (stationId startTime endTime : JSString),
        (planDownload net stationId startTime endTime authToken areaId).1 = .ok segmentUrls →
        (∃ e, (downloadTimefree maxWorkers net segNet sched stationId startTime endTime
            authToken areaId).1 = .error e) ∧
          ∀ ev ∈ (downloadTimefree maxWorkers net segNet sched stationId startTime endTime
            authToken areaId).2, ∀ filename bytes, ev ≠ .download filename bytes := by
  have hinv := fetchSegments_poolOk maxWorkers segmentUrls authToken areaId segNet sched
  have hset := fetchSegments_settles maxWorkers segmentUrls authToken areaId segNet sched
  have hmem : (i, url, tok, area)
      ∈ (fetchSegments maxWorkers segmentUrls authToken areaId segNet sched).trace.filterMap
          segmentOf :=
    List.mem_filterMap.mpr ⟨_, hreq, rfl⟩
  rw [hinv.fetches, List.mem_map] at hmem
  obtain ⟨j, hj, heq⟩ := hmem
  rw [List.mem_range] at hj
  simp only [Prod.mk.injEq] at heq
  obtain ⟨hji, hurl, _, _⟩ := heq
  subst hji
  subst hurl
  have hne : (fetchSegments maxWorkers segmentUrls authToken areaId segNet sched).failure
      ≠ none := by
    rcases settled_status segmentUrls authToken areaId segNet _ hinv hset j hj with
      ⟨r', hr', _⟩ | ⟨_, hne⟩
    · obtain ⟨h1, h2⟩ := hr'
      rw [hr] at h1
      cases h1
      exact absurd h2 hbad
    · exact hne
  have hfail : ∃ e, (fetchSegments maxWorkers segmentUrls authToken areaId segNet sched).failure
      = some e := by
    cases hf : (fetchSegments maxWorkers segmentUrls authToken areaId segNet sched).failure with
    | none => exact absurd hf hne
    | some e => exact ⟨e, rfl⟩
  obtain ⟨e, he⟩ := hfail
  refine ⟨?_, ?_⟩
  · obtain ⟨k, hk, hkbad⟩ := hinv.failure_cause e he
    exact ⟨e, k, he, Nat.lt_of_lt_of_le hk hinv.index_le, hkbad⟩
  · intro net stationId startTime endTime hplan
    have hplanEv : ∀ ev ∈ (planDownload net stationId startTime endTime authToken areaId).2,
        ∀ filename bytes, ev ≠ DownloadEvent.download filename bytes := by
      intro ev hev filename bytes heq
      have := planDownload_events _ _ _ _ _ _ ev hev
      rw [heq] at this
      exact this
    have hpoolEv : ∀ ev ∈ (fetchSegments maxWorkers segmentUrls authToken areaId segNet
        sched).trace, ∀ filename bytes, ev ≠ DownloadEvent.download filename bytes := by
      intro ev hev filename bytes heq
      have := fetchSegments_events _ _ _ _ _ _ ev hev
      rw [heq] at this
      exact this
    rcases downloadTimefree_cases maxWorkers net segNet sched stationId startTime endTime
      authToken areaId with ⟨e', he', hd⟩ | ⟨_, hd⟩ | ⟨urls, e', he', _, _, hd⟩ |
        ⟨urls, he', _, hf, _⟩
    · rw [hd]
      exact ⟨⟨e', rfl⟩, hplanEv⟩
    · rw [hd]
      exact ⟨⟨_, rfl⟩, hplanEv⟩
    · rw [hplan] at he'
      cases he'
      rw [hd]
      refine ⟨⟨e', rfl⟩, ?_⟩
      intro ev hev
      rcases List.mem_append.mp hev with h1 | h1
      · exact hplanEv ev h1
      · exact hpoolEv ev h1
    · rw [hplan] at he'
      cases he'
      exact absurd hf hne

/-- Witness for C12 (amended): the run of the counterexample ends with the
error of segment 0. -/
theorem fetchSegments_failure_fails_job_witness :
    ∃ e j, (fetchSegments 2 exampleSegmentUrls "token".toList "JP13".toList
          failingSegmentServer (fun _ => 0)).failure = some e ∧
      j < exampleSegmentUrls.length ∧ segmentBad exampleSegmentUrls failingSegmentServer j e :=
  (fetchSegments_failure_fails_job 2 exampleSegmentUrls "token".toList "JP13".toList
    failingSegmentServer (fun _ => 0) 0 "https://x/seg0.aac".toList "token".toList
    "JP13".toList { status := 500, body := [] } (by decide) rfl (by decide)).1

/-- Witness for C18: a forced re-authentication whose handshake fails leaves
the stored device identity in place. -/
theorem device_identity_immutable_witness :
    (init exampleStatic failingWorld true exampleStore).1.device = some exampleDevice :=
  ((device_identity_immutable exampleStatic failingWorld none exampleStore true).1
    exampleDevice rfl).2.2.1

/-! ## The partial key: a negative length -/

/-- C10, counterexample: auth1 answers `X-Radiko-KeyOffset: 5` and
`X-Radiko-KeyLength: -2`. The conditions of the claim hold (`0 <= 5`, and
`5 + (-2) = 3` lies within the 40 characters of the secret), but
`substring(5, 3)` swaps its arguments: the key sent in auth2 is `MTU=`, the
encoding of the two characters `15` at the positions 3 and 4. These are not
characters of the secret that start at the offset 5. -/
theorem partialKey_negative_length_counterexample :
    parseInt10 "5".toList = some 5 ∧ parseInt10 "-2".toList = some (-2) ∧
      (0 : Int) ≤ 5 ∧ (5 : Int) + (-2) ≤ (exampleStatic.appKey.length : Int) ∧
      (retrieveToken exampleStatic negativeLengthWorld exampleDevice "JP13".toList).2
        = [.fetchAuth1 (auth1Request exampleDevice),
            .fetchAuth2 (auth2Request exampleDevice "NEWTOKEN".toList "MTU=".toList
              "35.689488".toList "139.691706".toList)] ∧
      (auth2Request exampleDevice "NEWTOKEN".toList "MTU=".toList "35.689488".toList
        "139.691706".toList).partialKey = "MTU=".toList ∧
      substring exampleStatic.appKey (some 5) (some (5 + (-2))) = "15".toList ∧
      "MTU=".toList = base64Encode ("15".toList.map Char.toNat) ∧
      "15".toList = (exampleStatic.appKey.drop 3).take 2 ∧
      ¬ ("15".toList <+: exampleStatic.appKey.drop 5) ∧
      "MTU=".toList
        ≠ base64Encode (((exampleStatic.appKey.drop 5).take (Int.toNat (-2))).map Char.toNat) := by
  refine ⟨by decide, by decide, by decide, by decide, by decide, rfl, by decide, by decide,
    by decide, by decide, by decide⟩

/-! ## Timestamps as decimal numbers -/

theorem digitsValue_append (a b : List Char) :
    digitsValue (a ++ b) = digitsValue a * 10 ^ b.length + digitsValue b := by
  have key : ∀ (l : List Char) (acc : Nat),
      List.foldl (fun acc c => acc * 10 + (c.toNat - 48)) acc l
        = acc * 10 ^ l.length + List.foldl (fun acc c => acc * 10 + (c.toNat - 48)) 0 l := by
    intro l
    induction l with
    | nil => intro acc; simp
    | cons c l ih =>
      intro acc
      rw [List.foldl_cons, ih, List.foldl_cons, ih (0 * 10 + (c.toNat - 48)), List.length_cons,
        Nat.pow_succ]
      ring
  unfold digitsValue
  rw [List.foldl_append, key b]

theorem slice_append_drop (t : JSString) (a b : Nat) (h : a ≤ b) :
    slice t a b ++ t.drop b = t.drop a := by
  have hb : t.drop b = (t.drop a).drop (b - a) := by
    rw [List.drop_drop]
    congr 1
    omega
  rw [slice, hb]
  exact List.take_append_drop _ _

theorem slice_length (t : JSString) (a b : Nat) (h : b ≤ t.length) :
    (slice t a b).length = b - a := by
  simp only [slice, List.length_take, List.length_drop]
  omega

/-- A timestamp of 14 digits, read as a decimal number, is
`YYYY * 10^10 + MM * 10^8 + DD * 10^6 + HH * 10^4 + MM * 10^2 + SS`. -/
theorem digitsValue_timestamp (t : JSString) (hlen : t.length = 14) :
    digitsValue t
      = digitsValue (slice t 0 4) * 10000000000 + digitsValue (slice t 4 6) * 100000000 +
          digitsValue (slice t 6 8) * 1000000 + digitsValue (slice t 8 10) * 10000 +
          digitsValue (slice t 10 12) * 100 + digitsValue (slice t 12 14) := by
  have hsplit : t = slice t 0 4 ++ (slice t 4 6 ++ (slice t 6 8 ++ (slice t 8 10 ++
      (slice t 10 12 ++ slice t 12 14)))) := by
    have h6 : slice t 12 14 = t.drop 12 := by
      have := slice_append_drop t 12 14 (by decide)
      rw [List.drop_of_length_le (by omega), List.append_nil] at this
      exact this
    rw [h6, slice_append_drop t 10 12 (by decide), slice_append_drop t 8 10 (by decide),
      slice_append_drop t 6 8 (by decide), slice_append_drop t 4 6 (by decide),
      slice_append_drop t 0 4 (by decide)]
    rfl
  have l2 := slice_length t 4 6 (by omega)
  have l3 := slice_length t 6 8 (by omega)
  have l4 := slice_length t 8 10 (by omega)
  have l5 := slice_length t 10 12 (by omega)
  have l6 := slice_length t 12 14 (by omega)
  generalize slice t 0 4 = f1 at *
  generalize slice t 4 6 = f2 at *
  generalize slice t 6 8 = f3 at *
  generalize slice t 8 10 = f4 at *
  generalize slice t 10 12 = f5 at *
  generalize slice t 12 14 = f6 at *
  rw [hsplit]
  simp only [digitsValue_append, List.length_append, l2, l3, l4, l5, l6]
  ring

theorem monthStart_next (month day : Nat) (leap : Bool) (h1 : 1 ≤ month) (h2 : month ≤ 11)
    (h3 : day ≤ daysInMonth month leap) :
    monthStart ((month : Int) - 1) leap + (day : Int) ≤ monthStart (month : Int) leap := by
  have hd : (day : Int) ≤ (daysInMonth month leap : Int) := by exact_mod_cast h3
  interval_cases month <;> cases leap <;>
    simp [monthStart, daysInMonth] at hd ⊢ <;> omega

theorem monthStart_mono (a b : Nat) (leap : Bool) (hab : a ≤ b) (hb : b ≤ 11) :
    monthStart (a : Int) leap ≤ monthStart (b : Int) leap := by
  induction b with
  | zero =>
    have : a = 0 := by omega
    subst this
    exact Int.le_refl _
  | succ b ih =>
    by_cases heq : a = b + 1
    · subst heq
      exact Int.le_refl _
    · have h1 := ih (by omega) (by omega)
      have h2 := monthStart_next (b + 1) 0 leap (by omega) hb (Nat.zero_le _)
      have h3 : ((b + 1 : Nat) : Int) - 1 = (b : Int) := by omega
      rw [h3] at h2
      simp only [Nat.cast_zero, Int.add_zero] at h2
      exact Int.le_trans h1 h2

/-- The time value of a valid timestamp of the years 100 to 9999, by its
fields. -/
theorem toDate_eq_of_valid (t : JSString) (hv : validTimestamp t = true)
    (hyear : 100 ≤ digitsValue (slice t 0 4)) :
    toDate t
      = some ((dayFromYear (digitsValue (slice t 0 4)) +
            monthStart ((digitsValue (slice t 4 6) : Int) - 1)
              (isLeapYear (digitsValue (slice t 0 4))) +
            (digitsValue (slice t 6 8) : Int) - 1) * 86400000 +
          ((digitsValue (slice t 8 10) : Int) * 3600000 +
            (digitsValue (slice t 10 12) : Int) * 60000 +
            (digitsValue (slice t 12 14) : Int) * 1000)) := by
  simp only [validTimestamp, Bool.and_eq_true, beq_iff_eq, decide_eq_true_eq] at hv
  obtain ⟨⟨⟨⟨⟨⟨_, hdig⟩, hm1, hm2⟩, _, hd2⟩, hh⟩, hmi⟩, hs⟩ := hv
  have hy4 : digitsValue (slice t 0 4) + 1 ≤ 10 ^ 4 :=
    Nat.le_trans (digitsValue_lt _ (slice_all t 0 4 _ hdig))
      (Nat.pow_le_pow_right (by decide) (by simp [slice]))
  unfold toDate
  rw [toNumber_of_digits _ (slice_all t 0 4 _ hdig), toNumber_of_digits _ (slice_all t 4 6 _ hdig),
    toNumber_of_digits _ (slice_all t 6 8 _ hdig), toNumber_of_digits _ (slice_all t 8 10 _ hdig),
    toNumber_of_digits _ (slice_all t 10 12 _ hdig),
    toNumber_of_digits _ (slice_all t 12 14 _ hdig)]
  generalize digitsValue (slice t 0 4) = Y at *
  generalize digitsValue (slice t 4 6) = M at *
  generalize digitsValue (slice t 6 8) = D at *
  generalize digitsValue (slice t 8 10) = H at *
  generalize digitsValue (slice t 10 12) = Mi at *
  generalize digitsValue (slice t 12 14) = S at *
  obtain ⟨hms0, hms1⟩ := monthStart_add_days M D (isLeapYear (Y : Int)) hm1 hm2 hd2
  have hb := dayFromYear_bounds (Y : Int)
  have hdiv : ((M : Int) - 1) / 12 = 0 := by omega
  have hmod : ((M : Int) - 1) % 12 = (M : Int) - 1 := by omega
  have hms2 : monthStart ((M : Int) - 1) (isLeapYear (Y : Int)) + (D : Int) ≤ 366 := by
    have h1 : (if isLeapYear (Y : Int) = true then (366 : Int) else 365) ≤ 366 := by
      split <;> omega
    omega
  simp only [dateUTC, Option.map_some', Option.bind_eq_bind, Option.some_bind,
    show ¬ (0 ≤ (Y : Int) ∧ (Y : Int) ≤ 99) by omega, if_false, makeDate, makeDay, makeTime,
    msPerDay, hdiv, hmod, Int.add_zero]
  generalize monthStart ((M : Int) - 1) (isLeapYear (Y : Int)) = ms at *
  generalize dayFromYear (Y : Int) = dy at *
  rw [timeClip, if_pos (by omega)]

/-- The day number of a calendar date grows with the date: for two dates given
by year, month and day, the earlier date has the smaller day number. -/
theorem dayNumber_lt (Ye Me De Ys Ms Ds : Nat) (hme1 : 1 ≤ Me) (hme2 : Me ≤ 12)
    (hde : De ≤ daysInMonth Me (isLeapYear (Ye : Int))) (hms1 : 1 ≤ Ms) (hms2 : Ms ≤ 12)
    (hds : 1 ≤ Ds)
    (hlt : Ye < Ys ∨ (Ye = Ys ∧ Me < Ms) ∨ (Ye = Ys ∧ Me = Ms ∧ De < Ds)) :
    dayFromYear (Ye : Int) + monthStart ((Me : Int) - 1) (isLeapYear (Ye : Int)) + (De : Int)
      < dayFromYear (Ys : Int) + monthStart ((Ms : Int) - 1) (isLeapYear (Ys : Int)) +
          (Ds : Int) := by
  obtain ⟨_, he1⟩ := monthStart_add_days Me De (isLeapYear (Ye : Int)) hme1 hme2 hde
  obtain ⟨hs0, _⟩ := monthStart_add_days Ms 0 (isLeapYear (Ys : Int)) hms1 hms2 (Nat.zero_le _)
  rcases hlt with hy | ⟨hy, hm⟩ | ⟨hy, hm, hd⟩
  · have hsucc := dayFromYear_succ (Ye : Int)
    have hmono := dayFromYear_mono ((Ye : Int) + 1) (Ys : Int) (by omega)
    generalize (if isLeapYear (Ye : Int) = true then (366 : Int) else 365) = len at *
    generalize monthStart ((Me : Int) - 1) (isLeapYear (Ye : Int)) = a at *
    generalize monthStart ((Ms : Int) - 1) (isLeapYear (Ys : Int)) = b at *
    generalize dayFromYear ((Ye : Int) + 1) = y1 at *
    generalize dayFromYear (Ye : Int) = y0 at *
    generalize dayFromYear (Ys : Int) = y2 at *
    omega
  · subst hy
    have h1 := monthStart_next Me De (isLeapYear (Ye : Int)) hme1 (by omega) hde
    have h2 := monthStart_mono Me (Ms - 1) (isLeapYear (Ye : Int)) (by omega) (by omega)
    have h3 : ((Ms - 1 : Nat) : Int) = (Ms : Int) - 1 := by omega
    rw [h3] at h2
    generalize monthStart ((Me : Int) - 1) (isLeapYear (Ye : Int)) = a at *
    generalize monthStart ((Ms : Int) - 1) (isLeapYear (Ye : Int)) = b at *
    generalize monthStart (Me : Int) (isLeapYear (Ye : Int)) = c at *
    omega
  · subst hy
    subst hm
    omega

/-- On valid timestamps of the years 100 to 9999 the order of the decimal
numbers is the order of the instants: a timestamp that is not greater names an
instant that is not later. -/
theorem toDate_le_of_digitsValue_le (endTime startTime : JSString)
    (hve : validTimestamp endTime = true) (hvs : validTimestamp startTime = true)
    (hye : 100 ≤ digitsValue (slice endTime 0 4))
    (hys : 100 ≤ digitsValue (slice startTime 0 4))
    (hle : digitsValue endTime ≤ digitsValue startTime) :
    ∃ a b, toDate startTime = some a ∧ toDate endTime = some b ∧ b ≤ a := by
  refine ⟨_, _, toDate_eq_of_valid startTime hvs hys, toDate_eq_of_valid endTime hve hye, ?_⟩
  simp only [validTimestamp, Bool.and_eq_true, beq_iff_eq, decide_eq_true_eq] at hve hvs
  obtain ⟨⟨⟨⟨⟨⟨hlene, _⟩, hme1, hme2⟩, hde1, hde2⟩, hhe⟩, hmie⟩, hse⟩ := hve
  obtain ⟨⟨⟨⟨⟨⟨hlens, _⟩, hms1, hms2⟩, hds1, hds2⟩, hhs⟩, hmis⟩, hss⟩ := hvs
  rw [digitsValue_timestamp endTime hlene, digitsValue_timestamp startTime hlens] at hle
  generalize digitsValue (slice endTime 0 4) = Ye at *
  generalize digitsValue (slice endTime 4 6) = Me at *
  generalize digitsValue (slice endTime 6 8) = De at *
  generalize digitsValue (slice endTime 8 10) = He at *
  generalize digitsValue (slice endTime 10 12) = Mie at *
  generalize digitsValue (slice endTime 12 14) = Se at *
  generalize digitsValue (slice startTime 0 4) = Ys at *
  generalize digitsValue (slice startTime 4 6) = Ms at *
  generalize digitsValue (slice startTime 6 8) = Ds at *
  generalize digitsValue (slice startTime 8 10) = Hs at *
  generalize digitsValue (slice startTime 10 12) = Mis at *
  generalize digitsValue (slice startTime 12 14) = Ss at *
  have hde31 : De ≤ 31 := by
    refine Nat.le_trans hde2 ?_
    unfold daysInMonth
    split
    · split <;> omega
    · split <;> omega
  have hds31 : Ds ≤ 31 := by
    refine Nat.le_trans hds2 ?_
    unfold daysInMonth
    split
    · split <;> omega
    · split <;> omega
  by_cases hdate : Ye < Ys ∨ (Ye = Ys ∧ Me < Ms) ∨ (Ye = Ys ∧ Me = Ms ∧ De < Ds)
  · have hlt := dayNumber_lt Ye Me De Ys Ms Ds hme1 hme2 hde2 hms1 hms2 hds1 hdate
    generalize dayFromYear (Ye : Int) + monthStart ((Me : Int) - 1) (isLeapYear (Ye : Int))
      = de at *
    generalize dayFromYear (Ys : Int) + monthStart ((Ms : Int) - 1) (isLeapYear (Ys : Int))
      = ds at *
    omega
  · have hsame : Ye = Ys ∧ Me = Ms ∧ De = Ds := by omega
    obtain ⟨h1, h2, h3⟩ := hsame
    subst h1
    subst h2
    subst h3
    generalize dayFromYear (Ye : Int) + monthStart ((Me : Int) - 1) (isLeapYear (Ye : Int))
      = de at *
    omega

/-! ## Malformed jobs -/

/-- C15, counterexample: the start `01000101000000` (year 100) and the end
`00990101000000` (year 99) are valid timestamps and the end is one year
earlier, but `Date.UTC` reads the year 99 as 1999: the duration computed is
59926608000 seconds, the job is not rejected, and `downloadTimefree` reports
progress and requests a manifest. -/
theorem endTime_year_99_counterexample :
    validTimestamp "01000101000000".toList = true ∧
      validTimestamp "00990101000000".toList = true ∧
      digitsValue "00990101000000".toList < digitsValue "01000101000000".toList ∧
      diffSeconds "01000101000000".toList "00990101000000".toList = some 59926608000 ∧
      downloadTimefree 3 notFoundManifestServer exampleSegmentServer (fun n => n)
          "TBS".toList "01000101000000".toList "00990101000000".toList "token".toList
          "JP13".toList
        = (.error (.playlist404 "TBS".toList "01000101000000".toList "1000101000500".toList),
            [.progress "playlist".toList 0 59926608000,
              .fetchManifest
                { stationId := "TBS".toList, ft := "01000101000000".toList,
                  to_ := "1000101000500".toList, authToken := "token".toList,
                  areaId := "JP13".toList }]) := by
  have hdiff : diffSeconds "01000101000000".toList "00990101000000".toList
      = some 59926608000 := by decide
  refine ⟨by decide, by decide, by decide, hdiff, ?_⟩
  unfold downloadTimefree planDownload
  rw [hdiff]
  simp only [show ¬ ((59926608000 : Int) ≤ 0) by decide, if_false]
  rw [collectChunks, if_pos (by decide)]
  rfl

/-- C15, amended: a job with malformed parameters is rejected before any
network request. For every pair of valid timestamps of the years 0100 to 9999
where `endTime` is not later than `startTime` (as 14-digit numbers
`YYYYMMDDHHMMSS`, the end is not greater than the start), `downloadTimefree`
throws before it requests a manifest or reports progress: no step is performed
at all. A download message whose `stationId`, `startTime` or `endTime` is
missing (or empty) is rejected by `handleMessage` with the store untouched and
no step performed: the credential is not loaded and the keepalive is not
started. -/
theorem malformed_job_rejected (cfg : Static) (w : World) (maxWorkers : Nat)
    (net : ManifestRequest → Option ManifestResponse)
    (segNet : Nat → JSString → Option SegmentResponse) (sched : Nat → Nat)
    (stationId startTime endTime authToken areaId : JSString)
    (msgStation msgStart msgEnd : Option JSString) (stored : Store) :
    (validTimestamp startTime = true → validTimestamp endTime = true →
      100 ≤ digitsValue (slice startTime 0 4) → 100 ≤ digitsValue (slice endTime 0 4) →
      digitsValue endTime ≤ digitsValue startTime →
      (∃ n, diffSeconds startTime endTime = some n ∧ n ≤ 0) ∧
        downloadTimefree maxWorkers net segNet sched stationId startTime endTime
            authToken areaId = (.error .endNotAfterStart, [])) ∧
      (truthy msgStation = false ∨ truthy msgStart = false ∨ truthy msgEnd = false →
        handleDownloadTimefree cfg w maxWorkers net segNet sched msgStation msgStart msgEnd
            stored = (.error .missingParameters, stored, [])) := by
  constructor
  · intro hs he hys hye hle
    obtain ⟨a, b, ha, hb, hba⟩ := toDate_le_of_digitsValue_le endTime startTime he hs hye hys hle
    have hd : diffSeconds startTime endTime = some ((b - a + 500) / 1000) := by
      simp [diffSeconds, ha, hb]
    have hn : (b - a + 500) / 1000 ≤ 0 := by omega
    exact ⟨⟨_, hd, hn⟩,
      downloadTimefree_not_after maxWorkers net segNet sched stationId startTime endTime
        authToken areaId _ hd hn⟩
  · intro hmiss
    unfold handleDownloadTimefree
    rw [if_pos]
    rcases hmiss with h | h | h <;> simp [h]

/-- Witness for C15 (amended): a job that ends one minute before it starts,
and a message without station id. -/
theorem malformed_job_rejected_witness :
    downloadTimefree 3 exampleManifestServer exampleSegmentServer (fun n => n) "TBS".toList
        "20240101120000".toList "20240101115900".toList "token".toList "JP13".toList
      = (.error .endNotAfterStart, []) ∧
    handleDownloadTimefree exampleStatic exampleWorld 3 exampleManifestServer
        exampleSegmentServer (fun n => n) none (some "20240101120000".toList)
        (some "20240101121000".toList) exampleStore
      = (.error .missingParameters, exampleStore, []) :=
  have h := malformed_job_rejected exampleStatic exampleWorld 3 exampleManifestServer
    exampleSegmentServer (fun n => n) "TBS".toList "20240101120000".toList
    "20240101115900".toList "token".toList "JP13".toList none
    (some "20240101120000".toList) (some "20240101121000".toList) exampleStore
  ⟨(h.1 (by decide) (by decide) (by decide) (by decide) (by decide)).2, h.2 (Or.inl rfl)⟩

end RecRadiko
